import Mathlib

/-!
# PMU command/message transport: constants, predicates and wire layouts

A shallow embedding of `drivers/gpu/nvgpu/gk20a/pmu_gk20a.h` and of the unit
tests `userspace/units/mm/nvgpu_sgt/nvgpu_sgt.c`. Operations that the header
only declares (mutex arbiter, queues, sequence table, ELPG state machine) and
the functions that the unit tests call are modelled from their descriptions;
each such definition says so.

* Object-like C preprocessor constants become `Nat` constants of the same name.
* Function-like C helpers (`PMU_UNIT_ID_IS_VALID`, `PMU_IS_COMMAND_QUEUE`, ...)
  become `Bool`-valued functions of the same name; their arguments are the
  unsigned ids of the driver (`u8` unit ids, `u32` queue and mutex ids), read as
  natural numbers.
* C struct declarations become values of `CType`; `CType.sizeof`,
  `CType.alignof` and `CType.resolve` compute sizes and byte offsets with the
  usual natural-alignment rule (every scalar is aligned to its own size).
-/

namespace PmuGk20a

/-! ## Unit ids -/

def PMU_UNIT_REWIND : Nat := 0x00
def PMU_UNIT_PG : Nat := 0x03
def PMU_UNIT_INIT : Nat := 0x07
def PMU_UNIT_ACR : Nat := 0x0A
def PMU_UNIT_PERFMON_T18X : Nat := 0x11
def PMU_UNIT_PERFMON : Nat := 0x12
def PMU_UNIT_RC : Nat := 0x1F
def PMU_UNIT_FECS_MEM_OVERRIDE : Nat := 0x1E

def PMU_UNIT_END : Nat := 0x23

def PMU_UNIT_TEST_START : Nat := 0xFE
def PMU_UNIT_END_SIM : Nat := 0xFF
def PMU_UNIT_TEST_END : Nat := 0xFF

/-- `#define PMU_UNIT_ID_IS_VALID(id)
      (((id) < PMU_UNIT_END) || ((id) >= PMU_UNIT_TEST_START))` -/
def PMU_UNIT_ID_IS_VALID (id : Nat) : Bool :=
  (decide (id < PMU_UNIT_END)) || (decide (id ≥ PMU_UNIT_TEST_START))

/-! ## Queue ids -/

def PMU_COMMAND_QUEUE_HPQ : Nat := 0
def PMU_COMMAND_QUEUE_LPQ : Nat := 1
def PMU_COMMAND_QUEUE_BIOS : Nat := 2
def PMU_COMMAND_QUEUE_SMI : Nat := 3
def PMU_MESSAGE_QUEUE : Nat := 4
def PMU_QUEUE_COUNT : Nat := 5

/-- `#define PMU_IS_COMMAND_QUEUE(id) ((id) < PMU_MESSAGE_QUEUE)` -/
def PMU_IS_COMMAND_QUEUE (id : Nat) : Bool :=
  decide (id < PMU_MESSAGE_QUEUE)

/-- `#define PMU_IS_SW_COMMAND_QUEUE(id)
      (((id) == PMU_COMMAND_QUEUE_HPQ) || ((id) == PMU_COMMAND_QUEUE_LPQ))` -/
def PMU_IS_SW_COMMAND_QUEUE (id : Nat) : Bool :=
  (decide (id = PMU_COMMAND_QUEUE_HPQ)) || (decide (id = PMU_COMMAND_QUEUE_LPQ))

/-- `#define PMU_IS_MESSAGE_QUEUE(id) ((id) == PMU_MESSAGE_QUEUE)` -/
def PMU_IS_MESSAGE_QUEUE (id : Nat) : Bool :=
  decide (id = PMU_MESSAGE_QUEUE)

/-! ## Mutex ids

The anonymous `enum` starting at `PMU_MUTEX_ID_RSVD1 = 0`; every later
enumerator is its predecessor plus one. -/

def PMU_MUTEX_ID_RSVD1 : Nat := 0
def PMU_MUTEX_ID_GPUSER : Nat := PMU_MUTEX_ID_RSVD1 + 1
def PMU_MUTEX_ID_QUEUE_BIOS : Nat := PMU_MUTEX_ID_GPUSER + 1
def PMU_MUTEX_ID_QUEUE_SMI : Nat := PMU_MUTEX_ID_QUEUE_BIOS + 1
def PMU_MUTEX_ID_GPMUTEX : Nat := PMU_MUTEX_ID_QUEUE_SMI + 1
def PMU_MUTEX_ID_I2C : Nat := PMU_MUTEX_ID_GPMUTEX + 1
def PMU_MUTEX_ID_RMLOCK : Nat := PMU_MUTEX_ID_I2C + 1
def PMU_MUTEX_ID_MSGBOX : Nat := PMU_MUTEX_ID_RMLOCK + 1
def PMU_MUTEX_ID_FIFO : Nat := PMU_MUTEX_ID_MSGBOX + 1
def PMU_MUTEX_ID_PG : Nat := PMU_MUTEX_ID_FIFO + 1
def PMU_MUTEX_ID_GR : Nat := PMU_MUTEX_ID_PG + 1
def PMU_MUTEX_ID_CLK : Nat := PMU_MUTEX_ID_GR + 1
def PMU_MUTEX_ID_RSVD6 : Nat := PMU_MUTEX_ID_CLK + 1
def PMU_MUTEX_ID_RSVD7 : Nat := PMU_MUTEX_ID_RSVD6 + 1
def PMU_MUTEX_ID_RSVD8 : Nat := PMU_MUTEX_ID_RSVD7 + 1
def PMU_MUTEX_ID_RSVD9 : Nat := PMU_MUTEX_ID_RSVD8 + 1
def PMU_MUTEX_ID_INVALID : Nat := PMU_MUTEX_ID_RSVD9 + 1

/-- `#define PMU_MUTEX_ID_IS_VALID(id) ((id) < PMU_MUTEX_ID_INVALID)` -/
def PMU_MUTEX_ID_IS_VALID (id : Nat) : Bool :=
  decide (id < PMU_MUTEX_ID_INVALID)

def PMU_INVALID_MUTEX_OWNER_ID : Nat := 0

/-- The enumerators of the mutex-id `enum` whose name marks them as reserved. -/
def PMU_MUTEX_ID_RSVD : List Nat :=
  [PMU_MUTEX_ID_RSVD1, PMU_MUTEX_ID_RSVD6, PMU_MUTEX_ID_RSVD7,
   PMU_MUTEX_ID_RSVD8, PMU_MUTEX_ID_RSVD9]

/-! ## Command control flags -/

/-- Modelled from the spec: the helper `BIT(n)` used by the `PMU_CMD_FLAGS_*`
definitions is not declared in the header; it is the mask with only bit `n`
set (the spec: "`ctrl_flags` low nibble carries STATUS/INTR/EVENT/WATERMARK
bits"). -/
def BIT (n : Nat) : Nat := 1 <<< n

def PMU_CMD_FLAGS_PMU_MASK : Nat := 0xF0

def PMU_CMD_FLAGS_STATUS : Nat := BIT 0
def PMU_CMD_FLAGS_INTR : Nat := BIT 1
def PMU_CMD_FLAGS_EVENT : Nat := BIT 2
def PMU_CMD_FLAGS_WATERMARK : Nat := BIT 3

/-! ## Sequence table geometry -/

def PMU_MAX_NUM_SEQUENCES : Nat := 256
def PMU_SEQ_BIT_SHIFT : Nat := 5
/-- `#define PMU_SEQ_TBL_SIZE (PMU_MAX_NUM_SEQUENCES >> PMU_SEQ_BIT_SHIFT)` -/
def PMU_SEQ_TBL_SIZE : Nat := PMU_MAX_NUM_SEQUENCES >>> PMU_SEQ_BIT_SHIFT

/-- `unsigned long pmu_seq_tbl[PMU_SEQ_TBL_SIZE];` in `struct pmu_gk20a`: the
number of bits of the bitmap, for a target whose `unsigned long` has
`bits_per_long` bits (32 where `long` is 32 bits wide, 64 on LP64 targets such
as arm64). -/
def pmu_seq_tbl_bits (bits_per_long : Nat) : Nat := PMU_SEQ_TBL_SIZE * bits_per_long

/-- The value a `u8` object holds after `v` is assigned to it (conversion to
an 8-bit unsigned type keeps the low byte); `pmu_hdr.seq_id` and
`pmu_sequence.id` are such objects. -/
def u8 (v : Nat) : Nat := v % 2 ^ 8

/-! ## C object layout

Struct declarations of the header are kept as data, so that sizes and member
offsets are computed rather than asserted.  Layout rule: each member is placed
at the next offset that is a multiple of its alignment, a scalar is aligned to
its size, and the size of a struct or union is rounded up to its alignment. -/

inductive CType where
  | u8 : CType
  | u16 : CType
  | u32 : CType
  | arr : CType → Nat → CType
  | struct : List (String × CType) → CType
  | union : List (String × CType) → CType

/-- The least multiple of `a` that is at least `off`. -/
def alignUp (off a : Nat) : Nat := (off + a - 1) / a * a

mutual
/-- Alignment requirement of a type, `_Alignof`. -/
def CType.alignof : CType → Nat
  | .u8 => 1
  | .u16 => 2
  | .u32 => 4
  | .arr t _ => t.alignof
  | .struct fs => alignofMembers fs
  | .union fs => alignofMembers fs
/-- The strictest alignment among the members of a struct or union. -/
def alignofMembers : List (String × CType) → Nat
  | [] => 1
  | (_, t) :: fs => max t.alignof (alignofMembers fs)
end

mutual
/-- Size of a type in bytes, `sizeof`. -/
def CType.sizeof : CType → Nat
  | .u8 => 1
  | .u16 => 2
  | .u32 => 4
  | .arr t n => n * t.sizeof
  | .struct fs => alignUp (structEnd fs 0) (alignofMembers fs)
  | .union fs => alignUp (unionEnd fs) (alignofMembers fs)
/-- The offset just past the last member when the members are laid out in
declaration order starting at `off`. -/
def structEnd : List (String × CType) → Nat → Nat
  | [], off => off
  | (_, t) :: fs, off => structEnd fs (alignUp off t.alignof + t.sizeof)
/-- The size of the largest alternative of a union. -/
def unionEnd : List (String × CType) → Nat
  | [] => 0
  | (_, t) :: fs => max t.sizeof (unionEnd fs)
end

/-- Type and offset (`offsetof`) of the struct member called `nm`, the members
being laid out from offset `off` on. -/
def findMember (nm : String) : List (String × CType) → Nat → Option (CType × Nat)
  | [], _ => none
  | (n, t) :: fs, off =>
    if n = nm then some (t, alignUp off t.alignof)
    else findMember nm fs (alignUp off t.alignof + t.sizeof)

/-- Type and offset of the union alternative called `nm`; every alternative
starts at offset 0. -/
def findAlternative (nm : String) : List (String × CType) → Option (CType × Nat)
  | [] => none
  | (n, t) :: fs => if n = nm then some (t, 0) else findAlternative nm fs

/-- One step of a C designator: `.name` or `[i]`. -/
inductive Step where
  | member : String → Step
  | index : Nat → Step

/-- Type and byte offset of the sub-object that a designator selects inside an
object of type `t` placed at `base`; `none` when the designator does not apply
to the type (no such member, index out of the array, subscript of a scalar). -/
def CType.resolve (t : CType) (base : Nat) : List Step → Option (CType × Nat)
  | [] => some (t, base)
  | .member nm :: rest =>
    match t with
    | .struct fs =>
      match findMember nm fs 0 with
      | some (ft, off) => ft.resolve (base + off) rest
      | none => none
    | .union fs =>
      match findAlternative nm fs with
      | some (ft, off) => ft.resolve (base + off) rest
      | none => none
    | _ => none
  | .index i :: rest =>
    match t with
    | .arr et n => if i < n then et.resolve (base + i * et.sizeof) rest else none
    | _ => none

mutual
/-- Number of scalar sub-objects of byte width `w` that an object of the type
holds at the same time (for a union, the most among its alternatives). -/
def CType.countScalars (w : Nat) : CType → Nat
  | .u8 => if w = 1 then 1 else 0
  | .u16 => if w = 2 then 1 else 0
  | .u32 => if w = 4 then 1 else 0
  | .arr t n => n * t.countScalars w
  | .struct fs => countMembers w fs
  | .union fs => countAlternatives w fs
/-- Scalars of width `w` in all members of a struct together. -/
def countMembers (w : Nat) : List (String × CType) → Nat
  | [] => 0
  | (_, t) :: fs => t.countScalars w + countMembers w fs
/-- Scalars of width `w` in the richest alternative of a union. -/
def countAlternatives (w : Nat) : List (String × CType) → Nat
  | [] => 0
  | (_, t) :: fs => max (t.countScalars w) (countAlternatives w fs)
end

/-! ## Wire header -/

/-- `struct pmu_hdr { u8 unit_id; u8 size; u8 ctrl_flags; u8 seq_id; };` -/
def struct_pmu_hdr : CType :=
  .struct [("unit_id", .u8), ("size", .u8), ("ctrl_flags", .u8), ("seq_id", .u8)]

/-- `#define PMU_MSG_HDR_SIZE sizeof(struct pmu_hdr)` -/
def PMU_MSG_HDR_SIZE : Nat := struct_pmu_hdr.sizeof
/-- `#define PMU_CMD_HDR_SIZE sizeof(struct pmu_hdr)` -/
def PMU_CMD_HDR_SIZE : Nat := struct_pmu_hdr.sizeof

/-- A value of `struct pmu_hdr`: one number per member. -/
structure pmu_hdr where
  unit_id : Nat
  size : Nat
  ctrl_flags : Nat
  seq_id : Nat

/-- Every member holds a value of its type `u8`. -/
def pmu_hdr.wf (h : pmu_hdr) : Prop :=
  h.unit_id < 2 ^ 8 ∧ h.size < 2 ^ 8 ∧ h.ctrl_flags < 2 ^ 8 ∧ h.seq_id < 2 ^ 8

instance (h : pmu_hdr) : Decidable h.wf := by
  unfold pmu_hdr.wf
  infer_instance

/-- `offsetof(struct pmu_hdr, nm)`, computed from the declaration. -/
def pmu_hdr.offsetof (nm : String) : Nat :=
  match struct_pmu_hdr.resolve 0 [.member nm] with
  | some (_, off) => off
  | none => 0

/-- The object representation of a header: `sizeof(struct pmu_hdr)` bytes,
each member stored as a `u8` at its offset. -/
def pmu_hdr.store (h : pmu_hdr) : List Nat :=
  ((((List.replicate struct_pmu_hdr.sizeof 0).set
    (pmu_hdr.offsetof "unit_id") (u8 h.unit_id)).set
    (pmu_hdr.offsetof "size") (u8 h.size)).set
    (pmu_hdr.offsetof "ctrl_flags") (u8 h.ctrl_flags)).set
    (pmu_hdr.offsetof "seq_id") (u8 h.seq_id)

/-- The header held by an image of `sizeof(struct pmu_hdr)` bytes: each member
read back from its offset; `none` for an image of another length. -/
def pmu_hdr.load (m : List Nat) : Option pmu_hdr :=
  if m.length = struct_pmu_hdr.sizeof then
    some (pmu_hdr.mk
      (m.getD (pmu_hdr.offsetof "unit_id") 0)
      (m.getD (pmu_hdr.offsetof "size") 0)
      (m.getD (pmu_hdr.offsetof "ctrl_flags") 0)
      (m.getD (pmu_hdr.offsetof "seq_id") 0))
  else none

/-! ## Init message layouts -/

/-- The anonymous element type of `queue_info[]` in layouts v0, v1 and v2:
`struct { u16 size; u16 offset; u8 index; u8 pad; }`. -/
def struct_queue_info : CType :=
  .struct [("size", .u16), ("offset", .u16), ("index", .u8), ("pad", .u8)]

/-- `struct pmu_init_msg_pmu_v0` -/
def struct_pmu_init_msg_pmu_v0 : CType :=
  .struct [
    ("msg_type", .u8),
    ("pad", .u8),
    ("queue_info", .arr struct_queue_info PMU_QUEUE_COUNT),
    ("sw_managed_area_offset", .u16),
    ("sw_managed_area_size", .u16)]

/-- `struct pmu_init_msg_pmu_v1` -/
def struct_pmu_init_msg_pmu_v1 : CType :=
  .struct [
    ("msg_type", .u8),
    ("pad", .u8),
    ("os_debug_entry_point", .u16),
    ("queue_info", .arr struct_queue_info PMU_QUEUE_COUNT),
    ("sw_managed_area_offset", .u16),
    ("sw_managed_area_size", .u16)]

/-- `struct pmu_init_msg_pmu_v2` -/
def struct_pmu_init_msg_pmu_v2 : CType :=
  .struct [
    ("msg_type", .u8),
    ("pad", .u8),
    ("os_debug_entry_point", .u16),
    ("queue_info", .arr struct_queue_info PMU_QUEUE_COUNT),
    ("sw_managed_area_offset", .u16),
    ("sw_managed_area_size", .u16),
    ("dummy", .arr .u8 18)]

/-- `struct pmu_init_msg_pmu_v3` -/
def struct_pmu_init_msg_pmu_v3 : CType :=
  .struct [
    ("msg_type", .u8),
    ("queue_index", .arr .u8 PMU_QUEUE_COUNT),
    ("queue_size", .arr .u16 PMU_QUEUE_COUNT),
    ("queue_offset", .u16),
    ("sw_managed_area_offset", .u16),
    ("sw_managed_area_size", .u16),
    ("os_debug_entry_point", .u16),
    ("dummy", .arr .u8 18)]

/-- Where a layout keeps parameter `nm` (`size`, `offset` or `index`) of queue
`q`: in member `nm` of element `q` of a `queue_info` array, or else in element
`q` of an array member called `queue_<nm>`. -/
def queueParam (t : CType) (q : Nat) (nm : String) : Option (CType × Nat) :=
  match t.resolve 0 [.member "queue_info", .index q, .member nm] with
  | some r => some r
  | none => t.resolve 0 [.member ("queue_" ++ nm), .index q]

/-- The type is the unsigned scalar of byte width `w`. -/
def CType.isScalar (w : Nat) : CType → Bool
  | .u8 => w == 1
  | .u16 => w == 2
  | .u32 => w == 4
  | _ => false

/-- The layout has, for each of the `PMU_QUEUE_COUNT` queues, a scalar of byte
width `w` of its own for parameter `nm`. -/
def advertisesQueueParam (t : CType) (nm : String) (w : Nat) : Bool :=
  (List.range PMU_QUEUE_COUNT).all fun q =>
    match queueParam t q nm with
    | some (ty, _) => ty.isScalar w
    | none => false

/-- The layout has a scalar member `nm` of byte width `w`. -/
def hasScalarMember (t : CType) (nm : String) (w : Nat) : Bool :=
  match t.resolve 0 [.member nm] with
  | some (ty, _) => ty.isScalar w
  | none => false

/-- The layout advertises the geometry of every queue: per queue a `u16` size,
a `u16` offset and a `u8` index, and once a `u16` software-managed-area offset
and a `u16` software-managed-area size. -/
def advertisesQueueGeometry (t : CType) : Bool :=
  advertisesQueueParam t "size" 2 && advertisesQueueParam t "offset" 2 &&
  advertisesQueueParam t "index" 1 &&
  hasScalarMember t "sw_managed_area_offset" 2 &&
  hasScalarMember t "sw_managed_area_size" 2

/-! ## Scalar leaves and member lists of a layout -/

/-- The members of a struct or union in declaration order; a scalar or an
array has none. -/
def CType.members : CType → List (String × CType)
  | .struct fs => fs
  | .union fs => fs
  | _ => []

mutual
/-- The scalar sub-objects of an object of the type placed at `base`, in
address order of declaration: for each one its designator (prefixed by
`path`), its byte width and its byte offset. -/
def CType.leaves : CType → Nat → List Step → List (List Step × Nat × Nat)
  | .u8, base, path => [(path, 1, base)]
  | .u16, base, path => [(path, 2, base)]
  | .u32, base, path => [(path, 4, base)]
  | .arr t n, base, path =>
    (List.range n).flatMap fun i => t.leaves (base + i * t.sizeof) (path ++ [.index i])
  | .struct fs, base, path => leavesMembers fs base 0 path
  | .union fs, base, path => leavesAlternatives fs base path
/-- The leaves of the members of a struct laid out from offset `off` on. -/
def leavesMembers : List (String × CType) → Nat → Nat → List Step →
    List (List Step × Nat × Nat)
  | [], _, _, _ => []
  | (n, t) :: fs, base, off, path =>
    t.leaves (base + alignUp off t.alignof) (path ++ [.member n]) ++
      leavesMembers fs base (alignUp off t.alignof + t.sizeof) path
/-- The leaves of all alternatives of a union, each starting at `base`. -/
def leavesAlternatives : List (String × CType) → Nat → List Step →
    List (List Step × Nat × Nat)
  | [], _, _ => []
  | (n, t) :: fs, base, path =>
    t.leaves base (path ++ [.member n]) ++ leavesAlternatives fs base path
end

/-! ## Memory descriptors and allocations -/

/-- `struct falc_u64 { u32 lo; u32 hi; };` -/
def struct_falc_u64 : CType := .struct [("lo", .u32), ("hi", .u32)]

/-- `struct pmu_mem_v0 { u32 dma_base; u8 dma_offset; u8 dma_idx; };` -/
def struct_pmu_mem_v0 : CType :=
  .struct [("dma_base", .u32), ("dma_offset", .u8), ("dma_idx", .u8)]

/-- `struct pmu_mem_v1 { u32 dma_base; u8 dma_offset; u8 dma_idx; u16 fb_size; };` -/
def struct_pmu_mem_v1 : CType :=
  .struct [("dma_base", .u32), ("dma_offset", .u8), ("dma_idx", .u8), ("fb_size", .u16)]

/-- `struct pmu_mem_desc_v0 { struct falc_u64 dma_addr; u16 dma_sizemax; u8 dma_idx; };` -/
def struct_pmu_mem_desc_v0 : CType :=
  .struct [("dma_addr", struct_falc_u64), ("dma_sizemax", .u16), ("dma_idx", .u8)]

/-- `struct pmu_dmem { u16 size; u32 offset; };` -/
def struct_pmu_dmem : CType := .struct [("size", .u16), ("offset", .u32)]

/-- `struct flcn_u64 { u32 lo; u32 hi; };` -/
def struct_flcn_u64 : CType := .struct [("lo", .u32), ("hi", .u32)]

/-- `struct flcn_mem_desc_v0 { struct flcn_u64 address; u32 params; };` -/
def struct_flcn_mem_desc_v0 : CType :=
  .struct [("address", struct_flcn_u64), ("params", .u32)]

/-- `struct pmu_allocation_v0 { u8 pad[3]; u8 fb_mem_use;
      struct { struct pmu_dmem dmem; struct pmu_mem_v0 fb; } alloc; };` -/
def struct_pmu_allocation_v0 : CType :=
  .struct [
    ("pad", .arr .u8 3),
    ("fb_mem_use", .u8),
    ("alloc", .struct [("dmem", struct_pmu_dmem), ("fb", struct_pmu_mem_v0)])]

/-- `struct pmu_allocation_v1 {
      struct { struct pmu_dmem dmem; struct pmu_mem_v1 fb; } alloc; };` -/
def struct_pmu_allocation_v1 : CType :=
  .struct [("alloc", .struct [("dmem", struct_pmu_dmem), ("fb", struct_pmu_mem_v1)])]

/-- `struct pmu_allocation_v2 {
      struct { struct pmu_dmem dmem; struct pmu_mem_desc_v0 fb; } alloc; };` -/
def struct_pmu_allocation_v2 : CType :=
  .struct [("alloc", .struct [("dmem", struct_pmu_dmem), ("fb", struct_pmu_mem_desc_v0)])]

/-- `struct pmu_allocation_v3 {
      struct { struct pmu_dmem dmem; struct flcn_mem_desc_v0 fb; } alloc; };` -/
def struct_pmu_allocation_v3 : CType :=
  .struct [("alloc", .struct [("dmem", struct_pmu_dmem), ("fb", struct_flcn_mem_desc_v0)])]

/-- The type of the framebuffer descriptor `alloc.fb` of an allocation layout,
with its offset in the allocation. -/
def allocation_fb (t : CType) : Option (CType × Nat) :=
  t.resolve 0 [.member "alloc", .member "fb"]

/-! ## ELPG state codes -/

def PMU_ELPG_STAT_OFF : Nat := 0
def PMU_ELPG_STAT_ON : Nat := 1
def PMU_ELPG_STAT_ON_PENDING : Nat := 2
def PMU_ELPG_STAT_OFF_PENDING : Nat := 3
def PMU_ELPG_STAT_OFF_ON_PENDING : Nat := 4

/-- The codes that the header defines for `pmu_gk20a.elpg_stat`. -/
def PMU_ELPG_STAT_codes : List Nat :=
  [PMU_ELPG_STAT_OFF, PMU_ELPG_STAT_ON, PMU_ELPG_STAT_ON_PENDING,
   PMU_ELPG_STAT_OFF_PENDING, PMU_ELPG_STAT_OFF_ON_PENDING]

/-! ## ELPG state machine

`gk20a_pmu_enable_elpg` and `gk20a_pmu_disable_elpg` are only declared in the
header; the transitions below follow the specification of the state machine. -/

/-- The state of one engine, named after the `PMU_ELPG_STAT_*` codes. -/
inductive ElpgStat where
  | OFF
  | ON
  | ON_PENDING
  | OFF_PENDING
  | OFF_ON_PENDING
  deriving DecidableEq, Repr

/-- The `PMU_ELPG_STAT_*` code stored in `elpg_stat` for a state. -/
def ElpgStat.code : ElpgStat → Nat
  | .OFF => PMU_ELPG_STAT_OFF
  | .ON => PMU_ELPG_STAT_ON
  | .ON_PENDING => PMU_ELPG_STAT_ON_PENDING
  | .OFF_PENDING => PMU_ELPG_STAT_OFF_PENDING
  | .OFF_ON_PENDING => PMU_ELPG_STAT_OFF_ON_PENDING

/-- What can happen to the state machine of one engine: the two requests of
the host and the messages of the firmware. -/
inductive ElpgEvent where
  | request_enable
  | request_enable_delayed
  | allow_delay_elapsed
  | request_disable
  | ALLOW_ACK
  | DISALLOW_ACK
  | FREEZE_ABORT
  deriving DecidableEq, Repr

/-- Modelled from the spec: the bodies of `gk20a_pmu_enable_elpg`,
`gk20a_pmu_disable_elpg` and of the ELPG message handler are missing; this is
the transition table of the spec (4.6).
"`request_enable()`: OFF → send ALLOW, state=ON_PENDING. ON_PENDING + enable
request → no-op. OFF_PENDING + enable request → state=OFF_ON_PENDING."
"`request_disable()`: ON → send DISALLOW, state=OFF_PENDING. OFF_ON_PENDING +
disable request → ... the queued opposite is retracted" (back to OFF_PENDING).
"On ALLOW_ACK received while ON_PENDING: state=ON."
"On DISALLOW_ACK received while OFF_PENDING: if OFF_ON_PENDING was queued,
immediately send ALLOW and move to ON_PENDING; else state=OFF."
"FREEZE_ABORT returns to the pre-freeze state without side effects on the
ON/OFF state."
"Any ack arriving in a state that does not expect it is a ProtocolViolation:
... state is forced to a safe OFF-equivalent."
A request in a state for which the spec lists no transition leaves the state
as it is (a disable request made while ON_PENDING takes effect once the state
is ON). The optional step of the header's comment, "OFF => [OFF_ON_PENDING
optional] => ON_PENDING => ON => OFF", with `PMU_ELPG_STAT_OFF_ON_PENDING`
documented as "elpg is off, caller has requested on, but ALLOW cmd hasn't been
sent due to ENABLE_ALLOW delay", is the pair of events
`request_enable_delayed` (OFF to OFF_ON_PENDING) and `allow_delay_elapsed`
(ALLOW is sent, OFF_ON_PENDING to ON_PENDING). -/
def elpg_step : ElpgStat → ElpgEvent → ElpgStat
  | .OFF, .request_enable => .ON_PENDING
  | .ON_PENDING, .request_enable => .ON_PENDING
  | .OFF_PENDING, .request_enable => .OFF_ON_PENDING
  | s, .request_enable => s
  | .OFF, .request_enable_delayed => .OFF_ON_PENDING
  | s, .request_enable_delayed => s
  | .OFF_ON_PENDING, .allow_delay_elapsed => .ON_PENDING
  | s, .allow_delay_elapsed => s
  | .ON, .request_disable => .OFF_PENDING
  | .OFF_ON_PENDING, .request_disable => .OFF_PENDING
  | s, .request_disable => s
  | .ON_PENDING, .ALLOW_ACK => .ON
  | _, .ALLOW_ACK => .OFF
  | .OFF_PENDING, .DISALLOW_ACK => .OFF
  | .OFF_ON_PENDING, .DISALLOW_ACK => .ON_PENDING
  | _, .DISALLOW_ACK => .OFF
  | s, .FREEZE_ABORT => s

/-- The transitions `(state before, event, state after)` of the run that
starts in state `s` and receives the events in order. -/
def elpg_transitions : ElpgStat → List ElpgEvent → List (ElpgStat × ElpgEvent × ElpgStat)
  | _, [] => []
  | s, e :: es => (s, e, elpg_step s e) :: elpg_transitions (elpg_step s e) es

/-- The state in which the run from `s` over the events ends. -/
def elpg_run : ElpgStat → List ElpgEvent → ElpgStat
  | s, [] => s
  | s, e :: es => elpg_run (elpg_step s e) es

/-! ## Resource mutex arbiter

`pmu_mutex_acquire` and `pmu_mutex_release` are only declared in the header;
the operations below follow the specification of the arbiter. -/

/-- The ways in which `acquire` and `release` fail. -/
inductive MutexError where
  | InvalidId
  | Timeout
  | NotOwned
  | TokenMismatch
  deriving DecidableEq, Repr

/-- The state of the arbiter: for every mutex id the reference count
(`struct pmu_mutex`, member `ref_cnt`), whether the host holds the hardware
lock of that mutex, and the token that the hardware granted last. -/
structure MutexArbiter where
  ref_cnt : Nat → Nat
  hw_locked : Nat → Bool
  token : Nat → Nat

/-- The arbiter before any call: no reference, no hardware lock, no token
(`PMU_INVALID_MUTEX_OWNER_ID`). -/
def MutexArbiter.init : MutexArbiter :=
  MutexArbiter.mk (fun _ => 0) (fun _ => false) (fun _ => PMU_INVALID_MUTEX_OWNER_ID)

/-- Modelled from the spec: the body of `pmu_mutex_acquire` is missing. Spec
(4.1): "`acquire` fails with `InvalidId` if `mutex_id` is not in the valid
enumerated range. It increments the logical reference count; if this is the
first acquirer, it performs the hardware handshake ..., failing with `Timeout`
if the hardware never grants ownership. Returns the opaque token issued by
hardware (or a default token if already held by this caller via ref-count >
0)."  The outcome of the handshake is the argument `grant`: the token the
hardware issued within the attempt budget, or `none` if it never granted
ownership. The result is the new state and the token returned (`none` for the
default token); a failing call leaves the state as it was. -/
def mutex_acquire (id : Nat) (grant : Option Nat) (s : MutexArbiter) :
    Except MutexError (MutexArbiter × Option Nat) :=
  if PMU_MUTEX_ID_IS_VALID id = false then .error .InvalidId
  else if 0 < s.ref_cnt id then
    .ok (MutexArbiter.mk (Function.update s.ref_cnt id (s.ref_cnt id + 1))
      s.hw_locked s.token, none)
  else
    match grant with
    | none => .error .Timeout
    | some t =>
      .ok (MutexArbiter.mk (Function.update s.ref_cnt id (s.ref_cnt id + 1))
        (Function.update s.hw_locked id true) (Function.update s.token id t), some t)

/-- Modelled from the spec: the body of `pmu_mutex_release` is missing. Spec
(4.1): "`release` fails with `NotOwned` if ref-count is already zero or
`TokenMismatch` if the supplied token doesn't match the last-granted token.
Decrements ref-count; when it reaches zero, writes the release register."
A failing call leaves the state as it was. -/
def mutex_release (id : Nat) (tok : Nat) (s : MutexArbiter) :
    Except MutexError MutexArbiter :=
  if s.ref_cnt id = 0 then .error .NotOwned
  else if tok ≠ s.token id then .error .TokenMismatch
  else
    .ok (MutexArbiter.mk (Function.update s.ref_cnt id (s.ref_cnt id - 1))
      (if s.ref_cnt id - 1 = 0 then Function.update s.hw_locked id false else s.hw_locked)
      s.token)

/-- The calls of `acquire`, one per handshake outcome in `grants`, made in
order on mutex `id`; the result is the state after the last call if every call
succeeded. -/
def mutex_acquire_all (id : Nat) : List (Option Nat) → MutexArbiter →
    Except MutexError MutexArbiter
  | [], s => .ok s
  | g :: gs, s =>
    match mutex_acquire id g s with
    | .ok (s1, _) => mutex_acquire_all id gs s1
    | .error e => .error e

/-- The calls of `release` on mutex `id`, `n` of them, each with the token that
the hardware granted last; the state after the last call if every call
succeeded. -/
def mutex_release_n (id : Nat) : Nat → MutexArbiter → Except MutexError MutexArbiter
  | 0, s => .ok s
  | n + 1, s =>
    match mutex_release id (s.token id) s with
    | .ok s1 => mutex_release_n id n s1
    | .error e => .error e

/-- The states the arbiter can be in: the initial one, and the state after a
successful `acquire` or `release` made in such a state. -/
inductive MutexReachable : MutexArbiter → Prop where
  | init : MutexReachable MutexArbiter.init
  | acquire (id : Nat) (grant : Option Nat) (s s1 : MutexArbiter) (tok : Option Nat) :
      MutexReachable s → mutex_acquire id grant s = .ok (s1, tok) → MutexReachable s1
  | release (id tok : Nat) (s s1 : MutexArbiter) :
      MutexReachable s → mutex_release id tok s = .ok s1 → MutexReachable s1

/-! ## Sequence table

The header declares the table (`PMU_MAX_NUM_SEQUENCES`, the bitmap
`pmu_seq_tbl`, `next_seq_desc`, the `PMU_SEQ_STATE_*` codes) and `pmu_seq_init`;
the operations on it are not in the header and follow the specification. -/

def PMU_SEQ_STATE_FREE : Nat := 0
def PMU_SEQ_STATE_PENDING : Nat := PMU_SEQ_STATE_FREE + 1
def PMU_SEQ_STATE_USED : Nat := PMU_SEQ_STATE_PENDING + 1
def PMU_SEQ_STATE_CANCELLED : Nat := PMU_SEQ_STATE_USED + 1

/-- The ways in which `allocate` and `free` fail. -/
inductive SeqError where
  | ExhaustedTable
  | DoubleFree
  deriving DecidableEq, Repr

/-- The sequence table: the free bitmap `pmu_seq_tbl` (one bit per entry, set
when the entry is taken), the state and the descriptor of every entry
(`struct pmu_sequence`, members `state` and `desc`), and `next_seq_desc`. -/
structure SeqTable where
  pmu_seq_tbl : List Bool
  state : List Nat
  desc : List Nat
  next_seq_desc : Nat

/-- The table with all `PMU_MAX_NUM_SEQUENCES` entries free. -/
def SeqTable.empty : SeqTable :=
  SeqTable.mk (List.replicate PMU_MAX_NUM_SEQUENCES false)
    (List.replicate PMU_MAX_NUM_SEQUENCES PMU_SEQ_STATE_FREE)
    (List.replicate PMU_MAX_NUM_SEQUENCES 0) 0

/-- The position of the lowest clear bit of a bitmap, its length if no bit is
clear. -/
def lowest_clear_bit : List Bool → Nat
  | [] => 0
  | b :: bs => if b then lowest_clear_bit bs + 1 else 0

/-- Modelled from the spec: the allocation of a sequence is missing from the
sources. Spec (4.3): "`allocate` scans the free bitmap for the lowest clear
bit; fails with `ExhaustedTable` if all 256 entries are Pending/Used. On
success, marks Pending and returns a monotonically-increasing opaque
descriptor (distinct from the raw index) ...; the mapping from descriptor to
index is maintained internally". The result is the table after the call and
either the error or the index together with the descriptor. -/
def seq_allocate (t : SeqTable) : SeqTable × Except SeqError (Nat × Nat) :=
  let index := lowest_clear_bit t.pmu_seq_tbl
  if index < PMU_MAX_NUM_SEQUENCES then
    (SeqTable.mk (t.pmu_seq_tbl.set index true) (t.state.set index PMU_SEQ_STATE_PENDING)
      (t.desc.set index t.next_seq_desc) (t.next_seq_desc + 1),
     .ok (index, t.next_seq_desc))
  else (t, .error .ExhaustedTable)

/-- Modelled from the spec: the release of a sequence is missing from the
sources. Spec (4.3): "`free` is idempotent-guarded: freeing an already-Free
entry is a logic error surfaced as `DoubleFree`; it clears the bitmap bit and
the entry's payload pointers". The result is the table after the call and the
error, if any. -/
def seq_free (index : Nat) (t : SeqTable) : SeqTable × Except SeqError Unit :=
  if t.state.getD index PMU_SEQ_STATE_FREE = PMU_SEQ_STATE_FREE then
    (t, .error .DoubleFree)
  else
    (SeqTable.mk (t.pmu_seq_tbl.set index false) (t.state.set index PMU_SEQ_STATE_FREE)
      t.desc t.next_seq_desc, .ok ())

/-- The indices returned by `n` consecutive allocations, and the table after
them, if all of them succeed. -/
def seq_allocate_n : Nat → SeqTable → Except SeqError (List Nat × SeqTable)
  | 0, t => .ok ([], t)
  | n + 1, t =>
    match seq_allocate t with
    | (t1, .ok (index, _)) =>
      match seq_allocate_n n t1 with
      | .ok (indices, t2) => .ok (index :: indices, t2)
      | .error e => .error e
    | (_, .error e) => .error e

/-! ## Command/message queue

The header declares `struct pmu_queue`, the open flags and `QUEUE_ALIGNMENT`;
the queue operations are not in the header and follow the specification. -/

def OFLAG_READ : Nat := 0
def OFLAG_WRITE : Nat := OFLAG_READ + 1

def QUEUE_ALIGNMENT : Nat := 4

/-- The software view of a queue (`struct pmu_queue` without its lock
members). `position` is the read or write position in bytes, counted from the
place `offset` where the queue begins, so that it wraps at `size`. -/
structure pmu_queue where
  position : Nat
  offset : Nat
  id : Nat
  index : Nat
  size : Nat
  oflag : Nat
  opened : Bool

/-- The ways in which `read` and `write` fail. -/
inductive QueueError where
  | Misaligned
  | Overflow
  | NotOpen
  deriving DecidableEq, Repr

/-- Modelled from the spec: the set-up of a queue from the advertised layout
is missing. Spec (3): "opened when the transport is initialized from the
firmware's advertised layout (size/offset per queue)"; a new queue is closed
and its position is at the beginning. -/
def pmu_queue_init (id index offset size : Nat) : pmu_queue :=
  pmu_queue.mk 0 offset id index size OFLAG_READ false

/-- Modelled from the spec: `open(queue_id, mode)` (4.2) is missing; it marks
the queue open in the given mode. -/
def pmu_queue_open (q : pmu_queue) (oflag : Nat) : pmu_queue :=
  pmu_queue.mk q.position q.offset q.id q.index q.size oflag true

/-- Modelled from the spec: `close(queue_id)` (4.2) is missing; it marks the
queue closed. -/
def pmu_queue_close (q : pmu_queue) : pmu_queue :=
  pmu_queue.mk q.position q.offset q.id q.index q.size q.oflag false

/-- Modelled from the spec: `rewind(queue_id)` (4.2) is missing; it takes the
position back to the queue's base offset. -/
def pmu_queue_rewind (q : pmu_queue) : pmu_queue :=
  pmu_queue.mk 0 q.offset q.id q.index q.size q.oflag q.opened

/-- Modelled from the spec: the common part of `read` and `write` (4.2) is
missing. "writer advances its position by `len` rounded up to alignment,
wrapping to the queue's base offset when exceeding its size"; "`write`/`read`
fail with `Misaligned` if `len` is not representable after alignment,
`Overflow` if capacity is insufficient, `NotOpen` if the queue was not opened
in the matching mode"; (8.3) "writes whose cumulative aligned size would
exceed C before wraparound fail with `Overflow`; writes that exactly fill to
the boundary succeed and wrap correctly on the next write". Lengths are
`u32`. A failing call leaves the queue as it was. -/
def pmu_queue_advance (q : pmu_queue) (oflag len : Nat) : Except QueueError pmu_queue :=
  if q.opened = false ∨ q.oflag ≠ oflag then .error .NotOpen
  else if 2 ^ 32 ≤ alignUp len QUEUE_ALIGNMENT then .error .Misaligned
  else
    let start := if q.size ≤ q.position then 0 else q.position
    if q.size < start + alignUp len QUEUE_ALIGNMENT then .error .Overflow
    else .ok (pmu_queue.mk (start + alignUp len QUEUE_ALIGNMENT)
      q.offset q.id q.index q.size q.oflag q.opened)

/-- Modelled from the spec: `write(queue_id, buf, len)` (4.2), as far as the
position is concerned. -/
def pmu_queue_write (q : pmu_queue) (len : Nat) : Except QueueError pmu_queue :=
  pmu_queue_advance q OFLAG_WRITE len

/-- Modelled from the spec: `read(queue_id, buf, len)` (4.2), as far as the
position is concerned. -/
def pmu_queue_read (q : pmu_queue) (len : Nat) : Except QueueError pmu_queue :=
  pmu_queue_advance q OFLAG_READ len

/-- The states a queue set up with the given geometry can be in. -/
inductive QueueReachable (id index offset size : Nat) : pmu_queue → Prop where
  | init : QueueReachable id index offset size (pmu_queue_init id index offset size)
  | after_open (q : pmu_queue) (oflag : Nat) :
      QueueReachable id index offset size q →
      QueueReachable id index offset size (pmu_queue_open q oflag)
  | after_close (q : pmu_queue) :
      QueueReachable id index offset size q →
      QueueReachable id index offset size (pmu_queue_close q)
  | after_rewind (q : pmu_queue) :
      QueueReachable id index offset size q →
      QueueReachable id index offset size (pmu_queue_rewind q)
  | after_write (q q1 : pmu_queue) (len : Nat) :
      QueueReachable id index offset size q → pmu_queue_write q len = .ok q1 →
      QueueReachable id index offset size q1
  | after_read (q q1 : pmu_queue) (len : Nat) :
      QueueReachable id index offset size q → pmu_queue_read q len = .ok q1 →
      QueueReachable id index offset size q1

/-! ## Scatter-gather tables: the unit tests of `nvgpu_sgt`

`userspace/units/mm/nvgpu_sgt/nvgpu_sgt.c` tests the scatter-gather API. The
tests are embedded as they are written; the functions they call
(`nvgpu_sgt_get_next`, `nvgpu_sgt_alignment`, `nvgpu_sgt_create_from_mem`) and
the headers they include are not among the sources. A chain of entries linked
by `next` is a list: a pointer to an entry is the part of the chain that
starts at that entry, and `NULL` is the empty list. -/

/-- Modelled from the spec: `nvgpu/sizes.h` is missing; the byte counts that
the names say. -/
def SZ_4K : Nat := 0x1000
/-- Modelled from the spec: `nvgpu/sizes.h` is missing. -/
def SZ_64K : Nat := 0x10000
/-- Modelled from the spec: `nvgpu/sizes.h` is missing. -/
def SZ_128K : Nat := 0x20000
/-- Modelled from the spec: `nvgpu/sizes.h` is missing. -/
def SZ_1M : Nat := 0x100000
/-- Modelled from the spec: `nvgpu/sizes.h` is missing. -/
def SZ_256M : Nat := 0x10000000

/-- The result of a unit test (`UNIT_SUCCESS`, `UNIT_FAIL` of `unit/unit.h`). -/
inductive UnitResult where
  | UNIT_SUCCESS
  | UNIT_FAIL
  deriving DecidableEq, Repr

/-- One scatter-gather entry, with the members the tests assign: `phys`, `dma`
and `length` (all `u64`); the member `next` is the rest of the list. -/
structure nvgpu_mem_sgl where
  phys : Nat
  dma : Nat
  length : Nat
  deriving DecidableEq, Repr

/-- A scatter-gather table: its chain of entries `sgl`. -/
structure nvgpu_sgt where
  sgl : List nvgpu_mem_sgl

/-- The switches of the POSIX build that the tests set:
`mm_is_iommuable` (the GPU is behind an IOMMU) and `mm_sgt_is_iommuable`
(tables are IOMMU-able). -/
structure nvgpu_os_posix where
  mm_is_iommuable : Bool
  mm_sgt_is_iommuable : Bool

/-- The members of `struct nvgpu_mem` that the tests set. -/
structure nvgpu_mem where
  size : Nat
  cpu_va : Nat

/-- Modelled from the spec: `nvgpu_sgt_create_from_mem` is missing; as
`test_nvgpu_sgt_basic_apis` and `test_nvgpu_sgt_alignment_with_iommu` use it,
it makes a table of one entry whose physical address is `cpu_va` and whose
length is the size of the buffer, with no DMA address yet. -/
def nvgpu_sgt_create_from_mem (mem : nvgpu_mem) : nvgpu_sgt :=
  nvgpu_sgt.mk [nvgpu_mem_sgl.mk mem.cpu_va 0 mem.size]

/-- Modelled from the spec: `nvgpu_sgt_get_next` is missing; as
`test_nvgpu_sgt_get_next` expects, it returns the `next` pointer of the entry
it is given. `none` stands for the dereference of `NULL`. -/
def nvgpu_sgt_get_next (_sgt : nvgpu_sgt) (sgl : List nvgpu_mem_sgl) :
    Option (List nvgpu_mem_sgl) :=
  match sgl with
  | [] => none
  | _ :: next => some next

/-- The index of the lowest set bit of `x`, looked for in the low `fuel`
bits. -/
def ffs_fuel : Nat → Nat → Nat
  | 0, _ => 0
  | fuel + 1, x => if x % 2 = 1 then 0 else ffs_fuel fuel (x / 2) + 1

/-- The largest power of two that divides the non-zero `u64` value `x`. -/
def pow2_alignment (x : Nat) : Nat := 2 ^ ffs_fuel 64 x

/-- The alignment of one entry: the largest power of two dividing its
physical address OR its length. -/
def sgl_chunk_align (e : nvgpu_mem_sgl) : Nat := pow2_alignment (e.phys ||| e.length)

/-- The alignment computed from the physical entries of a chain: the minimum
of the alignments of its entries (0 for an empty chain). -/
def sgl_phys_alignment : List nvgpu_mem_sgl → Nat
  | [] => 0
  | first :: rest => rest.foldl (fun align e => min align (sgl_chunk_align e))
      (sgl_chunk_align first)

/-- Modelled from the spec: `nvgpu_sgt_alignment` is missing; this is what its
unit tests document. `test_nvgpu_sgt_alignment_with_iommu`: "For this case, we
need: 1. an IOMMU 2. the sgt to be marked IOMMU'able 3. DMA addr != 0 ...
Because if it's IOMMU'able the alignment is based on the DMA address", the
address being that of the first entry; otherwise the alignment is computed
from the physical entries, as the expected results of `sgt_align_test_array`
show. -/
def nvgpu_sgt_alignment (p : nvgpu_os_posix) (sgt : nvgpu_sgt) : Nat :=
  match sgt.sgl with
  | [] => 0
  | first :: rest =>
    if p.mm_is_iommuable && p.mm_sgt_is_iommuable && first.dma != 0 then
      pow2_alignment first.dma
    else sgl_phys_alignment (first :: rest)

/-- `struct sgt_test_align_table { u64 addr; u64 length; };` -/
structure sgt_test_align_table where
  addr : Nat
  length : Nat

/-- `struct sgt_test_align_args`: the expected alignment, the number of
entries, and the entries. -/
structure sgt_test_align_args where
  test_align_result : Nat
  test_align_table_len : Nat
  test_align_table : List sgt_test_align_table

/-- The table `sgt_align_test_array` of the test. -/
def sgt_align_test_array : List sgt_test_align_args :=
  [ sgt_test_align_args.mk SZ_1M 3
      [sgt_test_align_table.mk 0x00000000 SZ_1M,
       sgt_test_align_table.mk 0x00400000 SZ_1M,
       sgt_test_align_table.mk 0x00200000 SZ_1M],
    sgt_test_align_args.mk SZ_4K 3
      [sgt_test_align_table.mk 0x00000000 SZ_4K,
       sgt_test_align_table.mk 0x00200000 SZ_64K,
       sgt_test_align_table.mk 0x00100000 SZ_1M],
    sgt_test_align_args.mk SZ_4K 3
      [sgt_test_align_table.mk 0x00100000 SZ_1M,
       sgt_test_align_table.mk 0x00010000 SZ_64K,
       sgt_test_align_table.mk 0x00001000 SZ_4K],
    sgt_test_align_args.mk SZ_4K 3
      [sgt_test_align_table.mk 0x00100000 SZ_1M,
       sgt_test_align_table.mk 0x00010000 SZ_64K,
       sgt_test_align_table.mk 0x00001000 SZ_128K] ]

/-- The loop "create sgl for this test" of the tests: `len` entries are
allocated one after the other, each linked behind the previous one, entry `i`
being filled with `entry i`. -/
def sgl_build (entry : Nat → nvgpu_mem_sgl) : Nat → List nvgpu_mem_sgl
  | 0 => []
  | i + 1 => sgl_build entry i ++ [entry i]

/-- `test_table_nvgpu_sgt_alignment_non_iommu`: builds the chain of one row of
the table (entries past the initialised ones are zero), makes it the chain of
a table, and compares `nvgpu_sgt_alignment` with the expected result. -/
def test_table_nvgpu_sgt_alignment_non_iommu (p : nvgpu_os_posix)
    (args : sgt_test_align_args) : UnitResult :=
  let test_sgl := sgl_build (fun i =>
    let row := args.test_align_table.getD i (sgt_test_align_table.mk 0 0)
    nvgpu_mem_sgl.mk row.addr row.addr row.length) args.test_align_table_len
  let sgt := nvgpu_sgt.mk test_sgl
  let alignment := nvgpu_sgt_alignment p sgt
  if alignment ≠ args.test_align_result then .UNIT_FAIL else .UNIT_SUCCESS

/-- `test_nvgpu_sgt_alignment_non_iommu`: without an IOMMU, every row of the
table must pass. -/
def test_nvgpu_sgt_alignment_non_iommu (p : nvgpu_os_posix) : UnitResult :=
  let p1 := nvgpu_os_posix.mk false p.mm_sgt_is_iommuable
  sgt_align_test_array.foldl (fun ret args =>
    if test_table_nvgpu_sgt_alignment_non_iommu p1 args ≠ .UNIT_SUCCESS then .UNIT_FAIL
    else ret) .UNIT_SUCCESS

def IOMMU_BIT : Nat := 0
def SGT_IOMMU_BIT : Nat := 1
def DMA_ADDR_BIT : Nat := 2

/-- The assignment `sgl->dma = dma` to the first entry of a table. -/
def nvgpu_sgt.set_dma (sgt : nvgpu_sgt) (dma : Nat) : nvgpu_sgt :=
  match sgt.sgl with
  | [] => sgt
  | first :: rest => nvgpu_sgt.mk (nvgpu_mem_sgl.mk first.phys dma first.length :: rest)

/-- One pass of the loop of `test_nvgpu_sgt_alignment_with_iommu` for the
combination `bitmask`: the test fails if the alignment equals the DMA
address. -/
def test_with_iommu_combination (sgt : nvgpu_sgt) (ret : UnitResult) (bitmask : Nat) :
    UnitResult :=
  let p := nvgpu_os_posix.mk ((bitmask &&& (1 <<< IOMMU_BIT)) != 0)
    ((bitmask &&& (1 <<< SGT_IOMMU_BIT)) != 0)
  let dma := if (bitmask &&& (1 <<< DMA_ADDR_BIT)) != 0 then 2 * SZ_256M else 0
  let alignment := nvgpu_sgt_alignment p (sgt.set_dma dma)
  if alignment = dma then .UNIT_FAIL else ret

/-- `test_nvgpu_sgt_alignment_with_iommu`: for a buffer of 256M at the
address 4K, the seven combinations `bitmask = 0..6` that lack one of the three
conditions must not give the DMA address as alignment, and the combination
that has all three must. -/
def test_nvgpu_sgt_alignment_with_iommu : UnitResult :=
  let sgt := nvgpu_sgt_create_from_mem (nvgpu_mem.mk SZ_256M SZ_4K)
  let ret := (List.range 7).foldl (test_with_iommu_combination sgt) .UNIT_SUCCESS
  let dma := 2 * SZ_256M
  let alignment := nvgpu_sgt_alignment (nvgpu_os_posix.mk true true) (sgt.set_dma dma)
  if alignment ≠ dma then .UNIT_FAIL else ret

/-- The checking loop of `test_nvgpu_sgt_get_next`, `n` passes: `api_ptr` is
advanced by `nvgpu_sgt_get_next` and must equal `sgl_ptr->next`, then
`sgl_ptr` is advanced. The result is `none` if `NULL` is dereferenced,
otherwise the verdict so far and `api_ptr` after the loop. -/
def sgt_get_next_loop (sgt : nvgpu_sgt) :
    Nat → List nvgpu_mem_sgl → List nvgpu_mem_sgl → Option (UnitResult × List nvgpu_mem_sgl)
  | 0, api_ptr, _ => some (.UNIT_SUCCESS, api_ptr)
  | n + 1, api_ptr, sgl_ptr =>
    match nvgpu_sgt_get_next sgt api_ptr, sgl_ptr with
    | some api_next, _ :: sgl_next =>
      if api_next ≠ sgl_next then some (.UNIT_FAIL, api_next)
      else sgt_get_next_loop sgt n api_next sgl_next
    | _, _ => none

/-- `test_nvgpu_sgt_get_next` with `SGL_LEN` entries: entry `i` has
`phys = dma = length = i`; after `SGL_LEN` steps that all agree, `api_ptr`
must be `NULL`. -/
def test_nvgpu_sgt_get_next (SGL_LEN : Nat) : Option UnitResult :=
  let test_sgl := sgl_build (fun i => nvgpu_mem_sgl.mk i i i) SGL_LEN
  let sgt := nvgpu_sgt.mk test_sgl
  match sgt_get_next_loop sgt SGL_LEN sgt.sgl test_sgl with
  | none => none
  | some (.UNIT_FAIL, _) => some .UNIT_FAIL
  | some (.UNIT_SUCCESS, api_ptr) =>
    if api_ptr ≠ [] then some .UNIT_FAIL else some .UNIT_SUCCESS

/-- The pointer reached from `sgl` by `k` applications of
`nvgpu_sgt_get_next`. -/
def sgt_walk (sgt : nvgpu_sgt) : Nat → List nvgpu_mem_sgl → Option (List nvgpu_mem_sgl)
  | 0, sgl => some sgl
  | k + 1, sgl =>
    match nvgpu_sgt_get_next sgt sgl with
    | some next => sgt_walk sgt k next
    | none => none

/-! ## The PMU trace dump: `print_pmu_trace`

`common/pmu/pmu_debug.c`. The copy of the trace buffer is the memory seen
through the pointers `trace` (bytes) and `trace1` (32-bit words): a function
from the byte offset, counted from the start of the copy, to the byte there.
Offsets from `GK20A_PMU_TRACE_BUFSIZE` on lie outside the copy. The model
records what the function reads and writes: the word indices read by the scan
for an empty record, and for every record the bytes of `buf` written by each
`scnprintf`, the lengths `k` used on `part_str`, and the words read as
arguments. -/

def GK20A_PMU_TRACE_BUFSIZE : Nat := 0x4000

/-- The size of the line buffer, `char buf[0x40]`. -/
def PMU_TRACE_BUF_LEN : Nat := 0x40

/-- The size of `char part_str[40]`. -/
def PMU_TRACE_PART_STR_LEN : Nat := 40

/-- `trace[a]` read as an unsigned byte. -/
def trace_byte (mem : Nat → Nat) (a : Nat) : Nat := mem a % 256

/-- `trace1[w]`: the 32-bit word at byte offset `4 * w` (little-endian). -/
def trace_word (mem : Nat → Nat) (w : Nat) : Nat :=
  trace_byte mem (4 * w) + 256 * trace_byte mem (4 * w + 1) +
    65536 * trace_byte mem (4 * w + 2) + 16777216 * trace_byte mem (4 * w + 3)

/-- The scan for an empty record,
`for (j = 0U; j < 0x40U; j++) { if (trace1[(i / 4U) + j] != 0U) break; }`,
with `n` passes left: the final `j` and the word indices read. -/
def scan_record (mem : Nat → Nat) (i : Nat) : Nat → Nat → Nat × List Nat
  | 0, j => (j, [])
  | n + 1, j =>
    if trace_word mem (i / 4 + j) ≠ 0 then (j, [i / 4 + j])
    else ((scan_record mem i n (j + 1)).1, (i / 4 + j) :: (scan_record mem i n (j + 1)).2)

/-- The kernel library function `scnprintf(buf, size, fmt, ...)` as
`print_pmu_trace` calls it: it formats into at most `size` bytes, the
terminating NUL included, and returns the number of characters written, the
NUL not counted: for a text of `len` characters, `min len (size - 1)`; it
writes one byte more than it returns. -/
def scnprintf (size len : Nat) : Nat := min len (size - 1)

/-- The number of digits that `%x` prints for a 32-bit value. -/
def hex_digits (w : Nat) : Nat :=
  if w < 0x10 then 1 else if w < 0x100 then 2 else if w < 0x1000 then 3
  else if w < 0x10000 then 4 else if w < 0x100000 then 5 else if w < 0x1000000 then 6
  else if w < 0x10000000 then 7 else 8

/-- The length of the string at offset `a`, counted up to `n` characters
(`strnlen`). -/
def trace_strnlen (mem : Nat → Nat) : Nat → Nat → Nat
  | 0, _ => 0
  | n + 1, a => if trace_byte mem a = 0 then 0 else trace_strnlen mem n (a + 1) + 1

/-- What the function does for one record. `buf_writes`: for each `scnprintf`
call, the offset of its destination in `buf` and the number of bytes it
writes; `part_str_k`: the `k` of each `strncpy(part_str, ..., k)` and
`part_str[k] = 0`; `arg_reads`: the word indices read as `%x` arguments;
`finished`: the line was completed and logged; `text_reads`: the offsets
`i + 20 + m` of the texts read, each by `nvgpu_find_hex_in_string` and then by
`strncpy` or by the last `scnprintf`. -/
structure LineLog where
  buf_writes : List (Nat × Nat)
  part_str_k : List Nat
  arg_reads : List Nat
  finished : Bool
  text_reads : List Nat

/-- The last `scnprintf`, `scnprintf((buf + count), 0x40, "%s", (trace+i+20+m))`,
after which the line is logged. -/
def format_rest (mem : Nat → Nat) (i count m : Nat) : LineLog :=
  LineLog.mk [(count, scnprintf 0x40 (trace_strnlen mem 0x3F (i + 20 + m)) + 1)] [] [] true
    [i + 20 + m]

/-- The loop `while (nvgpu_find_hex_in_string((trace+i+20+m), g, &k))` with
`fuel` passes left, followed by the last `scnprintf`. `find_hex a` is the
result of `nvgpu_find_hex_in_string` on the string at offset `a`: `some k`
when it returns true and stores `k`, `none` when it returns false. `l`, `m` and
the word index are `u32`. Without fuel the line stays unfinished. -/
def format_loop (find_hex : Nat → Option Nat) (mem : Nat → Nat) (i : Nat) :
    Nat → Nat → Nat → Nat → LineLog
  | 0, _, _, _ => LineLog.mk [] [] [] false []
  | fuel + 1, count, l, m =>
    match find_hex (i + 20 + m) with
    | none => format_rest mem i count m
    | some k =>
      if 40 ≤ k then format_rest mem i count m
      else
        let w := (i / 4 + 1 + l) % 2 ^ 32
        let n := scnprintf 0x40 (trace_strnlen mem k (i + 20 + m) + 2 + hex_digits (trace_word mem w))
        let r := format_loop find_hex mem i fuel (count + n) ((l + 1) % 2 ^ 32)
          ((m + k + 2) % 2 ^ 32)
        LineLog.mk ((count, n + 1) :: r.buf_writes) (k :: r.part_str_k) (w :: r.arg_reads)
          r.finished ((i + 20 + m) :: r.text_reads)

/-- The body of the outer loop after the scan: the line of the record at
offset `i`, from `count = scnprintf(buf, 0x40, "Index %x: ", trace1[(i / 4U)])`
to `nvgpu_err(g, "%s", buf)`. -/
def format_record (find_hex : Nat → Option Nat) (mem : Nat → Nat) (fuel i : Nat) : LineLog :=
  let n := scnprintf 0x40 (6 + hex_digits (trace_word mem (i / 4)) + 2)
  let r := format_loop find_hex mem i fuel n 0 0
  LineLog.mk ((0, n + 1) :: r.buf_writes) r.part_str_k (i / 4 :: r.arg_reads) r.finished
    r.text_reads

/-- What a call of `print_pmu_trace` does: the word indices read by the scans,
and the records handled, in order, each with its offset and its line. -/
structure TraceDump where
  scan_reads : List Nat
  records : List (Nat × LineLog)

/-- The loop `for (i = 0U; i < GK20A_PMU_TRACE_BUFSIZE; i += 0x40U)` with `n`
passes left, from offset `i` on. -/
def trace_loop (find_hex : Nat → Option Nat) (mem : Nat → Nat) (fuel : Nat) :
    Nat → Nat → TraceDump
  | 0, _ => TraceDump.mk [] []
  | n + 1, i =>
    if i < GK20A_PMU_TRACE_BUFSIZE then
      if (scan_record mem i 0x40 0).1 = 0x40 then TraceDump.mk (scan_record mem i 0x40 0).2 []
      else if (format_record find_hex mem fuel i).finished then
        TraceDump.mk
          ((scan_record mem i 0x40 0).2 ++ (trace_loop find_hex mem fuel n (i + 0x40)).scan_reads)
          ((i, format_record find_hex mem fuel i) ::
            (trace_loop find_hex mem fuel n (i + 0x40)).records)
      else TraceDump.mk (scan_record mem i 0x40 0).2 [(i, format_record find_hex mem fuel i)]
    else TraceDump.mk [] []

/-- `print_pmu_trace`: nothing is done when the copy could not be allocated
(`tracebuffer == NULL`); otherwise the records are handled from offset 0 on.
The outer loop makes at most `GK20A_PMU_TRACE_BUFSIZE / 0x40` passes. -/
def print_pmu_trace (find_hex : Nat → Option Nat) (tracebuffer : Option (Nat → Nat))
    (fuel : Nat) : TraceDump :=
  match tracebuffer with
  | none => TraceDump.mk [] []
  | some mem => trace_loop find_hex mem fuel (GK20A_PMU_TRACE_BUFSIZE / 0x40) 0

/-- The search of `nvgpu_find_hex_in_string` from position `p` of the string at
offset `a`, over at most `n` characters. -/
def find_hex_scan (mem : Nat → Nat) (a : Nat) : Nat → Nat → Option Nat
  | 0, _ => none
  | n + 1, p =>
    if trace_byte mem (a + p) = 0 then none
    else if trace_byte mem (a + p) = 0x25 ∧
        (trace_byte mem (a + p + 1) = 0x78 ∨ trace_byte mem (a + p + 1) = 0x58) then some p
    else find_hex_scan mem a n (p + 1)

/-- The body of `nvgpu_find_hex_in_string` is not in `pmu_debug.c`, and the
theorems take the function as the parameter `find_hex`. This search is one
function that meets what they assume of it: as `print_pmu_trace` uses the
result (the text before position `k` is copied, `0x%x` is printed for it, and
`k + 2` characters are skipped), it reports the position of the first `%x` or
`%X` in the string; here for strings of at most `n` characters. -/
def nvgpu_find_hex_in_string (mem : Nat → Nat) (n : Nat) (a : Nat) : Option Nat :=
  find_hex_scan mem a n 0

/-- What `print_pmu_trace` relies on in `nvgpu_find_hex_in_string`: a reported
position lies inside the string, that is, the characters up to and including
the two of `%x` are not NUL. -/
def FindsInsideString (mem : Nat → Nat) (find_hex : Nat → Option Nat) : Prop :=
  ∀ a k, find_hex a = some k → ∀ p, p ≤ k + 1 → trace_byte mem (a + p) ≠ 0

/-- A reported position is the position of a `%x` or a `%X`. -/
def ReportsHexPosition (mem : Nat → Nat) (find_hex : Nat → Option Nat) : Prop :=
  ∀ a k, find_hex a = some k →
    trace_byte mem (a + k) = 0x25 ∧
      (trace_byte mem (a + k + 1) = 0x78 ∨ trace_byte mem (a + k + 1) = 0x58)

/-- A trace buffer whose records 0 to 252 hold the index 1 and nothing else,
and whose last three records are empty; the bytes after the buffer are 0. -/
def trace_one_word_records : Nat → Nat :=
  fun a => if a < 0x3F40 ∧ a % 0x40 = 0 then 1 else 0

/-- A trace buffer whose first two records are filled with the letter `A`
(0x41), so that the text of the first record has no NUL inside the record; all
other bytes are 0. -/
def trace_unterminated_record : Nat → Nat :=
  fun a => if a < 0x80 then 0x41 else 0

/-- The bytes of a record with the index 0x10000000, four arguments
0x10000000 and the text `A=%x B=%x C=%x D=%x`. -/
def trace_four_args_bytes : List Nat :=
  [0, 0, 0, 0x10, 0, 0, 0, 0x10, 0, 0, 0, 0x10, 0, 0, 0, 0x10, 0, 0, 0, 0x10,
   0x41, 0x3D, 0x25, 0x78, 0x20, 0x42, 0x3D, 0x25, 0x78, 0x20,
   0x43, 0x3D, 0x25, 0x78, 0x20, 0x44, 0x3D, 0x25, 0x78]

/-- A trace buffer with that one record, all other bytes 0. -/
def trace_four_args : Nat → Nat :=
  fun a => trace_four_args_bytes.getD a 0

/-! ## `ZBC_MASK`

`#define ZBC_MASK(i) (~(~(0) << ((i)+1)) & 0xfffe)`, evaluated on 32 bits in
two's complement: a value is the natural number below `2 ^ 32` with the same
bits. -/

/-- The 32-bit `~x`. -/
def not32 (x : Nat) : Nat := 2 ^ 32 - 1 - x % 2 ^ 32

/-- The 32-bit `x << n`. -/
def shl32 (x n : Nat) : Nat := (x * 2 ^ n) % 2 ^ 32

/-- `ZBC_MASK(i)` -/
def ZBC_MASK (i : Nat) : Nat := not32 (shl32 (not32 0) (i + 1)) &&& 0xfffe

/-- `struct pmu_zbc_cmd { u8 cmd_type; u8 pad; u16 entry_mask; };` -/
def struct_pmu_zbc_cmd : CType :=
  .struct [("cmd_type", .u8), ("pad", .u8), ("entry_mask", .u16)]

/-! ## The command and the message: `struct pmu_cmd`, `struct pmu_msg`

An anonymous union member is a member with the empty name. -/

/-- `struct pmu_ap_ctrl_init_params` -/
def struct_pmu_ap_ctrl_init_params : CType :=
  .struct [("min_idle_filter_us", .u32), ("min_target_saving_us", .u32),
    ("power_break_even_us", .u32), ("cycles_per_sample_max", .u32)]

/-- `struct pmu_ap_cmd_common` -/
def struct_pmu_ap_cmd_common : CType := .struct [("cmd_type", .u8), ("cmd_id", .u16)]

/-- `struct pmu_ap_cmd_init` -/
def struct_pmu_ap_cmd_init : CType :=
  .struct [("cmd_type", .u8), ("cmd_id", .u16), ("rsvd", .u8), ("pg_sampling_period_us", .u32)]

/-- `struct pmu_ap_cmd_enable_ctrl` -/
def struct_pmu_ap_cmd_enable_ctrl : CType :=
  .struct [("cmd_type", .u8), ("cmd_id", .u16), ("ctrl_id", .u8)]

/-- `struct pmu_ap_cmd_disable_ctrl` -/
def struct_pmu_ap_cmd_disable_ctrl : CType :=
  .struct [("cmd_type", .u8), ("cmd_id", .u16), ("ctrl_id", .u8)]

/-- `struct pmu_ap_cmd_init_and_enable_ctrl` -/
def struct_pmu_ap_cmd_init_and_enable_ctrl : CType :=
  .struct [("cmd_type", .u8), ("cmd_id", .u16), ("ctrl_id", .u8),
    ("params", struct_pmu_ap_ctrl_init_params)]

/-- `struct pmu_ap_cmd_kick_ctrl` -/
def struct_pmu_ap_cmd_kick_ctrl : CType :=
  .struct [("cmd_type", .u8), ("cmd_id", .u16), ("ctrl_id", .u8), ("skip_count", .u32)]

/-- `union pmu_ap_cmd` -/
def union_pmu_ap_cmd : CType :=
  .union [("cmd_type", .u8), ("cmn", struct_pmu_ap_cmd_common), ("init", struct_pmu_ap_cmd_init),
    ("init_and_enable_ctrl", struct_pmu_ap_cmd_init_and_enable_ctrl),
    ("enable_ctrl", struct_pmu_ap_cmd_enable_ctrl),
    ("disable_ctrl", struct_pmu_ap_cmd_disable_ctrl),
    ("kick_ctrl", struct_pmu_ap_cmd_kick_ctrl)]

/-- `struct pmu_ap_msg_common` -/
def struct_pmu_ap_msg_common : CType := .struct [("msg_type", .u8), ("msg_id", .u16)]

/-- `struct pmu_ap_msg_init_ack` -/
def struct_pmu_ap_msg_init_ack : CType :=
  .struct [("msg_type", .u8), ("msg_id", .u16), ("ctrl_id", .u8), ("stats_dmem_offset", .u32)]

/-- `union pmu_ap_msg` -/
def union_pmu_ap_msg : CType :=
  .union [("msg_type", .u8), ("cmn", struct_pmu_ap_msg_common),
    ("init_ack", struct_pmu_ap_msg_init_ack)]

/-- `struct pmu_init_msg` -/
def struct_pmu_init_msg : CType :=
  .struct [("", .union [("msg_type", .u8), ("pmu_init_v1", struct_pmu_init_msg_pmu_v1),
    ("pmu_init_v0", struct_pmu_init_msg_pmu_v0), ("pmu_init_v2", struct_pmu_init_msg_pmu_v2),
    ("pmu_init_v3", struct_pmu_init_msg_pmu_v3)])]

/-- `struct pmu_pg_msg_elpg_msg` -/
def struct_pmu_pg_msg_elpg_msg : CType :=
  .struct [("msg_type", .u8), ("engine_id", .u8), ("msg", .u16)]

/-- `struct pmu_pg_msg_stat` -/
def struct_pmu_pg_msg_stat : CType :=
  .struct [("msg_type", .u8), ("engine_id", .u8), ("sub_msg_id", .u16), ("data", .u32)]

/-- `struct pmu_pg_msg_eng_buf_stat` -/
def struct_pmu_pg_msg_eng_buf_stat : CType :=
  .struct [("msg_type", .u8), ("engine_id", .u8), ("buf_idx", .u8), ("status", .u8)]

/-- `struct pmu_pg_msg` -/
def struct_pmu_pg_msg : CType :=
  .struct [("", .union [("msg_type", .u8), ("elpg_msg", struct_pmu_pg_msg_elpg_msg),
    ("stat", struct_pmu_pg_msg_stat), ("eng_buf_stat", struct_pmu_pg_msg_eng_buf_stat),
    ("ap_msg", union_pmu_ap_msg)])]

/-- `struct pmu_rc_msg_unhandled_cmd` -/
def struct_pmu_rc_msg_unhandled_cmd : CType := .struct [("msg_type", .u8), ("unit_id", .u8)]

/-- `struct pmu_rc_msg` -/
def struct_pmu_rc_msg : CType :=
  .struct [("msg_type", .u8), ("unhandled_cmd", struct_pmu_rc_msg_unhandled_cmd)]

/-- `struct pmu_pg_cmd_elpg_cmd` -/
def struct_pmu_pg_cmd_elpg_cmd : CType :=
  .struct [("cmd_type", .u8), ("engine_id", .u8), ("cmd", .u16)]

/-- `struct pmu_pg_cmd_eng_buf_load_v0` -/
def struct_pmu_pg_cmd_eng_buf_load_v0 : CType :=
  .struct [("cmd_type", .u8), ("engine_id", .u8), ("buf_idx", .u8), ("pad", .u8),
    ("buf_size", .u16), ("dma_base", .u32), ("dma_offset", .u8), ("dma_idx", .u8)]

/-- `struct flcn_mem_desc { struct falc_u64 dma_addr; u16 dma_size; u8 dma_idx; }`,
declared inside `struct pmu_pg_cmd_eng_buf_load_v1`. -/
def struct_flcn_mem_desc : CType :=
  .struct [("dma_addr", struct_falc_u64), ("dma_size", .u16), ("dma_idx", .u8)]

/-- `struct pmu_pg_cmd_eng_buf_load_v1` -/
def struct_pmu_pg_cmd_eng_buf_load_v1 : CType :=
  .struct [("cmd_type", .u8), ("engine_id", .u8), ("buf_idx", .u8), ("pad", .u8),
    ("dma_desc", struct_flcn_mem_desc)]

/-- `struct pmu_pg_cmd_eng_buf_load_v2` -/
def struct_pmu_pg_cmd_eng_buf_load_v2 : CType :=
  .struct [("cmd_type", .u8), ("engine_id", .u8), ("buf_idx", .u8), ("pad", .u8),
    ("dma_desc", struct_flcn_mem_desc_v0)]

/-- `struct pmu_pg_cmd_gr_init_param` -/
def struct_pmu_pg_cmd_gr_init_param : CType :=
  .struct [("cmd_type", .u8), ("sub_cmd_id", .u16), ("featuremask", .u8)]

/-- `struct pmu_pg_cmd_stat` -/
def struct_pmu_pg_cmd_stat : CType :=
  .struct [("cmd_type", .u8), ("engine_id", .u8), ("sub_cmd_id", .u16), ("data", .u32)]

/-- `struct pmu_pg_cmd` -/
def struct_pmu_pg_cmd : CType :=
  .struct [("", .union [("cmd_type", .u8), ("elpg_cmd", struct_pmu_pg_cmd_elpg_cmd),
    ("eng_buf_load_v0", struct_pmu_pg_cmd_eng_buf_load_v0),
    ("eng_buf_load_v1", struct_pmu_pg_cmd_eng_buf_load_v1),
    ("eng_buf_load_v2", struct_pmu_pg_cmd_eng_buf_load_v2),
    ("stat", struct_pmu_pg_cmd_stat), ("gr_init_param", struct_pmu_pg_cmd_gr_init_param),
    ("ap_cmd", union_pmu_ap_cmd)])]

/-- `struct pmu_acr_cmd_init_wpr_details` -/
def struct_pmu_acr_cmd_init_wpr_details : CType :=
  .struct [("cmd_type", .u8), ("regionid", .u32), ("wproffset", .u32)]

/-- `struct pmu_acr_cmd_bootstrap_falcon` -/
def struct_pmu_acr_cmd_bootstrap_falcon : CType :=
  .struct [("cmd_type", .u8), ("flags", .u32), ("falconid", .u32)]

/-- `struct pmu_acr_cmd_bootstrap_multiple_falcons` -/
def struct_pmu_acr_cmd_bootstrap_multiple_falcons : CType :=
  .struct [("cmd_type", .u8), ("flags", .u32), ("falconidmask", .u32), ("usevamask", .u32),
    ("wprvirtualbase", struct_falc_u64)]

/-- `struct pmu_acr_cmd` -/
def struct_pmu_acr_cmd : CType :=
  .struct [("", .union [("cmd_type", .u8),
    ("bootstrap_falcon", struct_pmu_acr_cmd_bootstrap_falcon),
    ("init_wpr", struct_pmu_acr_cmd_init_wpr_details),
    ("boot_falcons", struct_pmu_acr_cmd_bootstrap_multiple_falcons)])]

/-- `struct pmu_acr_msg_bootstrap_falcon` -/
def struct_pmu_acr_msg_bootstrap_falcon : CType :=
  .struct [("msg_type", .u8), ("", .union [("errorcode", .u32), ("falconid", .u32)])]

/-- `struct pmu_acr_msg` -/
def struct_pmu_acr_msg : CType :=
  .struct [("", .union [("msg_type", .u8), ("acrmsg", struct_pmu_acr_msg_bootstrap_falcon)])]

/-- `struct pmu_cmd_lrf_tex_ltc_dram_en_dis` -/
def struct_pmu_cmd_lrf_tex_ltc_dram_en_dis : CType :=
  .struct [("cmd_type", .u8), ("en_dis_mask", .u8)]

/-- `struct pmu_lrf_tex_ltc_dram_cmd` -/
def struct_pmu_lrf_tex_ltc_dram_cmd : CType :=
  .struct [("", .union [("cmd_type", .u8), ("en_dis", struct_pmu_cmd_lrf_tex_ltc_dram_en_dis)])]

/-- `struct pmu_msg_lrf_tex_ltc_dram_en_dis` -/
def struct_pmu_msg_lrf_tex_ltc_dram_en_dis : CType :=
  .struct [("msg_type", .u8), ("en_fail_mask", .u8), ("dis_fail_mask", .u8),
    ("pmu_status", .u32)]

/-- `struct pmu_lrf_tex_ltc_dram_msg` -/
def struct_pmu_lrf_tex_ltc_dram_msg : CType :=
  .struct [("", .union [("msg_type", .u8), ("en_dis", struct_pmu_msg_lrf_tex_ltc_dram_en_dis)])]

/-- `struct pmu_perfmon_cmd_start_v0` to `_v3`, over the allocation layout
`alloc` of the version. -/
def struct_pmu_perfmon_cmd_start (alloc : CType) : CType :=
  .struct [("cmd_type", .u8), ("group_id", .u8), ("state_id", .u8), ("flags", .u8),
    ("counter_alloc", alloc)]

/-- `struct pmu_perfmon_cmd_stop` -/
def struct_pmu_perfmon_cmd_stop : CType := .struct [("cmd_type", .u8)]

/-- `struct pmu_perfmon_cmd_init_v0` to `_v3`, over the allocation layout
`alloc` of the version. -/
def struct_pmu_perfmon_cmd_init (alloc : CType) : CType :=
  .struct [("cmd_type", .u8), ("to_decrease_count", .u8), ("base_counter_id", .u8),
    ("sample_period_us", .u32), ("counter_alloc", alloc), ("num_counters", .u8),
    ("samples_in_moving_avg", .u8), ("sample_buffer", .u16)]

/-- `struct pmu_perfmon_cmd` -/
def struct_pmu_perfmon_cmd : CType :=
  .struct [("", .union [("cmd_type", .u8),
    ("start_v0", struct_pmu_perfmon_cmd_start struct_pmu_allocation_v0),
    ("start_v1", struct_pmu_perfmon_cmd_start struct_pmu_allocation_v1),
    ("start_v2", struct_pmu_perfmon_cmd_start struct_pmu_allocation_v2),
    ("start_v3", struct_pmu_perfmon_cmd_start struct_pmu_allocation_v3),
    ("stop", struct_pmu_perfmon_cmd_stop),
    ("init_v0", struct_pmu_perfmon_cmd_init struct_pmu_allocation_v0),
    ("init_v1", struct_pmu_perfmon_cmd_init struct_pmu_allocation_v1),
    ("init_v2", struct_pmu_perfmon_cmd_init struct_pmu_allocation_v2),
    ("init_v3", struct_pmu_perfmon_cmd_init struct_pmu_allocation_v3)])]

/-- `struct pmu_perfmon_msg_generic` -/
def struct_pmu_perfmon_msg_generic : CType :=
  .struct [("msg_type", .u8), ("state_id", .u8), ("group_id", .u8), ("data", .u8)]

/-- `struct pmu_perfmon_msg` -/
def struct_pmu_perfmon_msg : CType :=
  .struct [("", .union [("msg_type", .u8), ("gen", struct_pmu_perfmon_msg_generic)])]

/-- `struct pmu_cmd { struct pmu_hdr hdr; union { ... } cmd; };` -/
def struct_pmu_cmd : CType :=
  .struct [("hdr", struct_pmu_hdr),
    ("cmd", .union [("perfmon", struct_pmu_perfmon_cmd), ("pg", struct_pmu_pg_cmd),
      ("zbc", struct_pmu_zbc_cmd), ("acr", struct_pmu_acr_cmd),
      ("lrf_tex_ltc_dram", struct_pmu_lrf_tex_ltc_dram_cmd)])]

/-- `struct pmu_msg { struct pmu_hdr hdr; union { ... } msg; };` -/
def struct_pmu_msg : CType :=
  .struct [("hdr", struct_pmu_hdr),
    ("msg", .union [("init", struct_pmu_init_msg), ("perfmon", struct_pmu_perfmon_msg),
      ("pg", struct_pmu_pg_msg), ("rc", struct_pmu_rc_msg), ("acr", struct_pmu_acr_msg),
      ("lrf_tex_ltc_dram", struct_pmu_lrf_tex_ltc_dram_msg)])]

/-- The alternatives of the anonymous union of a family type such as
`struct pmu_pg_cmd { union { ... }; }`; none when the type has no anonymous
union member. -/
def anonymous_alternatives (t : CType) : List (String × CType) :=
  (t.members.filter fun m => m.1 == "").flatMap fun m => m.2.members

/-- The layouts a body of `struct pmu_cmd` or `struct pmu_msg` can take, `t`
being the type of the member `cmd` or `msg`: each family, each alternative of
the anonymous union of a family, and each alternative of a union among those
(`union pmu_ap_cmd`, `union pmu_ap_msg`). -/
def body_variants (t : CType) : List (String × CType) :=
  t.members.flatMap fun fam =>
    fam :: (anonymous_alternatives fam.2).flatMap fun v =>
      v :: (match v.2 with
        | .union alts => alts
        | _ => [])

/-- The type of the member `nm` of a struct, `u8` when there is none. -/
def member_type (t : CType) (nm : String) : CType :=
  ((t.members.find? fun m => m.1 == nm).map Prod.snd).getD .u8

/-! ## The PMU trace dump: runs that stay in bounds

In C the function has a behaviour only as long as it stays inside the copy of
the trace buffer and inside `buf`. A run is followed up to the first record at
which it leaves them; what was logged before stays logged. -/

set_option maxRecDepth 100000 in
/-- C1: a unit id `u` (in particular every 8-bit one) passes
`PMU_UNIT_ID_IS_VALID` exactly when `u < PMU_UNIT_END = 0x23` or
`u >= PMU_UNIT_TEST_START = 0xFE`, and fails it exactly when it lies in
`0x23..0xFD`; among the 256 values of a `u8` the invalid ones are, in order,
the 219 ids `0x23, ..., 0xFD`. -/
theorem PMU_UNIT_ID_IS_VALID_iff (u : Nat) :
    PMU_UNIT_END = 0x23 ∧ PMU_UNIT_TEST_START = 0xFE ∧
    (PMU_UNIT_ID_IS_VALID u = true ↔ (u < 0x23 ∨ u ≥ 0xFE)) ∧
    (PMU_UNIT_ID_IS_VALID u = false ↔ (0x23 ≤ u ∧ u ≤ 0xFD)) ∧
    (List.range (2 ^ 8)).filter (fun id => !PMU_UNIT_ID_IS_VALID id)
      = List.range' 0x23 (0xFE - 0x23) := by
  refine ⟨rfl, rfl, ?_, ?_, ?_⟩
  · simp [PMU_UNIT_ID_IS_VALID, PMU_UNIT_END, PMU_UNIT_TEST_START]
  · simp only [PMU_UNIT_ID_IS_VALID, PMU_UNIT_END, PMU_UNIT_TEST_START,
      Bool.or_eq_false_iff, decide_eq_false_iff_not]
    omega
  · decide

/-! ## Queue ids -/

/-- C2: for a queue id `q` below `PMU_QUEUE_COUNT` exactly one of
`PMU_IS_COMMAND_QUEUE` and `PMU_IS_MESSAGE_QUEUE` holds, from `PMU_QUEUE_COUNT`
on neither holds; a software command queue is a command queue; the software
command queues are 0 and 1, the other command queues are 2 and 3, and the
message queue is 4. -/
theorem pmu_queue_id_classes (q : Nat) :
    (q < PMU_QUEUE_COUNT →
      (PMU_IS_COMMAND_QUEUE q = true ∧ PMU_IS_MESSAGE_QUEUE q = false) ∨
      (PMU_IS_COMMAND_QUEUE q = false ∧ PMU_IS_MESSAGE_QUEUE q = true)) ∧
    (PMU_QUEUE_COUNT ≤ q →
      PMU_IS_COMMAND_QUEUE q = false ∧ PMU_IS_MESSAGE_QUEUE q = false) ∧
    (PMU_IS_SW_COMMAND_QUEUE q = true → PMU_IS_COMMAND_QUEUE q = true) ∧
    (PMU_IS_SW_COMMAND_QUEUE q = true ↔ (q = 0 ∨ q = 1)) ∧
    ((PMU_IS_COMMAND_QUEUE q = true ∧ PMU_IS_SW_COMMAND_QUEUE q = false)
      ↔ (q = 2 ∨ q = 3)) ∧
    (PMU_IS_MESSAGE_QUEUE q = true ↔ q = 4) := by
  simp only [PMU_IS_COMMAND_QUEUE, PMU_IS_MESSAGE_QUEUE, PMU_IS_SW_COMMAND_QUEUE,
    PMU_QUEUE_COUNT, PMU_MESSAGE_QUEUE, PMU_COMMAND_QUEUE_HPQ, PMU_COMMAND_QUEUE_LPQ,
    Bool.or_eq_true, Bool.or_eq_false_iff, decide_eq_true_eq, decide_eq_false_iff_not]
  refine ⟨by omega, by omega, by omega, trivial, by omega, trivial⟩

/-- The classes of C2 at the five queue ids and at the first id past them. -/
theorem pmu_queue_id_classes_witness :
    (List.range 6).map (fun q =>
      (PMU_IS_COMMAND_QUEUE q, PMU_IS_SW_COMMAND_QUEUE q, PMU_IS_MESSAGE_QUEUE q))
      = [(true, true, false), (true, true, false), (true, false, false),
         (true, false, false), (false, false, true), (false, false, false)] ∧
    PMU_IS_MESSAGE_QUEUE 4 = true :=
  ⟨by decide, (pmu_queue_id_classes 4).2.2.2.2.2.mpr rfl⟩

/-! ## Mutex ids -/

/-- C3: a mutex id (in particular every 32-bit one) passes
`PMU_MUTEX_ID_IS_VALID` exactly when it is one of `0..15`; the sentinel
`PMU_MUTEX_ID_INVALID` is 16, is not valid, and no smaller id is invalid. -/
theorem PMU_MUTEX_ID_IS_VALID_iff (id : Nat) :
    (PMU_MUTEX_ID_IS_VALID id = true ↔ id ≤ 15) ∧
    PMU_MUTEX_ID_INVALID = 16 ∧
    PMU_MUTEX_ID_IS_VALID PMU_MUTEX_ID_INVALID = false ∧
    (PMU_MUTEX_ID_IS_VALID id = false → PMU_MUTEX_ID_INVALID ≤ id) := by
  have h16 : PMU_MUTEX_ID_INVALID = 16 := rfl
  refine ⟨?_, h16, by decide, ?_⟩
  · simp only [PMU_MUTEX_ID_IS_VALID, h16, decide_eq_true_eq]
    omega
  · simp only [PMU_MUTEX_ID_IS_VALID, h16, decide_eq_false_iff_not]
    omega

/-- C4, as the header has it: a reserved mutex id passes
`PMU_MUTEX_ID_IS_VALID`. -/
theorem reserved_mutex_id_is_valid :
    PMU_MUTEX_ID_RSVD1 = 0 ∧ PMU_MUTEX_ID_IS_VALID PMU_MUTEX_ID_RSVD1 = true ∧
    PMU_MUTEX_ID_RSVD6 = 12 ∧ PMU_MUTEX_ID_IS_VALID PMU_MUTEX_ID_RSVD6 = true := by
  decide

/-- C4, amended: the reserved mutex ids `RSVD1, RSVD6, RSVD7, RSVD8, RSVD9`
are `0, 12, 13, 14, 15` and each of them passes `PMU_MUTEX_ID_IS_VALID`; of
the enumerators only `PMU_MUTEX_ID_INVALID` fails it. -/
theorem PMU_MUTEX_ID_IS_VALID_reserved :
    PMU_MUTEX_ID_RSVD = [0, 12, 13, 14, 15] ∧
    (∀ id ∈ PMU_MUTEX_ID_RSVD, PMU_MUTEX_ID_IS_VALID id = true) ∧
    PMU_MUTEX_ID_IS_VALID PMU_MUTEX_ID_INVALID = false ∧
    (∀ id, id ≤ PMU_MUTEX_ID_INVALID →
      (PMU_MUTEX_ID_IS_VALID id = false ↔ id = PMU_MUTEX_ID_INVALID)) := by
  refine ⟨rfl, by decide, by decide, ?_⟩
  intro id hid
  have h16 : PMU_MUTEX_ID_INVALID = 16 := rfl
  simp only [PMU_MUTEX_ID_IS_VALID, h16, decide_eq_false_iff_not] at hid ⊢
  omega

/-- C5: the mutex ids `PMU_MUTEX_ID_QUEUE_BIOS` and `PMU_MUTEX_ID_QUEUE_SMI`
equal the ids 2 and 3 of the BIOS and SMI command queues and are valid mutex
ids; both queues are command queues and not software command queues, queues 0
and 1 are software command queues; and every command queue that is not a
software command queue is the BIOS or the SMI queue, its id being a valid
mutex id and the id of that queue's mutex. -/
theorem hw_command_queue_mutex (q : Nat) :
    (PMU_MUTEX_ID_QUEUE_BIOS = PMU_COMMAND_QUEUE_BIOS ∧ PMU_COMMAND_QUEUE_BIOS = 2) ∧
    (PMU_MUTEX_ID_QUEUE_SMI = PMU_COMMAND_QUEUE_SMI ∧ PMU_COMMAND_QUEUE_SMI = 3) ∧
    PMU_MUTEX_ID_IS_VALID PMU_MUTEX_ID_QUEUE_BIOS = true ∧
    PMU_MUTEX_ID_IS_VALID PMU_MUTEX_ID_QUEUE_SMI = true ∧
    (PMU_IS_COMMAND_QUEUE PMU_COMMAND_QUEUE_BIOS = true ∧
      PMU_IS_SW_COMMAND_QUEUE PMU_COMMAND_QUEUE_BIOS = false) ∧
    (PMU_IS_COMMAND_QUEUE PMU_COMMAND_QUEUE_SMI = true ∧
      PMU_IS_SW_COMMAND_QUEUE PMU_COMMAND_QUEUE_SMI = false) ∧
    (PMU_IS_SW_COMMAND_QUEUE 0 = true ∧ PMU_IS_SW_COMMAND_QUEUE 1 = true) ∧
    (PMU_IS_COMMAND_QUEUE q = true → PMU_IS_SW_COMMAND_QUEUE q = false →
      PMU_MUTEX_ID_IS_VALID q = true ∧
      ((q = PMU_COMMAND_QUEUE_BIOS ∧ q = PMU_MUTEX_ID_QUEUE_BIOS) ∨
       (q = PMU_COMMAND_QUEUE_SMI ∧ q = PMU_MUTEX_ID_QUEUE_SMI))) := by
  refine ⟨by decide, by decide, by decide, by decide, by decide, by decide, by decide, ?_⟩
  have h16 : PMU_MUTEX_ID_INVALID = 16 := rfl
  have hb : PMU_MUTEX_ID_QUEUE_BIOS = 2 := rfl
  have hs : PMU_MUTEX_ID_QUEUE_SMI = 3 := rfl
  simp only [PMU_IS_COMMAND_QUEUE, PMU_IS_SW_COMMAND_QUEUE, PMU_MUTEX_ID_IS_VALID,
    PMU_MESSAGE_QUEUE, PMU_COMMAND_QUEUE_HPQ, PMU_COMMAND_QUEUE_LPQ,
    PMU_COMMAND_QUEUE_BIOS, PMU_COMMAND_QUEUE_SMI, h16, hb, hs,
    Bool.or_eq_false_iff, decide_eq_true_eq, decide_eq_false_iff_not]
  omega

/-- The last part of C5 at the SMI queue: it is a command queue, not a
software command queue, and its id is the valid mutex id
`PMU_MUTEX_ID_QUEUE_SMI`. -/
theorem hw_command_queue_mutex_witness :
    PMU_IS_COMMAND_QUEUE 3 = true ∧ PMU_IS_SW_COMMAND_QUEUE 3 = false ∧
    PMU_MUTEX_ID_IS_VALID 3 = true ∧
    ((3 = PMU_COMMAND_QUEUE_BIOS ∧ 3 = PMU_MUTEX_ID_QUEUE_BIOS) ∨
     (3 = PMU_COMMAND_QUEUE_SMI ∧ 3 = PMU_MUTEX_ID_QUEUE_SMI)) :=
  ⟨by decide, by decide,
    (hw_command_queue_mutex 3).2.2.2.2.2.2.2 (by decide) (by decide)⟩

/-! ## Wire header -/

theorem struct_pmu_hdr_sizeof : struct_pmu_hdr.sizeof = 4 := by decide

theorem pmu_hdr_offsetof_unit_id : pmu_hdr.offsetof "unit_id" = 0 := by decide

theorem pmu_hdr_offsetof_size : pmu_hdr.offsetof "size" = 1 := by decide

theorem pmu_hdr_offsetof_ctrl_flags : pmu_hdr.offsetof "ctrl_flags" = 2 := by decide

theorem pmu_hdr_offsetof_seq_id : pmu_hdr.offsetof "seq_id" = 3 := by decide

/-- The image of a header is its four members, in declaration order, each
reduced to a byte. -/
theorem pmu_hdr_store_eq (h : pmu_hdr) :
    h.store = [u8 h.unit_id, u8 h.size, u8 h.ctrl_flags, u8 h.seq_id] := by
  simp [pmu_hdr.store, struct_pmu_hdr_sizeof, pmu_hdr_offsetof_unit_id,
    pmu_hdr_offsetof_size, pmu_hdr_offsetof_ctrl_flags, pmu_hdr_offsetof_seq_id,
    List.replicate]

/-- A four-byte image holds the header made of its four bytes. -/
theorem pmu_hdr_load_eq (a b c d : Nat) :
    pmu_hdr.load [a, b, c, d] = some (pmu_hdr.mk a b c d) := by
  simp [pmu_hdr.load, struct_pmu_hdr_sizeof, pmu_hdr_offsetof_unit_id,
    pmu_hdr_offsetof_size, pmu_hdr_offsetof_ctrl_flags, pmu_hdr_offsetof_seq_id]

/-- Reading a stored header gives the header with every member reduced to a
byte. -/
theorem pmu_hdr_load_store (h : pmu_hdr) :
    pmu_hdr.load h.store
      = some (pmu_hdr.mk (u8 h.unit_id) (u8 h.size) (u8 h.ctrl_flags) (u8 h.seq_id)) := by
  rw [pmu_hdr_store_eq, pmu_hdr_load_eq]

theorem u8_of_lt (v : Nat) (hv : v < 2 ^ 8) : u8 v = v := by
  unfold u8
  exact Nat.mod_eq_of_lt hv

/-- C6: `struct pmu_hdr` has exactly four one-byte members `unit_id`, `size`,
`ctrl_flags`, `seq_id` at byte offsets 0, 1, 2, 3 and no padding, so
`PMU_MSG_HDR_SIZE = PMU_CMD_HDR_SIZE = 4`; a header whose members are `u8`
values is read back unchanged from its 4-byte image; and every string of four
bytes is the image of exactly one such header. -/
theorem pmu_hdr_image_bijective :
    (struct_pmu_hdr.countScalars 1 = 4 ∧ struct_pmu_hdr.sizeof = 4 ∧
      struct_pmu_hdr.resolve 0 [.member "unit_id"] = some (.u8, 0) ∧
      struct_pmu_hdr.resolve 0 [.member "size"] = some (.u8, 1) ∧
      struct_pmu_hdr.resolve 0 [.member "ctrl_flags"] = some (.u8, 2) ∧
      struct_pmu_hdr.resolve 0 [.member "seq_id"] = some (.u8, 3)) ∧
    (PMU_MSG_HDR_SIZE = 4 ∧ PMU_CMD_HDR_SIZE = 4) ∧
    (∀ h : pmu_hdr, h.wf → h.store.length = 4 ∧ pmu_hdr.load h.store = some h) ∧
    (∀ m : List Nat, m.length = 4 → (∀ b ∈ m, b < 2 ^ 8) →
      ∃ h : pmu_hdr, (h.wf ∧ h.store = m) ∧
        ∀ k : pmu_hdr, k.wf ∧ k.store = m → k = h) := by
  refine ⟨⟨by decide, by decide, rfl, rfl, rfl, rfl⟩, ⟨by decide, by decide⟩, ?_, ?_⟩
  · intro h hw
    obtain ⟨h1, h2, h3, h4⟩ := hw
    rw [pmu_hdr_load_store, pmu_hdr_store_eq, u8_of_lt _ h1, u8_of_lt _ h2,
      u8_of_lt _ h3, u8_of_lt _ h4]
    exact ⟨rfl, rfl⟩
  · intro m hlen hb
    match m, hlen, hb with
    | [a, b, c, d], _, hb =>
      have ha : a < 2 ^ 8 := hb a (by simp)
      have hb2 : b < 2 ^ 8 := hb b (by simp)
      have hc : c < 2 ^ 8 := hb c (by simp)
      have hd : d < 2 ^ 8 := hb d (by simp)
      refine ⟨pmu_hdr.mk a b c d, ⟨⟨ha, hb2, hc, hd⟩, ?_⟩, ?_⟩
      · rw [pmu_hdr_store_eq]
        simp only [u8_of_lt _ ha, u8_of_lt _ hb2, u8_of_lt _ hc, u8_of_lt _ hd]
      · rintro ⟨x, y, z, w⟩ ⟨⟨hx, hy, hz, hw⟩, hk⟩
        rw [pmu_hdr_store_eq] at hk
        simp only [u8_of_lt _ hx, u8_of_lt _ hy, u8_of_lt _ hz, u8_of_lt _ hw] at hk
        simp only [List.cons.injEq, and_true] at hk
        obtain ⟨e1, e2, e3, e4⟩ := hk
        subst e1 e2 e3 e4
        rfl

/-- C6 at the header `(PMU_UNIT_PG, 12, 0x3, 0xFF)`: it is read back from its
image `[3, 12, 3, 255]`, and that image belongs to no other header. -/
theorem pmu_hdr_image_bijective_witness :
    (pmu_hdr.mk PMU_UNIT_PG 12 3 255).wf ∧
    (pmu_hdr.mk PMU_UNIT_PG 12 3 255).store = [3, 12, 3, 255] ∧
    pmu_hdr.load [3, 12, 3, 255] = some (pmu_hdr.mk PMU_UNIT_PG 12 3 255) ∧
    (∃ h : pmu_hdr, (h.wf ∧ h.store = [3, 12, 3, 255]) ∧
      ∀ k : pmu_hdr, k.wf ∧ k.store = [3, 12, 3, 255] → k = h) :=
  have hw : (pmu_hdr.mk PMU_UNIT_PG 12 3 255).wf := by decide
  have hs : (pmu_hdr.mk PMU_UNIT_PG 12 3 255).store = [3, 12, 3, 255] := by
    rw [pmu_hdr_store_eq]
    rfl
  ⟨hw, hs, hs ▸ (pmu_hdr_image_bijective.2.2.1 _ hw).2,
    pmu_hdr_image_bijective.2.2.2 [3, 12, 3, 255] rfl (by decide)⟩

/-! ## Control flags -/

set_option maxRecDepth 100000 in
/-- C7: the flags `PMU_CMD_FLAGS_STATUS`, `_INTR`, `_EVENT`, `_WATERMARK` are
the pairwise distinct single-bit masks of bits 0, 1, 2, 3; their union is the
low nibble `0x0F`; each is disjoint from `PMU_CMD_FLAGS_PMU_MASK = 0xF0`; and
flags and mask together cover all 8 bits, so that every value of the `u8`
member `ctrl_flags` is the union of its flag bits and its masked part. -/
theorem pmu_cmd_flags_partition :
    (PMU_CMD_FLAGS_STATUS = 2 ^ 0 ∧ PMU_CMD_FLAGS_INTR = 2 ^ 1 ∧
      PMU_CMD_FLAGS_EVENT = 2 ^ 2 ∧ PMU_CMD_FLAGS_WATERMARK = 2 ^ 3) ∧
    [PMU_CMD_FLAGS_STATUS, PMU_CMD_FLAGS_INTR, PMU_CMD_FLAGS_EVENT,
      PMU_CMD_FLAGS_WATERMARK].Pairwise (fun a b => a ≠ b ∧ a &&& b = 0) ∧
    (PMU_CMD_FLAGS_STATUS ||| PMU_CMD_FLAGS_INTR ||| PMU_CMD_FLAGS_EVENT |||
      PMU_CMD_FLAGS_WATERMARK = 0x0F) ∧
    (∀ f ∈ [PMU_CMD_FLAGS_STATUS, PMU_CMD_FLAGS_INTR, PMU_CMD_FLAGS_EVENT,
      PMU_CMD_FLAGS_WATERMARK], f &&& PMU_CMD_FLAGS_PMU_MASK = 0) ∧
    PMU_CMD_FLAGS_PMU_MASK = 0xF0 ∧
    (PMU_CMD_FLAGS_STATUS ||| PMU_CMD_FLAGS_INTR ||| PMU_CMD_FLAGS_EVENT |||
      PMU_CMD_FLAGS_WATERMARK ||| PMU_CMD_FLAGS_PMU_MASK = 2 ^ 8 - 1) ∧
    (∀ c, c < 2 ^ 8 →
      (c &&& PMU_CMD_FLAGS_STATUS) ||| (c &&& PMU_CMD_FLAGS_INTR) |||
      (c &&& PMU_CMD_FLAGS_EVENT) ||| (c &&& PMU_CMD_FLAGS_WATERMARK) |||
      (c &&& PMU_CMD_FLAGS_PMU_MASK) = c) := by
  refine ⟨by decide, by decide, by decide, by decide, rfl, by decide, ?_⟩
  decide

/-- C7 at `ctrl_flags = 0xA5`: the flag bits `STATUS` and `EVENT` and the
masked part `0xA0` give the value back. -/
theorem pmu_cmd_flags_partition_witness :
    (0xA5 &&& PMU_CMD_FLAGS_STATUS) ||| (0xA5 &&& PMU_CMD_FLAGS_INTR) |||
    (0xA5 &&& PMU_CMD_FLAGS_EVENT) ||| (0xA5 &&& PMU_CMD_FLAGS_WATERMARK) |||
    (0xA5 &&& PMU_CMD_FLAGS_PMU_MASK) = 0xA5 :=
  pmu_cmd_flags_partition.2.2.2.2.2.2 0xA5 (by decide)

/-! ## Sequence ids -/

/-- C8: a sequence index `i` below `PMU_MAX_NUM_SEQUENCES` is unchanged by the
conversion to `u8` (its low byte is `i`), it is what is read back from the
`seq_id` byte of a stored header, and two indices below
`PMU_MAX_NUM_SEQUENCES` with the same `u8` value are equal. -/
theorem seq_index_fits_seq_id (i : Nat) (hi : i < PMU_MAX_NUM_SEQUENCES) :
    u8 i = i ∧
    (∀ unit_id size ctrl_flags : Nat,
      (pmu_hdr.load (pmu_hdr.mk unit_id size ctrl_flags i).store).map pmu_hdr.seq_id
        = some i) ∧
    (∀ j, j < PMU_MAX_NUM_SEQUENCES → u8 i = u8 j → i = j) := by
  have hmax : PMU_MAX_NUM_SEQUENCES = 2 ^ 8 := rfl
  rw [hmax] at hi
  have hu : u8 i = i := u8_of_lt i hi
  refine ⟨hu, ?_, ?_⟩
  · intro a b c
    rw [pmu_hdr_load_store]
    simp only [Option.map_some', hu]
  · intro j hj h
    rw [hmax] at hj
    rw [hu, u8_of_lt j hj] at h
    exact h

/-- C8 at the last table index, 255. -/
theorem seq_index_fits_seq_id_witness :
    255 < PMU_MAX_NUM_SEQUENCES ∧ u8 255 = 255 ∧
    (pmu_hdr.load (pmu_hdr.mk PMU_UNIT_PG 4 0 255).store).map pmu_hdr.seq_id
      = some 255 :=
  ⟨by decide, (seq_index_fits_seq_id 255 (by decide)).1,
    (seq_index_fits_seq_id 255 (by decide)).2.1 PMU_UNIT_PG 4 0⟩

/-! ## Sequence table geometry -/

/-- C9, as the declaration has it: the bitmap is
`unsigned long pmu_seq_tbl[PMU_SEQ_TBL_SIZE]`, 8 words of `unsigned long`. Where
`unsigned long` has 64 bits, as on arm64, the bitmap has 512 bits, two per
entry and not one: the highest entry, 255, has its bit in word 3, and the
words 4 to 7 are never used for an entry. -/
theorem pmu_seq_tbl_lp64_has_512_bits :
    pmu_seq_tbl_bits 64 = 512 ∧
    pmu_seq_tbl_bits 64 ≠ PMU_MAX_NUM_SEQUENCES ∧
    pmu_seq_tbl_bits 64 = 2 * PMU_MAX_NUM_SEQUENCES ∧
    (PMU_MAX_NUM_SEQUENCES - 1) / 64 = 3 ∧
    3 + 4 < PMU_SEQ_TBL_SIZE := by
  decide

/-- C9, amended: the sequence table has `PMU_MAX_NUM_SEQUENCES = 256` entries
and its bitmap `PMU_SEQ_TBL_SIZE = 256 >> PMU_SEQ_BIT_SHIFT = 8` words of
`unsigned long`, `8 * bits_per_long` bits in all. That is one bit per entry,
`8 * 32 = 256`, exactly where `unsigned long` has `2 ^ PMU_SEQ_BIT_SHIFT = 32`
bits; where it has 64 bits there are 512. With words of 32 bits or more every
entry `i` has a bit of its own in the table, bit `i mod bits_per_long` of
word `i / bits_per_long`; with words of 32 bits, index `i` goes to bit
`i mod 32` of word `i >> 5`, and every bit of every word of the table comes
from exactly that one index. -/
theorem pmu_seq_tbl_bits_per_entry :
    PMU_MAX_NUM_SEQUENCES = 256 ∧
    PMU_SEQ_TBL_SIZE = 256 >>> PMU_SEQ_BIT_SHIFT ∧ PMU_SEQ_TBL_SIZE = 8 ∧
    2 ^ PMU_SEQ_BIT_SHIFT = 32 ∧
    PMU_SEQ_TBL_SIZE * 32 = 256 ∧
    PMU_SEQ_TBL_SIZE * 2 ^ PMU_SEQ_BIT_SHIFT = PMU_MAX_NUM_SEQUENCES ∧
    (∀ bits_per_long, pmu_seq_tbl_bits bits_per_long = 8 * bits_per_long) ∧
    (∀ bits_per_long, pmu_seq_tbl_bits bits_per_long = PMU_MAX_NUM_SEQUENCES ↔
      bits_per_long = 2 ^ PMU_SEQ_BIT_SHIFT) ∧
    pmu_seq_tbl_bits 32 = 256 ∧ pmu_seq_tbl_bits 64 = 512 ∧
    (∀ bits_per_long, 2 ^ PMU_SEQ_BIT_SHIFT ≤ bits_per_long →
      PMU_MAX_NUM_SEQUENCES ≤ pmu_seq_tbl_bits bits_per_long ∧
      ∀ i, i < PMU_MAX_NUM_SEQUENCES →
        i / bits_per_long < PMU_SEQ_TBL_SIZE ∧ i % bits_per_long < bits_per_long ∧
        (i / bits_per_long) * bits_per_long + i % bits_per_long = i ∧
        (i / bits_per_long) * bits_per_long + i % bits_per_long
          < pmu_seq_tbl_bits bits_per_long) ∧
    (∀ i, i < PMU_MAX_NUM_SEQUENCES →
      i >>> PMU_SEQ_BIT_SHIFT < PMU_SEQ_TBL_SIZE ∧
      i % 2 ^ PMU_SEQ_BIT_SHIFT < 2 ^ PMU_SEQ_BIT_SHIFT ∧
      (i >>> PMU_SEQ_BIT_SHIFT) * 2 ^ PMU_SEQ_BIT_SHIFT + i % 2 ^ PMU_SEQ_BIT_SHIFT = i) ∧
    (∀ w b, w < PMU_SEQ_TBL_SIZE → b < 2 ^ PMU_SEQ_BIT_SHIFT →
      w * 2 ^ PMU_SEQ_BIT_SHIFT + b < PMU_MAX_NUM_SEQUENCES ∧
      (w * 2 ^ PMU_SEQ_BIT_SHIFT + b) >>> PMU_SEQ_BIT_SHIFT = w ∧
      (w * 2 ^ PMU_SEQ_BIT_SHIFT + b) % 2 ^ PMU_SEQ_BIT_SHIFT = b) := by
  have hmax : PMU_MAX_NUM_SEQUENCES = 256 := rfl
  have hshift : PMU_SEQ_BIT_SHIFT = 5 := rfl
  have htbl : PMU_SEQ_TBL_SIZE = 8 := by decide
  have hbits : ∀ bits_per_long, pmu_seq_tbl_bits bits_per_long = 8 * bits_per_long := by
    intro bits_per_long
    unfold pmu_seq_tbl_bits
    rw [htbl]
  refine ⟨rfl, rfl, htbl, by decide, by decide, by decide, hbits, ?_, by decide, by decide,
    ?_, ?_, ?_⟩
  · intro bits_per_long
    rw [hbits, hmax, hshift]
    omega
  · intro bits_per_long hb
    rw [hshift] at hb
    rw [hbits, hmax, htbl]
    refine ⟨by omega, ?_⟩
    intro i hi
    have hpos : 0 < bits_per_long := by omega
    have hdm : bits_per_long * (i / bits_per_long) + i % bits_per_long = i := Nat.div_add_mod i _
    have hcomm : i / bits_per_long * bits_per_long = bits_per_long * (i / bits_per_long) :=
      Nat.mul_comm _ _
    refine ⟨?_, Nat.mod_lt _ hpos, by omega, by omega⟩
    apply Nat.div_lt_of_lt_mul
    omega
  · intro i hi
    rw [hmax] at hi
    rw [htbl, hshift, Nat.shiftRight_eq_div_pow]
    omega
  · intro w b hw hb
    rw [htbl] at hw
    rw [hshift] at hb ⊢
    rw [hmax, Nat.shiftRight_eq_div_pow]
    omega

/-- C9 at sequence index 200: with words of 32 bits bit 8 of word 6, with
words of 64 bits bit 8 of word 3. -/
theorem pmu_seq_tbl_bits_per_entry_witness :
    (200 >>> PMU_SEQ_BIT_SHIFT < PMU_SEQ_TBL_SIZE ∧
      200 % 2 ^ PMU_SEQ_BIT_SHIFT < 2 ^ PMU_SEQ_BIT_SHIFT ∧
      (200 >>> PMU_SEQ_BIT_SHIFT) * 2 ^ PMU_SEQ_BIT_SHIFT + 200 % 2 ^ PMU_SEQ_BIT_SHIFT
        = 200) ∧
    (200 / 64 < PMU_SEQ_TBL_SIZE ∧ 200 % 64 < 64 ∧
      (200 / 64) * 64 + 200 % 64 = 200 ∧
      (200 / 64) * 64 + 200 % 64 < pmu_seq_tbl_bits 64) :=
  ⟨pmu_seq_tbl_bits_per_entry.2.2.2.2.2.2.2.2.2.2.2.1 200 (by decide),
    (pmu_seq_tbl_bits_per_entry.2.2.2.2.2.2.2.2.2.2.1 64 (by decide)).2 200 (by decide)⟩

/-! ## Init message layouts -/

/-- C10, as the header has it: layout v3 has no offset per queue. Neither
`queue_info[q].offset` nor `queue_offset[q]` exists in it, `queue_offset` being
one `u16`; and the whole layout holds 9 `u16` scalars, fewer than the
`2 * PMU_QUEUE_COUNT + 2 = 12` that five sizes, five offsets and the
software-managed-area offset and size take. -/
theorem init_msg_v3_single_queue_offset :
    advertisesQueueGeometry struct_pmu_init_msg_pmu_v3 = false ∧
    advertisesQueueParam struct_pmu_init_msg_pmu_v3 "offset" 2 = false ∧
    queueParam struct_pmu_init_msg_pmu_v3 1 "offset" = none ∧
    struct_pmu_init_msg_pmu_v3.resolve 0 [.member "queue_offset", .index 1] = none ∧
    struct_pmu_init_msg_pmu_v3.resolve 0 [.member "queue_offset"] = some (.u16, 16) ∧
    struct_pmu_init_msg_pmu_v3.countScalars 2 = 9 ∧
    9 < 2 * PMU_QUEUE_COUNT + 2 := by
  refine ⟨by decide, by decide, rfl, rfl, rfl, by decide, by decide⟩

/-- C10, amended: for each queue `q` of the `PMU_QUEUE_COUNT = 5`, the layouts
v0, v1 and v2 hold that queue's size (`u16`), offset (`u16`) and index (`u8`)
in `queue_info[q]`; layout v3 holds that queue's index (`u8`, `queue_index[q]`)
and size (`u16`, `queue_size[q]`) but a single `u16` `queue_offset` for all
queues; each of the four layouts has one `u16` software-managed-area offset
and one `u16` software-managed-area size. -/
theorem init_msg_queue_geometry (q : Nat) (hq : q < PMU_QUEUE_COUNT) :
    PMU_QUEUE_COUNT = 5 ∧
    (advertisesQueueGeometry struct_pmu_init_msg_pmu_v0 = true ∧
      queueParam struct_pmu_init_msg_pmu_v0 q "size" = some (.u16, 2 + 6 * q) ∧
      queueParam struct_pmu_init_msg_pmu_v0 q "offset" = some (.u16, 4 + 6 * q) ∧
      queueParam struct_pmu_init_msg_pmu_v0 q "index" = some (.u8, 6 + 6 * q) ∧
      struct_pmu_init_msg_pmu_v0.resolve 0 [.member "sw_managed_area_offset"]
        = some (.u16, 32) ∧
      struct_pmu_init_msg_pmu_v0.resolve 0 [.member "sw_managed_area_size"]
        = some (.u16, 34)) ∧
    (advertisesQueueGeometry struct_pmu_init_msg_pmu_v1 = true ∧
      queueParam struct_pmu_init_msg_pmu_v1 q "size" = some (.u16, 4 + 6 * q) ∧
      queueParam struct_pmu_init_msg_pmu_v1 q "offset" = some (.u16, 6 + 6 * q) ∧
      queueParam struct_pmu_init_msg_pmu_v1 q "index" = some (.u8, 8 + 6 * q) ∧
      struct_pmu_init_msg_pmu_v1.resolve 0 [.member "sw_managed_area_offset"]
        = some (.u16, 34) ∧
      struct_pmu_init_msg_pmu_v1.resolve 0 [.member "sw_managed_area_size"]
        = some (.u16, 36)) ∧
    (advertisesQueueGeometry struct_pmu_init_msg_pmu_v2 = true ∧
      queueParam struct_pmu_init_msg_pmu_v2 q "size" = some (.u16, 4 + 6 * q) ∧
      queueParam struct_pmu_init_msg_pmu_v2 q "offset" = some (.u16, 6 + 6 * q) ∧
      queueParam struct_pmu_init_msg_pmu_v2 q "index" = some (.u8, 8 + 6 * q) ∧
      struct_pmu_init_msg_pmu_v2.resolve 0 [.member "sw_managed_area_offset"]
        = some (.u16, 34) ∧
      struct_pmu_init_msg_pmu_v2.resolve 0 [.member "sw_managed_area_size"]
        = some (.u16, 36)) ∧
    (advertisesQueueParam struct_pmu_init_msg_pmu_v3 "size" 2 = true ∧
      advertisesQueueParam struct_pmu_init_msg_pmu_v3 "index" 1 = true ∧
      queueParam struct_pmu_init_msg_pmu_v3 q "size" = some (.u16, 6 + 2 * q) ∧
      queueParam struct_pmu_init_msg_pmu_v3 q "index" = some (.u8, 1 + q) ∧
      queueParam struct_pmu_init_msg_pmu_v3 q "offset" = none ∧
      struct_pmu_init_msg_pmu_v3.resolve 0 [.member "queue_offset"] = some (.u16, 16) ∧
      struct_pmu_init_msg_pmu_v3.resolve 0 [.member "sw_managed_area_offset"]
        = some (.u16, 18) ∧
      struct_pmu_init_msg_pmu_v3.resolve 0 [.member "sw_managed_area_size"]
        = some (.u16, 20)) := by
  have h5 : PMU_QUEUE_COUNT = 5 := rfl
  rw [h5] at hq
  refine ⟨h5, ⟨by decide, ?_, ?_, ?_, rfl, rfl⟩, ⟨by decide, ?_, ?_, ?_, rfl, rfl⟩,
    ⟨by decide, ?_, ?_, ?_, rfl, rfl⟩, ⟨by decide, by decide, ?_, ?_, ?_, rfl, rfl, rfl⟩⟩ <;>
  · interval_cases q <;> rfl

/-- C10, amended, at queue 4 (the message queue): its size, offset and index
in layout v0, and its size and index in layout v3, which has no offset for
it. -/
theorem init_msg_queue_geometry_witness :
    4 < PMU_QUEUE_COUNT ∧
    queueParam struct_pmu_init_msg_pmu_v0 4 "size" = some (.u16, 26) ∧
    queueParam struct_pmu_init_msg_pmu_v0 4 "offset" = some (.u16, 28) ∧
    queueParam struct_pmu_init_msg_pmu_v0 4 "index" = some (.u8, 30) ∧
    queueParam struct_pmu_init_msg_pmu_v3 4 "size" = some (.u16, 14) ∧
    queueParam struct_pmu_init_msg_pmu_v3 4 "index" = some (.u8, 5) ∧
    queueParam struct_pmu_init_msg_pmu_v3 4 "offset" = none :=
  have h := init_msg_queue_geometry 4 (by decide)
  ⟨by decide, h.2.1.2.1, h.2.1.2.2.1, h.2.1.2.2.2.1, h.2.2.2.2.2.2.1,
    h.2.2.2.2.2.2.2.1, h.2.2.2.2.2.2.2.2.1⟩

/-! ## Memory descriptors of the allocation layouts -/

/-- C11: the framebuffer descriptor `alloc.fb` of `pmu_allocation_v0..v3` is
`pmu_mem_v0`, `pmu_mem_v1`, `pmu_mem_desc_v0` and `flcn_mem_desc_v0`, and these
have the four shapes: v0 = `dma_base` u32, `dma_offset` u8, `dma_idx` u8;
v1 = the members of v0, in the same order and at the same offsets, followed by
`fb_size` u16; v2 = a 64-bit address as `lo`/`hi` u32, a u16 size
`dma_sizemax`, `dma_idx` u8; v3 = a 64-bit address as `lo`/`hi` u32 and
`params` u32. -/
theorem pmu_allocation_fb_shapes :
    (allocation_fb struct_pmu_allocation_v0 = some (struct_pmu_mem_v0, 12) ∧
      allocation_fb struct_pmu_allocation_v1 = some (struct_pmu_mem_v1, 8) ∧
      allocation_fb struct_pmu_allocation_v2 = some (struct_pmu_mem_desc_v0, 8) ∧
      allocation_fb struct_pmu_allocation_v3 = some (struct_flcn_mem_desc_v0, 8)) ∧
    (struct_pmu_mem_v0.members = [("dma_base", .u32), ("dma_offset", .u8), ("dma_idx", .u8)] ∧
      struct_pmu_mem_v0.leaves 0 [] =
        [([.member "dma_base"], 4, 0), ([.member "dma_offset"], 1, 4),
         ([.member "dma_idx"], 1, 5)]) ∧
    (struct_pmu_mem_v1.members = struct_pmu_mem_v0.members ++ [("fb_size", .u16)] ∧
      struct_pmu_mem_v1.leaves 0 [] =
        struct_pmu_mem_v0.leaves 0 [] ++ [([.member "fb_size"], 2, 6)]) ∧
    (struct_pmu_mem_desc_v0.members =
        [("dma_addr", struct_falc_u64), ("dma_sizemax", .u16), ("dma_idx", .u8)] ∧
      struct_pmu_mem_desc_v0.leaves 0 [] =
        [([.member "dma_addr", .member "lo"], 4, 0),
         ([.member "dma_addr", .member "hi"], 4, 4),
         ([.member "dma_sizemax"], 2, 8), ([.member "dma_idx"], 1, 10)]) ∧
    (struct_flcn_mem_desc_v0.members = [("address", struct_flcn_u64), ("params", .u32)] ∧
      struct_flcn_mem_desc_v0.leaves 0 [] =
        [([.member "address", .member "lo"], 4, 0),
         ([.member "address", .member "hi"], 4, 4), ([.member "params"], 4, 8)]) ∧
    (struct_falc_u64.sizeof = 8 ∧ struct_flcn_u64.sizeof = 8 ∧
      struct_pmu_mem_v0.sizeof = 8 ∧ struct_pmu_mem_v1.sizeof = 8 ∧
      struct_pmu_mem_desc_v0.sizeof = 12 ∧ struct_flcn_mem_desc_v0.sizeof = 12) :=
  ⟨⟨rfl, rfl, rfl, rfl⟩, ⟨rfl, rfl⟩, ⟨rfl, rfl⟩, ⟨rfl, rfl⟩, ⟨rfl, rfl⟩,
    ⟨by decide, by decide, by decide, by decide, by decide, by decide⟩⟩

/-! ## ELPG state codes -/

/-- C12: the header defines exactly five ELPG state codes, `OFF`, `ON`,
`ON_PENDING`, `OFF_PENDING`, `OFF_ON_PENDING`; they are the pairwise distinct
values 0, 1, 2, 3, 4, and the value zero, with which `elpg_stat` starts, is
`PMU_ELPG_STAT_OFF`. -/
theorem PMU_ELPG_STAT_codes_distinct (c : Nat) :
    PMU_ELPG_STAT_codes = [0, 1, 2, 3, 4] ∧
    PMU_ELPG_STAT_codes.length = 5 ∧
    PMU_ELPG_STAT_codes.Nodup ∧
    (c ∈ PMU_ELPG_STAT_codes ↔ c < 5) ∧
    (0 : Nat) = PMU_ELPG_STAT_OFF ∧
    (c ∈ PMU_ELPG_STAT_codes → c ≠ PMU_ELPG_STAT_OFF → c ≠ 0) := by
  have hc : PMU_ELPG_STAT_codes = [0, 1, 2, 3, 4] := rfl
  have ho : PMU_ELPG_STAT_OFF = 0 := rfl
  refine ⟨hc, by decide, by decide, ?_, rfl, ?_⟩
  · rw [hc]
    simp only [List.mem_cons, List.mem_singleton, List.not_mem_nil, or_false]
    omega
  · intro _ h
    rw [ho] at h
    exact h

/-! ## Init message layouts v0, v1, v2 -/

/-- C20: the init-message layouts v0, v1 and v2 differ only in the
debug-entry-point member and the padding: the members of v1 are those of v0
with `u16 os_debug_entry_point` inserted after the two leading bytes
`msg_type` and `pad`, which moves every later scalar of v0 up by 2 bytes; the
members of v2 are those of v1 followed by the 18 bytes `dummy[18]`; and in all
three the array `queue_info` has the same element type and
`PMU_QUEUE_COUNT = 5` elements and is followed by the `u16` members
`sw_managed_area_offset` and `sw_managed_area_size`, in this order. -/
theorem init_msg_v0_v1_v2_differences :
    (struct_pmu_init_msg_pmu_v0.members.take 2 = [("msg_type", .u8), ("pad", .u8)] ∧
      struct_pmu_init_msg_pmu_v0.members.drop 2 =
        [("queue_info", .arr struct_queue_info 5), ("sw_managed_area_offset", .u16),
         ("sw_managed_area_size", .u16)]) ∧
    struct_pmu_init_msg_pmu_v1.members =
      struct_pmu_init_msg_pmu_v0.members.take 2 ++ [("os_debug_entry_point", .u16)] ++
        struct_pmu_init_msg_pmu_v0.members.drop 2 ∧
    (struct_pmu_init_msg_pmu_v2.members =
        struct_pmu_init_msg_pmu_v1.members ++ [("dummy", .arr .u8 18)] ∧
      (CType.arr .u8 18).sizeof = 18) ∧
    ((struct_pmu_init_msg_pmu_v1.leaves 0 []).take 2 =
        (struct_pmu_init_msg_pmu_v0.leaves 0 []).take 2 ∧
      (struct_pmu_init_msg_pmu_v1.leaves 0 []).drop 2 =
        ([.member "os_debug_entry_point"], 2, 2) ::
          ((struct_pmu_init_msg_pmu_v0.leaves 0 []).drop 2).map
            (fun l => (l.1, l.2.1, l.2.2 + 2))) ∧
    ((struct_pmu_init_msg_pmu_v2.leaves 0 []).take 25 = struct_pmu_init_msg_pmu_v1.leaves 0 [] ∧
      (struct_pmu_init_msg_pmu_v2.leaves 0 []).drop 25 =
        (List.range 18).map (fun i => ([.member "dummy", .index i], 1, 38 + i))) ∧
    (struct_pmu_init_msg_pmu_v0.sizeof = 36 ∧
      struct_pmu_init_msg_pmu_v1.sizeof = struct_pmu_init_msg_pmu_v0.sizeof + 2 ∧
      struct_pmu_init_msg_pmu_v2.sizeof = struct_pmu_init_msg_pmu_v1.sizeof + 18) ∧
    (struct_pmu_init_msg_pmu_v0.resolve 0 [.member "queue_info"]
        = some (.arr struct_queue_info 5, 2) ∧
      struct_pmu_init_msg_pmu_v1.resolve 0 [.member "queue_info"]
        = some (.arr struct_queue_info 5, 4) ∧
      struct_pmu_init_msg_pmu_v2.resolve 0 [.member "queue_info"]
        = some (.arr struct_queue_info 5, 4)) :=
  ⟨⟨rfl, rfl⟩, rfl, ⟨rfl, by decide⟩, ⟨rfl, rfl⟩, ⟨rfl, rfl⟩,
    ⟨by decide, by decide, by decide⟩, ⟨rfl, rfl, rfl⟩⟩

/-! ## ELPG state machine -/

/-- A step that ends in `ON` from another state is the step from `ON_PENDING`
on `ALLOW_ACK`. -/
theorem elpg_step_enters_ON (s : ElpgStat) (e : ElpgEvent)
    (h : elpg_step s e = .ON) (hs : s ≠ .ON) : s = .ON_PENDING ∧ e = .ALLOW_ACK := by
  cases s <;> cases e <;> simp_all [elpg_step]

/-- Every transition of a run that ends in `ON` from another state is the
step from `ON_PENDING` on `ALLOW_ACK`. -/
theorem elpg_transitions_enter_ON (es : List ElpgEvent) :
    ∀ s : ElpgStat, ∀ tr ∈ elpg_transitions s es,
      tr.2.2 = .ON → tr.1 ≠ .ON → tr.1 = .ON_PENDING ∧ tr.2.1 = .ALLOW_ACK := by
  induction es with
  | nil =>
    intro s tr htr
    simp [elpg_transitions] at htr
  | cons e es ih =>
    intro s tr htr hon hne
    simp only [elpg_transitions, List.mem_cons] at htr
    rcases htr with rfl | htr
    · exact elpg_step_enters_ON s e hon hne
    · exact ih _ tr htr hon hne

/-- C13: in every run of the ELPG state machine from the initial state `OFF`,
a transition that enters `ON` starts in `ON_PENDING` and is caused by
`ALLOW_ACK`; no event leads to `ON` from `OFF`, `OFF_PENDING` or
`OFF_ON_PENDING`; and the documented order OFF, ON_PENDING, ON, OFF_PENDING,
OFF, with or without the optional OFF_ON_PENDING before ON_PENDING, is a run
of the machine. -/
theorem elpg_ON_only_from_ON_PENDING (es : List ElpgEvent)
    (tr : ElpgStat × ElpgEvent × ElpgStat) (htr : tr ∈ elpg_transitions .OFF es)
    (hon : tr.2.2 = .ON) (hne : tr.1 ≠ .ON) :
    (tr.1 = .ON_PENDING ∧ tr.2.1 = .ALLOW_ACK) ∧
    (∀ e : ElpgEvent, elpg_step .OFF e ≠ .ON ∧ elpg_step .OFF_PENDING e ≠ .ON ∧
      elpg_step .OFF_ON_PENDING e ≠ .ON) ∧
    (∀ (s : ElpgStat) (e : ElpgEvent), elpg_step s e = .ON → s ≠ .ON →
      s = .ON_PENDING ∧ e = .ALLOW_ACK) ∧
    elpg_step .ON_PENDING .ALLOW_ACK = .ON ∧
    (elpg_transitions .OFF [.request_enable, .ALLOW_ACK, .request_disable, .DISALLOW_ACK]).map
      (fun t => t.2.2) = [.ON_PENDING, .ON, .OFF_PENDING, .OFF] ∧
    (elpg_transitions .OFF [.request_enable_delayed, .allow_delay_elapsed, .ALLOW_ACK,
      .request_disable, .DISALLOW_ACK]).map
      (fun t => t.2.2) = [.OFF_ON_PENDING, .ON_PENDING, .ON, .OFF_PENDING, .OFF] ∧
    (elpg_transitions .OFF_PENDING [.request_enable, .DISALLOW_ACK, .ALLOW_ACK]).map
      (fun t => t.2.2) = [.OFF_ON_PENDING, .ON_PENDING, .ON] := by
  refine ⟨elpg_transitions_enter_ON es _ tr htr hon hne, ?_, ?_, rfl, rfl, rfl, rfl⟩
  · intro e
    cases e <;> simp [elpg_step]
  · intro s e h hs
    exact elpg_step_enters_ON s e h hs

/-- C13 at the run OFF, enable, ALLOW_ACK, disable: its second transition
enters `ON`, from `ON_PENDING` and on `ALLOW_ACK`. -/
theorem elpg_ON_only_from_ON_PENDING_witness :
    (ElpgStat.ON_PENDING, ElpgEvent.ALLOW_ACK, ElpgStat.ON) ∈
      elpg_transitions .OFF [.request_enable, .ALLOW_ACK, .request_disable] ∧
    elpg_run .OFF [.request_enable, .ALLOW_ACK] = .ON ∧
    ((ElpgStat.ON_PENDING, ElpgEvent.ALLOW_ACK, ElpgStat.ON).1 = .ON_PENDING ∧
      (ElpgStat.ON_PENDING, ElpgEvent.ALLOW_ACK, ElpgStat.ON).2.1 = .ALLOW_ACK) :=
  ⟨by decide, rfl,
    (elpg_ON_only_from_ON_PENDING [.request_enable, .ALLOW_ACK, .request_disable]
      (.ON_PENDING, .ALLOW_ACK, .ON) (by decide) rfl (by decide)).1⟩

/-! ## Resource mutex arbiter -/

/-- What a successful `acquire` does to the mutex it is called on. -/
theorem mutex_acquire_ok (id : Nat) (g : Option Nat) (s s1 : MutexArbiter) (tok : Option Nat)
    (h : mutex_acquire id g s = .ok (s1, tok)) :
    PMU_MUTEX_ID_IS_VALID id = true ∧
    s1.ref_cnt id = s.ref_cnt id + 1 ∧
    (∀ j, j ≠ id → s1.ref_cnt j = s.ref_cnt j ∧ s1.hw_locked j = s.hw_locked j) ∧
    (s.ref_cnt id = 0 → s1.hw_locked id = true) ∧
    (0 < s.ref_cnt id → s1.hw_locked id = s.hw_locked id) := by
  unfold mutex_acquire at h
  split at h
  · cases h
  · rename_i hv
    have hv2 : PMU_MUTEX_ID_IS_VALID id = true := by simpa using hv
    split at h
    · rename_i hpos
      cases h
      refine ⟨hv2, by simp, ?_, ?_, ?_⟩
      · intro j hj
        simp [Function.update_noteq hj]
      · intro hz
        omega
      · intro _
        rfl
    · rename_i hnpos
      cases g with
      | none => cases h
      | some t =>
        cases h
        refine ⟨hv2, by simp, ?_, ?_, ?_⟩
        · intro j hj
          simp [Function.update_noteq hj]
        · intro _
          simp
        · intro hp
          exact absurd hp hnpos

/-- What a successful `release` does to the mutex it is called on. -/
theorem mutex_release_ok (id tok : Nat) (s s1 : MutexArbiter)
    (h : mutex_release id tok s = .ok s1) :
    0 < s.ref_cnt id ∧ tok = s.token id ∧
    s1.ref_cnt id = s.ref_cnt id - 1 ∧ s1.token = s.token ∧
    (∀ j, j ≠ id → s1.ref_cnt j = s.ref_cnt j ∧ s1.hw_locked j = s.hw_locked j) ∧
    (s1.ref_cnt id = 0 → s1.hw_locked id = false) ∧
    (0 < s1.ref_cnt id → s1.hw_locked id = s.hw_locked id) := by
  unfold mutex_release at h
  split at h
  · cases h
  · rename_i hz
    split at h
    · cases h
    · rename_i ht
      cases h
      refine ⟨by omega, by simpa using ht, by simp, rfl, ?_, ?_, ?_⟩
      · intro j hj
        by_cases h0 : s.ref_cnt id - 1 = 0 <;> simp [h0, Function.update_noteq hj]
      · intro h0
        have h0' : s.ref_cnt id - 1 = 0 := by simpa using h0
        simp [h0']
      · intro hp
        have h0' : ¬ (s.ref_cnt id - 1 = 0) := by
          have : s.ref_cnt id - 1 ≠ 0 := by simpa using (Nat.pos_iff_ne_zero.mp hp)
          exact this
        simp [h0']

/-- A release with the last-granted token succeeds on a mutex that is held. -/
theorem mutex_release_succeeds (id : Nat) (s : MutexArbiter) (h : 0 < s.ref_cnt id) :
    ∃ s1, mutex_release id (s.token id) s = .ok s1 := by
  unfold mutex_release
  have hz : ¬ (s.ref_cnt id = 0) := by omega
  simp [hz]

/-- Successful `acquire` calls on a mutex that is held leave its hardware lock
as it is. -/
theorem mutex_acquire_all_keeps_lock (id : Nat) (gs : List (Option Nat)) :
    ∀ s s1 : MutexArbiter, mutex_acquire_all id gs s = .ok s1 → 0 < s.ref_cnt id →
      s1.hw_locked id = s.hw_locked id := by
  induction gs with
  | nil =>
    intro s s1 h _
    simp only [mutex_acquire_all, Except.ok.injEq] at h
    subst h
    rfl
  | cons g gs ih =>
    intro s s1 h hp
    simp only [mutex_acquire_all] at h
    split at h
    · rename_i sm tok hm
      obtain ⟨_, hcnt, _, _, hlockp⟩ := mutex_acquire_ok id g s sm tok hm
      rw [ih sm s1 h (by omega), hlockp hp]
    · cases h

/-- After `acquire` calls that all succeeded the reference count has grown by
their number, and a mutex that was free is locked in hardware once at least
one call was made. -/
theorem mutex_acquire_all_ok (id : Nat) (gs : List (Option Nat)) :
    ∀ s s1 : MutexArbiter, mutex_acquire_all id gs s = .ok s1 →
      s1.ref_cnt id = s.ref_cnt id + gs.length ∧
      (0 < gs.length → s.ref_cnt id = 0 → s1.hw_locked id = true) := by
  induction gs with
  | nil =>
    intro s s1 h
    simp only [mutex_acquire_all, Except.ok.injEq] at h
    subst h
    simp
  | cons g gs ih =>
    intro s s1 h
    simp only [mutex_acquire_all] at h
    split at h
    · rename_i sm tok hm
      obtain ⟨_, hcnt, _, hlock0, _⟩ := mutex_acquire_ok id g s sm tok hm
      obtain ⟨h1, _⟩ := ih sm s1 h
      refine ⟨by simp only [List.length_cons]; omega, ?_⟩
      intro _ hz
      rw [mutex_acquire_all_keeps_lock id gs sm s1 h (by omega)]
      exact hlock0 hz
    · cases h

/-- On a mutex with a valid id, a first call whose handshake is granted (or
that finds the mutex held) and any number of further calls all succeed. -/
theorem mutex_acquire_all_succeeds (id : Nat) (hid : PMU_MUTEX_ID_IS_VALID id = true)
    (gs : List (Option Nat)) :
    ∀ (g : Option Nat) (s : MutexArbiter), (s.ref_cnt id = 0 → g.isSome = true) →
      ∃ s1, mutex_acquire_all id (g :: gs) s = .ok s1 := by
  induction gs with
  | nil =>
    intro g s hg
    simp only [mutex_acquire_all, mutex_acquire, hid]
    by_cases hp : 0 < s.ref_cnt id
    · simp [hp]
    · cases g with
      | none =>
        have := hg (by omega)
        simp at this
      | some t => simp [hp]
  | cons g2 gs ih =>
    intro g s hg
    have hstep : ∃ sm tok, mutex_acquire id g s = .ok (sm, tok) := by
      simp only [mutex_acquire, hid]
      by_cases hp : 0 < s.ref_cnt id
      · simp [hp]
      · cases g with
        | none =>
          have := hg (by omega)
          simp at this
        | some t => simp [hp]
    obtain ⟨sm, tok, hm⟩ := hstep
    obtain ⟨_, hcnt, _⟩ := mutex_acquire_ok id g s sm tok hm
    obtain ⟨s1, h1⟩ := ih g2 sm (by intro hz; omega)
    refine ⟨s1, ?_⟩
    rw [mutex_acquire_all, hm]
    exact h1

/-- As many releases with the last-granted token as the reference count allows
all succeed; they take the count down by their number and, when it reaches
zero, free the hardware lock. -/
theorem mutex_release_n_ok (id : Nat) (n : Nat) :
    ∀ s : MutexArbiter, n ≤ s.ref_cnt id →
      ∃ s1, mutex_release_n id n s = .ok s1 ∧ s1.ref_cnt id = s.ref_cnt id - n ∧
        (0 < n → s1.ref_cnt id = 0 → s1.hw_locked id = false) := by
  induction n with
  | zero =>
    intro s _
    exact ⟨s, rfl, by simp, by simp⟩
  | succ n ih =>
    intro s hn
    obtain ⟨sm, hm⟩ := mutex_release_succeeds id s (by omega)
    obtain ⟨_, _, hcnt, _, _, hz, _⟩ := mutex_release_ok id _ s sm hm
    obtain ⟨s1, h1, h2, h3⟩ := ih sm (by omega)
    refine ⟨s1, ?_, by omega, ?_⟩
    · rw [mutex_release_n, hm]
      exact h1
    · intro _ h0
      cases n with
      | zero =>
        simp only [mutex_release_n, Except.ok.injEq] at h1
        subst h1
        exact hz h0
      | succ m => exact h3 (by omega) h0

/-- In a reachable state a mutex whose hardware lock is held has a positive
reference count. -/
theorem mutex_reachable_locked_pos (s : MutexArbiter) (h : MutexReachable s) :
    ∀ j, s.hw_locked j = true → 0 < s.ref_cnt j := by
  induction h with
  | init =>
    intro j hj
    simp [MutexArbiter.init] at hj
  | acquire id g s s1 tok _ hacq ih =>
    intro j hj
    obtain ⟨_, hcnt, hother, _, _⟩ := mutex_acquire_ok id g s s1 tok hacq
    by_cases hji : j = id
    · subst hji
      omega
    · obtain ⟨hc, hl⟩ := hother j hji
      rw [hc]
      exact ih j (by rw [← hl]; exact hj)
  | release id tok s s1 _ hrel ih =>
    intro j hj
    obtain ⟨_, _, hcnt, _, hother, hz, hp⟩ := mutex_release_ok id tok s s1 hrel
    by_cases hji : j = id
    · subst hji
      by_cases h0 : s1.ref_cnt j = 0
      · rw [hz h0] at hj
        cases hj
      · omega
    · obtain ⟨hc, hl⟩ := hother j hji
      rw [hc]
      exact ih j (by rw [← hl]; exact hj)

/-- C14: for a valid mutex id whose mutex is free in a reachable state, `n`
`acquire` calls that all succeed followed by `n` `release` calls with the
granted token all succeed and leave the reference count of that mutex at 0
and its hardware lock released (such successful calls exist for every `n`:
a first call whose handshake is granted and further re-entrant calls); and in
every reachable state a mutex whose hardware lock is held has a positive
reference count. -/
theorem mutex_acquire_release_balanced (id : Nat) (hid : PMU_MUTEX_ID_IS_VALID id = true)
    (s0 s1 : MutexArbiter) (grants : List (Option Nat))
    (h0 : MutexReachable s0) (hfree : s0.ref_cnt id = 0)
    (hacq : mutex_acquire_all id grants s0 = .ok s1) :
    (s1.ref_cnt id = grants.length ∧
      ∃ s2, mutex_release_n id grants.length s1 = .ok s2 ∧
        s2.ref_cnt id = 0 ∧ s2.hw_locked id = false) ∧
    (∀ (t : Nat) (gs : List (Option Nat)),
      ∃ s, mutex_acquire_all id (some t :: gs) s0 = .ok s) ∧
    (∀ s, MutexReachable s → ∀ j, s.hw_locked j = true → 0 < s.ref_cnt j) := by
  obtain ⟨hcnt, _⟩ := mutex_acquire_all_ok id grants s0 s1 hacq
  obtain ⟨s2, h2, hc2, hl2⟩ := mutex_release_n_ok id grants.length s1 (by omega)
  refine ⟨⟨by omega, s2, h2, by omega, ?_⟩, ?_, mutex_reachable_locked_pos⟩
  · cases grants with
    | nil =>
      simp only [mutex_acquire_all, Except.ok.injEq] at hacq
      subst hacq
      simp only [List.length_nil, mutex_release_n, Except.ok.injEq] at h2
      subst h2
      by_contra hl
      have := mutex_reachable_locked_pos s0 h0 id (by simpa using hl)
      omega
    | cons g gs => exact hl2 (by simp) (by omega)
  · intro t gs
    exact mutex_acquire_all_succeeds id hid gs (some t) s0 (by intro _; rfl)

/-- C14 at the mutex `PMU_MUTEX_ID_PG` of the initial arbiter: three
`acquire` calls, the first granted token 7, succeed, and the three releases
that follow leave the mutex free and unlocked. -/
theorem mutex_acquire_release_balanced_witness :
    ∃ s1, mutex_acquire_all PMU_MUTEX_ID_PG [some 7, none, none] MutexArbiter.init = .ok s1 ∧
      s1.ref_cnt PMU_MUTEX_ID_PG = 3 ∧
      ∃ s2, mutex_release_n PMU_MUTEX_ID_PG 3 s1 = .ok s2 ∧
        s2.ref_cnt PMU_MUTEX_ID_PG = 0 ∧ s2.hw_locked PMU_MUTEX_ID_PG = false := by
  obtain ⟨s1, h1⟩ := mutex_acquire_all_succeeds PMU_MUTEX_ID_PG (by decide) [none, none]
    (some 7) MutexArbiter.init (by intro _; rfl)
  exact ⟨s1, h1, (mutex_acquire_release_balanced PMU_MUTEX_ID_PG (by decide)
    MutexArbiter.init s1 [some 7, none, none] MutexReachable.init rfl h1).1⟩

/-! ## Sequence table -/

theorem lowest_clear_bit_cons_true (l : List Bool) :
    lowest_clear_bit (true :: l) = lowest_clear_bit l + 1 := rfl

theorem lowest_clear_bit_cons_false (l : List Bool) :
    lowest_clear_bit (false :: l) = 0 := rfl

theorem lowest_clear_bit_replicate_append (k : Nat) (l : List Bool) :
    lowest_clear_bit (List.replicate k true ++ l) = k + lowest_clear_bit l := by
  induction k with
  | zero => simp
  | succ k ih =>
    rw [List.replicate_succ, List.cons_append, lowest_clear_bit_cons_true, ih]
    omega

theorem lowest_clear_bit_replicate (n : Nat) :
    lowest_clear_bit (List.replicate n true) = n := by
  have h := lowest_clear_bit_replicate_append n []
  simpa [lowest_clear_bit] using h

theorem set_replicate_append {α : Type} (k : Nat) (a b c : α) (l : List α) :
    (List.replicate k a ++ b :: l).set k c = List.replicate k a ++ c :: l := by
  induction k with
  | zero => simp
  | succ k ih => simp [List.replicate_succ, ih]

theorem replicate_append_cons {α : Type} (k : Nat) (a : α) (l : List α) :
    List.replicate k a ++ a :: l = List.replicate (k + 1) a ++ l := by
  induction k with
  | zero => simp
  | succ k ih =>
    simp only [List.replicate_succ, List.cons_append] at ih ⊢
    rw [ih]

theorem getD_replicate_append {α : Type} (k : Nat) (a b d : α) (l : List α) :
    (List.replicate k a ++ b :: l).getD k d = b := by
  induction k with
  | zero => simp
  | succ k ih => simpa [List.replicate_succ] using ih

/-- An allocation from the table whose first `k` entries are taken and whose
other `m + 1` entries are free takes entry `k`. -/
theorem seq_allocate_step (t : SeqTable) (k m : Nat) (hk : k + m + 1 = PMU_MAX_NUM_SEQUENCES)
    (hb : t.pmu_seq_tbl = List.replicate k true ++ List.replicate (m + 1) false)
    (hs : t.state = List.replicate k PMU_SEQ_STATE_PENDING ++
      List.replicate (m + 1) PMU_SEQ_STATE_FREE) :
    seq_allocate t = ((seq_allocate t).1, .ok (k, t.next_seq_desc)) ∧
      (seq_allocate t).1.pmu_seq_tbl = List.replicate (k + 1) true ++ List.replicate m false ∧
      (seq_allocate t).1.state = List.replicate (k + 1) PMU_SEQ_STATE_PENDING ++
        List.replicate m PMU_SEQ_STATE_FREE := by
  have hidx : lowest_clear_bit t.pmu_seq_tbl = k := by
    rw [hb, lowest_clear_bit_replicate_append, List.replicate_succ,
      lowest_clear_bit_cons_false]
    rfl
  have hlt : k < PMU_MAX_NUM_SEQUENCES := by omega
  have hval : seq_allocate t =
      (SeqTable.mk (t.pmu_seq_tbl.set k true) (t.state.set k PMU_SEQ_STATE_PENDING)
        (t.desc.set k t.next_seq_desc) (t.next_seq_desc + 1), .ok (k, t.next_seq_desc)) := by
    simp only [seq_allocate, hidx, hlt, if_true]
  rw [hval]
  refine ⟨rfl, ?_, ?_⟩
  · show t.pmu_seq_tbl.set k true = _
    rw [hb, List.replicate_succ, set_replicate_append, replicate_append_cons]
  · show t.state.set k PMU_SEQ_STATE_PENDING = _
    rw [hs, List.replicate_succ, set_replicate_append, replicate_append_cons]

/-- From the table whose first `k` entries are taken, `n` allocations with
`k + n` within the capacity succeed, return `k, k + 1, ..., k + n - 1` and
leave the first `k + n` entries taken. -/
theorem seq_allocate_n_from (n : Nat) :
    ∀ (k m : Nat) (t : SeqTable), k + n + m = PMU_MAX_NUM_SEQUENCES →
      t.pmu_seq_tbl = List.replicate k true ++ List.replicate (n + m) false →
      t.state = List.replicate k PMU_SEQ_STATE_PENDING ++
        List.replicate (n + m) PMU_SEQ_STATE_FREE →
      ∃ t1, seq_allocate_n n t = .ok (List.range' k n, t1) ∧
        t1.pmu_seq_tbl = List.replicate (k + n) true ++ List.replicate m false ∧
        t1.state = List.replicate (k + n) PMU_SEQ_STATE_PENDING ++
          List.replicate m PMU_SEQ_STATE_FREE := by
  induction n with
  | zero =>
    intro k m t _ hb hs
    refine ⟨t, rfl, ?_, ?_⟩
    · simpa using hb
    · simpa using hs
  | succ n ih =>
    intro k m t hk hb hs
    have hnm : n + 1 + m = (n + m) + 1 := by omega
    rw [hnm] at hb hs
    obtain ⟨h1, h2, h3⟩ := seq_allocate_step t k (n + m) (by omega) hb hs
    obtain ⟨t1, h4, h5, h6⟩ := ih (k + 1) m (seq_allocate t).1 (by omega) h2 h3
    refine ⟨t1, ?_, ?_, ?_⟩
    · rw [seq_allocate_n, h1]
      simp only [h4, List.range'_succ]
    · rw [h5]
      congr 2
      omega
    · rw [h6]
      congr 2
      omega

theorem replicate_split {α : Type} (a : α) (j : Nat) :
    ∀ n, j < n → List.replicate n a = List.replicate j a ++ a :: List.replicate (n - j - 1) a := by
  induction j with
  | zero =>
    intro n hn
    cases n with
    | zero => omega
    | succ n => simp [List.replicate_succ]
  | succ j ih =>
    intro n hn
    cases n with
    | zero => omega
    | succ n =>
      have h := ih n (by omega)
      have e : n + 1 - (j + 1) - 1 = n - j - 1 := by omega
      rw [e, List.replicate_succ, List.replicate_succ, List.cons_append, ← h]

/-- C15: starting from the empty sequence table, `PMU_MAX_NUM_SEQUENCES = 256`
consecutive allocations succeed and return the pairwise distinct indices
`0, 1, ..., 255`; the next allocation fails with `ExhaustedTable` and leaves
the table as it is; and after any one entry `j` of the full table is freed, the
next allocation succeeds and returns `j` again. -/
theorem seq_table_exhaustion_and_reuse :
    ∃ full : SeqTable,
      seq_allocate_n PMU_MAX_NUM_SEQUENCES SeqTable.empty
        = .ok (List.range PMU_MAX_NUM_SEQUENCES, full) ∧
      ((List.range PMU_MAX_NUM_SEQUENCES).Nodup ∧
        (List.range PMU_MAX_NUM_SEQUENCES).length = 256) ∧
      seq_allocate full = (full, .error .ExhaustedTable) ∧
      ∀ j, j < PMU_MAX_NUM_SEQUENCES →
        ∃ t1, seq_free j full = (t1, .ok ()) ∧
          ∃ t2 d, seq_allocate t1 = (t2, .ok (j, d)) := by
  have hmax : PMU_MAX_NUM_SEQUENCES = 256 := rfl
  obtain ⟨full, hrun, hb, hs⟩ := seq_allocate_n_from PMU_MAX_NUM_SEQUENCES 0 0 SeqTable.empty
    (by omega) (by simp [SeqTable.empty]) (by simp [SeqTable.empty])
  simp only [Nat.zero_add, List.replicate_zero, List.append_nil] at hb hs
  refine ⟨full, ?_, ⟨List.nodup_range _, by simp [hmax]⟩, ?_, ?_⟩
  · rw [hrun, List.range_eq_range']
  · have hidx : lowest_clear_bit full.pmu_seq_tbl = PMU_MAX_NUM_SEQUENCES := by
      rw [hb, lowest_clear_bit_replicate]
    simp only [seq_allocate, hidx, Nat.lt_irrefl, if_false]
  · intro j hj
    have hsplit := replicate_split PMU_SEQ_STATE_PENDING j PMU_MAX_NUM_SEQUENCES hj
    have hbsplit := replicate_split true j PMU_MAX_NUM_SEQUENCES hj
    have hstate : full.state.getD j PMU_SEQ_STATE_FREE = PMU_SEQ_STATE_PENDING := by
      rw [hs, hsplit, getD_replicate_append]
    have hne : ¬ (PMU_SEQ_STATE_PENDING = PMU_SEQ_STATE_FREE) := by decide
    refine ⟨SeqTable.mk (full.pmu_seq_tbl.set j false) (full.state.set j PMU_SEQ_STATE_FREE)
      full.desc full.next_seq_desc, ?_, ?_⟩
    · simp only [seq_free, hstate, hne, if_false]
    · have hbit : full.pmu_seq_tbl.set j false =
          List.replicate j true ++ false :: List.replicate (PMU_MAX_NUM_SEQUENCES - j - 1) true := by
        rw [hb, hbsplit, set_replicate_append]
      have hidx : lowest_clear_bit (full.pmu_seq_tbl.set j false) = j := by
        rw [hbit, lowest_clear_bit_replicate_append, lowest_clear_bit_cons_false]
        rfl
      exact ⟨(seq_allocate (SeqTable.mk (full.pmu_seq_tbl.set j false)
        (full.state.set j PMU_SEQ_STATE_FREE) full.desc full.next_seq_desc)).1,
        full.next_seq_desc, by simp only [seq_allocate, hidx, hj, if_true]⟩

/-- C15 at entry 37 of the table filled by 256 allocations: it is freed and the
next allocation returns 37. -/
theorem seq_table_exhaustion_and_reuse_witness :
    ∃ full : SeqTable,
      seq_allocate_n PMU_MAX_NUM_SEQUENCES SeqTable.empty
        = .ok (List.range PMU_MAX_NUM_SEQUENCES, full) ∧
      ∃ t1, seq_free 37 full = (t1, .ok ()) ∧ ∃ t2 d, seq_allocate t1 = (t2, .ok (37, d)) :=
  match seq_table_exhaustion_and_reuse with
  | ⟨full, hrun, _, _, hfree⟩ => ⟨full, hrun, hfree 37 (by decide)⟩

/-! ## Command/message queue -/

/-- Rounding up to the queue alignment gives the least multiple of 4 that is
at least `len`. -/
theorem alignUp_queue_alignment (len : Nat) :
    alignUp len QUEUE_ALIGNMENT % QUEUE_ALIGNMENT = 0 ∧
    len ≤ alignUp len QUEUE_ALIGNMENT ∧ alignUp len QUEUE_ALIGNMENT < len + QUEUE_ALIGNMENT := by
  unfold alignUp QUEUE_ALIGNMENT
  omega

/-- What a successful `read` or `write` does to the position. -/
theorem pmu_queue_advance_ok (q q1 : pmu_queue) (oflag len : Nat)
    (h : pmu_queue_advance q oflag len = .ok q1) :
    q.opened = true ∧ q.oflag = oflag ∧
    q1.position = (if q.size ≤ q.position then 0 else q.position)
      + alignUp len QUEUE_ALIGNMENT ∧
    q1.position ≤ q1.size ∧ q1.size = q.size ∧ q1.offset = q.offset := by
  unfold pmu_queue_advance at h
  by_cases hopen : q.opened = false ∨ q.oflag ≠ oflag
  · rw [if_pos hopen] at h
    cases h
  · rw [if_neg hopen] at h
    by_cases hmis : 2 ^ 32 ≤ alignUp len QUEUE_ALIGNMENT
    · rw [if_pos hmis] at h
      cases h
    · rw [if_neg hmis] at h
      dsimp only at h
      by_cases hfit : q.size < (if q.size ≤ q.position then 0 else q.position)
          + alignUp len QUEUE_ALIGNMENT
      · rw [if_pos hfit] at h
        cases h
      · rw [if_neg hfit] at h
        cases h
        refine ⟨?_, ?_, rfl, Nat.le_of_not_lt hfit, rfl, rfl⟩
        · cases ho : q.opened
          · exact absurd (Or.inl ho) hopen
          · rfl
        · by_contra hne
          exact hopen (Or.inr hne)

/-- C16: in every reachable state of a queue, `pmu_queue.position` is a
multiple of `QUEUE_ALIGNMENT = 4` (and does not exceed the size of the
queue); each successful `write` or `read` moves the position forward by `len`
rounded up to the alignment, starting again from the beginning of the queue
when the position had reached its size. -/
theorem pmu_queue_position_aligned (id index offset size : Nat) (q : pmu_queue)
    (h : QueueReachable id index offset size q) :
    QUEUE_ALIGNMENT = 4 ∧
    q.position % QUEUE_ALIGNMENT = 0 ∧
    (q.position ≤ q.size ∧ q.size = size ∧ q.offset = offset) ∧
    (∀ (len : Nat) (q1 : pmu_queue),
      (pmu_queue_write q len = .ok q1 ∨ pmu_queue_read q len = .ok q1) →
      q1.position = (if q.size ≤ q.position then 0 else q.position)
        + alignUp len QUEUE_ALIGNMENT ∧
      q1.position % QUEUE_ALIGNMENT = 0 ∧
      len ≤ alignUp len QUEUE_ALIGNMENT ∧ alignUp len QUEUE_ALIGNMENT < len + QUEUE_ALIGNMENT) := by
  have h4 : QUEUE_ALIGNMENT = 4 := rfl
  have hinv : q.position % QUEUE_ALIGNMENT = 0 ∧
      (q.position ≤ q.size ∧ q.size = size ∧ q.offset = offset) := by
    induction h with
    | init => exact ⟨rfl, Nat.zero_le _, rfl, rfl⟩
    | after_open q oflag _ ih => exact ih
    | after_close q _ ih => exact ih
    | after_rewind q _ ih => exact ⟨rfl, Nat.zero_le _, ih.2.2.1, ih.2.2.2⟩
    | after_write q q1 len _ hw ih =>
      obtain ⟨_, _, hpos, hle, hsz, hoff⟩ := pmu_queue_advance_ok q q1 _ len hw
      have ha := (alignUp_queue_alignment len).1
      have hp := ih.1
      refine ⟨?_, hle, by rw [hsz]; exact ih.2.2.1, by rw [hoff]; exact ih.2.2.2⟩
      rw [hpos]
      rw [h4] at ha hp ⊢
      split <;> omega
    | after_read q q1 len _ hr ih =>
      obtain ⟨_, _, hpos, hle, hsz, hoff⟩ := pmu_queue_advance_ok q q1 _ len hr
      have ha := (alignUp_queue_alignment len).1
      have hp := ih.1
      refine ⟨?_, hle, by rw [hsz]; exact ih.2.2.1, by rw [hoff]; exact ih.2.2.2⟩
      rw [hpos]
      rw [h4] at ha hp ⊢
      split <;> omega
  refine ⟨rfl, hinv.1, hinv.2, ?_⟩
  intro len q1 hq1
  have hadv : ∃ oflag, pmu_queue_advance q oflag len = .ok q1 := by
    rcases hq1 with hw | hr
    · exact ⟨_, hw⟩
    · exact ⟨_, hr⟩
  obtain ⟨oflag, hadv⟩ := hadv
  obtain ⟨_, _, hpos, _, _, _⟩ := pmu_queue_advance_ok q q1 oflag len hadv
  obtain ⟨ha, hb, hc⟩ := alignUp_queue_alignment len
  refine ⟨hpos, ?_, hb, hc⟩
  have hp := hinv.1
  rw [hpos]
  rw [h4] at ha hp ⊢
  split <;> omega

/-- C16 at a queue of 16 bytes opened for writing: writes of 10 and 3 bytes
take the position to 12 and 16, and the next write of 5 bytes starts again at
the beginning and ends at 8. -/
theorem pmu_queue_position_aligned_witness :
    pmu_queue_write (pmu_queue_open (pmu_queue_init 0 0 0x100 16) OFLAG_WRITE) 10
      = .ok (pmu_queue.mk 12 0x100 0 0 16 OFLAG_WRITE true) ∧
    pmu_queue_write (pmu_queue.mk 12 0x100 0 0 16 OFLAG_WRITE true) 3
      = .ok (pmu_queue.mk 16 0x100 0 0 16 OFLAG_WRITE true) ∧
    pmu_queue_write (pmu_queue.mk 16 0x100 0 0 16 OFLAG_WRITE true) 5
      = .ok (pmu_queue.mk 8 0x100 0 0 16 OFLAG_WRITE true) ∧
    (pmu_queue.mk 12 0x100 0 0 16 OFLAG_WRITE true).position % QUEUE_ALIGNMENT = 0 :=
  ⟨rfl, rfl, rfl,
    (pmu_queue_position_aligned 0 0 0x100 16 (pmu_queue.mk 12 0x100 0 0 16 OFLAG_WRITE true)
      (QueueReachable.after_write _ _ 10
        (QueueReachable.after_open _ OFLAG_WRITE QueueReachable.init) rfl)).2.1⟩

/-! ## Scatter-gather tables: alignment -/

/-- For a non-zero value below `2 ^ fuel`, `ffs_fuel` finds the exponent of
the largest power of two that divides it. -/
theorem ffs_fuel_spec (fuel : Nat) :
    ∀ x, 0 < x → x < 2 ^ fuel →
      2 ^ ffs_fuel fuel x ∣ x ∧ ¬ 2 ^ (ffs_fuel fuel x + 1) ∣ x := by
  induction fuel with
  | zero =>
    intro x h0 hx
    simp at hx
    omega
  | succ fuel ih =>
    intro x h0 hx
    by_cases hodd : x % 2 = 1
    · simp only [ffs_fuel, hodd, if_true, Nat.pow_zero, Nat.one_dvd, Nat.zero_add,
        Nat.pow_one, true_and]
      omega
    · have hx2 : x = 2 * (x / 2) := by omega
      have hlt : x / 2 < 2 ^ fuel := by
        rw [Nat.pow_succ] at hx
        omega
      obtain ⟨h1, h2⟩ := ih (x / 2) (by omega) hlt
      simp only [ffs_fuel, hodd, if_false]
      constructor
      · rw [Nat.pow_succ, Nat.mul_comm, hx2]
        exact Nat.mul_dvd_mul_left 2 (by simpa using h1)
      · intro hdiv
        apply h2
        rw [Nat.pow_succ, Nat.mul_comm] at hdiv
        have hdiv2 : 2 * 2 ^ (ffs_fuel fuel (x / 2) + 1) ∣ 2 * (x / 2) := by
          rw [← hx2]
          exact hdiv
        exact (Nat.mul_dvd_mul_iff_left (by decide)).mp hdiv2

/-- `pow2_alignment x` is the largest power of two dividing a non-zero `u64`
value `x`. -/
theorem pow2_alignment_spec (x : Nat) (h0 : 0 < x) (hx : x < 2 ^ 64) :
    pow2_alignment x ∣ x ∧ ∀ k, 2 ^ k ∣ x → 2 ^ k ∣ pow2_alignment x := by
  obtain ⟨h1, h2⟩ := ffs_fuel_spec 64 x h0 hx
  refine ⟨h1, ?_⟩
  intro k hk
  unfold pow2_alignment
  apply Nat.pow_dvd_pow
  by_contra hgt
  have hle : ffs_fuel 64 x + 1 ≤ k := by omega
  exact h2 (Nat.dvd_trans (Nat.pow_dvd_pow 2 hle) hk)

/-- The running minimum of the loop over the entries: it is the start value or
the alignment of an entry, and it is at most each of them. -/
theorem foldl_min_chunk_align (l : List nvgpu_mem_sgl) :
    ∀ a : Nat,
      (l.foldl (fun align e => min align (sgl_chunk_align e)) a ≤ a) ∧
      (∀ e ∈ l, l.foldl (fun align e => min align (sgl_chunk_align e)) a ≤ sgl_chunk_align e) ∧
      (l.foldl (fun align e => min align (sgl_chunk_align e)) a = a ∨
        ∃ e ∈ l, l.foldl (fun align e => min align (sgl_chunk_align e)) a = sgl_chunk_align e) := by
  induction l with
  | nil =>
    intro a
    simp
  | cons x xs ih =>
    intro a
    obtain ⟨h1, h2, h3⟩ := ih (min a (sgl_chunk_align x))
    simp only [List.foldl_cons, List.mem_cons]
    refine ⟨by omega, ?_, ?_⟩
    · rintro e (rfl | he)
      · omega
      · exact h2 e he
    · rcases h3 with h3 | ⟨e, he, h3⟩
      · by_cases hle : a ≤ sgl_chunk_align x
        · left
          rw [h3]
          omega
        · right
          refine ⟨x, Or.inl rfl, ?_⟩
          rw [h3]
          omega
      · exact Or.inr ⟨e, Or.inr he, h3⟩

/-- The alignment computed from the physical entries of a non-empty chain is
the least of the alignments of its entries. -/
theorem sgl_phys_alignment_min (l : List nvgpu_mem_sgl) (hne : l ≠ []) :
    (∃ e ∈ l, sgl_phys_alignment l = sgl_chunk_align e) ∧
    (∀ e ∈ l, sgl_phys_alignment l ≤ sgl_chunk_align e) := by
  cases l with
  | nil => exact absurd rfl hne
  | cons first rest =>
    obtain ⟨h1, h2, h3⟩ := foldl_min_chunk_align rest (sgl_chunk_align first)
    simp only [sgl_phys_alignment, List.mem_cons]
    constructor
    · rcases h3 with h3 | ⟨e, he, h3⟩
      · exact ⟨first, Or.inl rfl, h3⟩
      · exact ⟨e, Or.inr he, h3⟩
    · rintro e (rfl | he)
      · exact h1
      · exact h2 e he

theorem or_mod_two_pow_eq (a b k : Nat) :
    (a ||| b) % 2 ^ k = (a % 2 ^ k) ||| (b % 2 ^ k) := by
  apply Nat.eq_of_testBit_eq
  intro i
  simp only [Nat.testBit_mod_two_pow, Nat.testBit_or]
  by_cases h : i < k <;> simp [h]

theorem nat_or_eq_zero_iff (a b : Nat) : a ||| b = 0 ↔ a = 0 ∧ b = 0 := by
  constructor
  · intro h
    constructor
    · apply Nat.eq_of_testBit_eq
      intro i
      have := congrArg (fun x => Nat.testBit x i) h
      simp only [Nat.testBit_or, Nat.zero_testBit, Bool.or_eq_false_iff] at this
      simp [this.1]
    · apply Nat.eq_of_testBit_eq
      intro i
      have := congrArg (fun x => Nat.testBit x i) h
      simp only [Nat.testBit_or, Nat.zero_testBit, Bool.or_eq_false_iff] at this
      simp [this.2]
  · rintro ⟨rfl, rfl⟩
    rfl

/-- A power of two divides the OR of two numbers exactly when it divides
both. -/
theorem two_pow_dvd_or_iff (a b k : Nat) :
    2 ^ k ∣ (a ||| b) ↔ 2 ^ k ∣ a ∧ 2 ^ k ∣ b := by
  rw [Nat.dvd_iff_mod_eq_zero, Nat.dvd_iff_mod_eq_zero, Nat.dvd_iff_mod_eq_zero,
    or_mod_two_pow_eq, nat_or_eq_zero_iff]

/-- The alignment of an entry with `u64` members, not both zero, is the
largest power of two dividing its physical address OR its length. -/
theorem sgl_chunk_align_spec (e : nvgpu_mem_sgl)
    (h : e.phys < 2 ^ 64 ∧ e.length < 2 ^ 64 ∧ (e.phys ||| e.length) ≠ 0) :
    sgl_chunk_align e = 2 ^ ffs_fuel 64 (e.phys ||| e.length) ∧
    sgl_chunk_align e ∣ (e.phys ||| e.length) ∧
    ∀ k, 2 ^ k ∣ (e.phys ||| e.length) → 2 ^ k ∣ sgl_chunk_align e := by
  obtain ⟨h1, h2, h3⟩ := h
  have hs := pow2_alignment_spec (e.phys ||| e.length) (Nat.pos_of_ne_zero h3)
    (Nat.or_lt_two_pow h1 h2)
  exact ⟨rfl, hs.1, hs.2⟩

/-- The four rows of the table of the test pass whatever the second switch
is. -/
theorem test_nvgpu_sgt_alignment_non_iommu_passes (p : nvgpu_os_posix) :
    test_nvgpu_sgt_alignment_non_iommu p = .UNIT_SUCCESS := by
  obtain ⟨a, b⟩ := p
  cases a <;> cases b <;> decide

/-- C17: without an IOMMU, for every non-empty chain of entries with `u64`
members (address and length not both zero), `nvgpu_sgt_alignment` returns the
minimum over the entries of the largest power of two dividing (physical
address OR length): it is the alignment of one entry and at most that of every
entry, the alignment of an entry being a power of two that divides its address
OR length and is divided by every power of two that does. Hence the result
divides every address and every length and is divided by every power of two
that does. The entries (0, 1M), (0x400000, 1M), (0x200000, 1M) give 1M, the
entries (0x100000, 1M), (0x10000, 64K), (0x1000, 128K) give 4K, and the unit
test over `sgt_align_test_array` passes. -/
theorem nvgpu_sgt_alignment_non_iommu (p : nvgpu_os_posix) (sgt : nvgpu_sgt)
    (hp : p.mm_is_iommuable = false) (hne : sgt.sgl ≠ [])
    (hval : ∀ e ∈ sgt.sgl, e.phys < 2 ^ 64 ∧ e.length < 2 ^ 64 ∧ (e.phys ||| e.length) ≠ 0) :
    ((∃ e ∈ sgt.sgl, nvgpu_sgt_alignment p sgt = sgl_chunk_align e) ∧
      (∀ e ∈ sgt.sgl, nvgpu_sgt_alignment p sgt ≤ sgl_chunk_align e)) ∧
    (∀ e ∈ sgt.sgl, sgl_chunk_align e = 2 ^ ffs_fuel 64 (e.phys ||| e.length) ∧
      sgl_chunk_align e ∣ (e.phys ||| e.length) ∧
      ∀ k, 2 ^ k ∣ (e.phys ||| e.length) → 2 ^ k ∣ sgl_chunk_align e) ∧
    ((∀ e ∈ sgt.sgl, nvgpu_sgt_alignment p sgt ∣ e.phys ∧ nvgpu_sgt_alignment p sgt ∣ e.length) ∧
      (∀ k, (∀ e ∈ sgt.sgl, 2 ^ k ∣ e.phys ∧ 2 ^ k ∣ e.length) →
        2 ^ k ∣ nvgpu_sgt_alignment p sgt)) ∧
    (nvgpu_sgt_alignment p (nvgpu_sgt.mk [nvgpu_mem_sgl.mk 0 0 SZ_1M,
        nvgpu_mem_sgl.mk 0x400000 0x400000 SZ_1M, nvgpu_mem_sgl.mk 0x200000 0x200000 SZ_1M])
        = SZ_1M ∧
      nvgpu_sgt_alignment p (nvgpu_sgt.mk [nvgpu_mem_sgl.mk 0x100000 0x100000 SZ_1M,
        nvgpu_mem_sgl.mk 0x10000 0x10000 SZ_64K, nvgpu_mem_sgl.mk 0x1000 0x1000 SZ_128K])
        = SZ_4K) ∧
    test_nvgpu_sgt_alignment_non_iommu p = .UNIT_SUCCESS := by
  have hres : nvgpu_sgt_alignment p sgt = sgl_phys_alignment sgt.sgl := by
    unfold nvgpu_sgt_alignment
    cases hs : sgt.sgl with
    | nil => exact absurd hs hne
    | cons first rest => simp [hp]
  obtain ⟨⟨e0, he0, hmin⟩, hle⟩ := sgl_phys_alignment_min sgt.sgl hne
  rw [← hres] at hmin hle
  refine ⟨⟨⟨e0, he0, hmin⟩, hle⟩, fun e he => sgl_chunk_align_spec e (hval e he), ⟨?_, ?_⟩,
    ⟨?_, ?_⟩, test_nvgpu_sgt_alignment_non_iommu_passes p⟩
  · intro e he
    obtain ⟨hpow, hdvd, _⟩ := sgl_chunk_align_spec e (hval e he)
    obtain ⟨hpow0, _, _⟩ := sgl_chunk_align_spec e0 (hval e0 he0)
    have hle2 := hle e he
    rw [hmin, hpow0, hpow] at hle2
    have hexp : ffs_fuel 64 (e0.phys ||| e0.length) ≤ ffs_fuel 64 (e.phys ||| e.length) :=
      (Nat.pow_le_pow_iff_right (by decide)).mp hle2
    have hd : nvgpu_sgt_alignment p sgt ∣ (e.phys ||| e.length) := by
      rw [hmin, hpow0]
      exact Nat.dvd_trans (Nat.pow_dvd_pow 2 hexp) (hpow ▸ hdvd)
    rw [hmin, hpow0] at hd ⊢
    exact (two_pow_dvd_or_iff _ _ _).mp hd
  · intro k hk
    obtain ⟨_, _, hmax⟩ := sgl_chunk_align_spec e0 (hval e0 he0)
    rw [hmin]
    exact hmax k ((two_pow_dvd_or_iff _ _ _).mpr (hk e0 he0))
  · obtain ⟨a, b⟩ := p
    simp only at hp
    subst hp
    cases b <;> decide
  · obtain ⟨a, b⟩ := p
    simp only at hp
    subst hp
    cases b <;> decide

/-- C17 at the chain (0, 1M), (0x400000, 1M), (0x200000, 1M) without an IOMMU:
the alignment 1M divides the address and the length of every entry. -/
theorem nvgpu_sgt_alignment_non_iommu_witness :
    nvgpu_sgt_alignment (nvgpu_os_posix.mk false true)
      (nvgpu_sgt.mk [nvgpu_mem_sgl.mk 0 0 SZ_1M, nvgpu_mem_sgl.mk 0x400000 0x400000 SZ_1M,
        nvgpu_mem_sgl.mk 0x200000 0x200000 SZ_1M]) = SZ_1M ∧
    ∀ e ∈ [nvgpu_mem_sgl.mk 0 0 SZ_1M, nvgpu_mem_sgl.mk 0x400000 0x400000 SZ_1M,
        nvgpu_mem_sgl.mk 0x200000 0x200000 SZ_1M],
      nvgpu_sgt_alignment (nvgpu_os_posix.mk false true)
        (nvgpu_sgt.mk [nvgpu_mem_sgl.mk 0 0 SZ_1M, nvgpu_mem_sgl.mk 0x400000 0x400000 SZ_1M,
          nvgpu_mem_sgl.mk 0x200000 0x200000 SZ_1M]) ∣ e.phys ∧
      nvgpu_sgt_alignment (nvgpu_os_posix.mk false true)
        (nvgpu_sgt.mk [nvgpu_mem_sgl.mk 0 0 SZ_1M, nvgpu_mem_sgl.mk 0x400000 0x400000 SZ_1M,
          nvgpu_mem_sgl.mk 0x200000 0x200000 SZ_1M]) ∣ e.length :=
  have h := nvgpu_sgt_alignment_non_iommu (nvgpu_os_posix.mk false true)
    (nvgpu_sgt.mk [nvgpu_mem_sgl.mk 0 0 SZ_1M, nvgpu_mem_sgl.mk 0x400000 0x400000 SZ_1M,
      nvgpu_mem_sgl.mk 0x200000 0x200000 SZ_1M]) rfl (by simp) (by decide)
  ⟨h.2.2.2.1.1, h.2.2.1.1⟩

/-! ## Scatter-gather tables: alignment with an IOMMU -/

set_option maxRecDepth 100000 in
/-- C18: `nvgpu_sgt_alignment` returns the alignment of the DMA address of the
first entry (the largest power of two dividing it) when the GPU is
IOMMU-able, the table is IOMMU-able and that DMA address is not zero, and the
alignment computed from the physical entries when one of the three conditions
fails. For a buffer of 256M at the physical address 4K, whose DMA address is
512M or 0, the seven combinations that lack a condition give 4K, which is not
the DMA address, and the combination with all three gives the DMA address
512M; the unit test of the IOMMU case passes. -/
theorem nvgpu_sgt_alignment_iommu_path (p : nvgpu_os_posix) (first : nvgpu_mem_sgl)
    (rest : List nvgpu_mem_sgl) :
    ((p.mm_is_iommuable = true ∧ p.mm_sgt_is_iommuable = true ∧ first.dma ≠ 0) →
      nvgpu_sgt_alignment p (nvgpu_sgt.mk (first :: rest)) = pow2_alignment first.dma ∧
      (first.dma < 2 ^ 64 → pow2_alignment first.dma ∣ first.dma ∧
        ∀ k, 2 ^ k ∣ first.dma → 2 ^ k ∣ pow2_alignment first.dma)) ∧
    (¬ (p.mm_is_iommuable = true ∧ p.mm_sgt_is_iommuable = true ∧ first.dma ≠ 0) →
      nvgpu_sgt_alignment p (nvgpu_sgt.mk (first :: rest))
        = sgl_phys_alignment (first :: rest)) ∧
    (∀ iommu sgt_iommu dma_set : Bool,
      nvgpu_sgt_alignment (nvgpu_os_posix.mk iommu sgt_iommu)
        ((nvgpu_sgt_create_from_mem (nvgpu_mem.mk SZ_256M SZ_4K)).set_dma
          (if dma_set then 2 * SZ_256M else 0))
        = (if iommu && sgt_iommu && dma_set then 2 * SZ_256M else SZ_4K) ∧
      (nvgpu_sgt_alignment (nvgpu_os_posix.mk iommu sgt_iommu)
        ((nvgpu_sgt_create_from_mem (nvgpu_mem.mk SZ_256M SZ_4K)).set_dma
          (if dma_set then 2 * SZ_256M else 0))
        = (if dma_set then 2 * SZ_256M else 0) ↔
          (iommu = true ∧ sgt_iommu = true ∧ dma_set = true))) ∧
    test_nvgpu_sgt_alignment_with_iommu = .UNIT_SUCCESS := by
  refine ⟨?_, ?_, ?_, by decide⟩
  · rintro ⟨h1, h2, h3⟩
    constructor
    · simp [nvgpu_sgt_alignment, h1, h2, h3]
    · intro hlt
      exact pow2_alignment_spec first.dma (Nat.pos_of_ne_zero h3) hlt
  · intro h
    unfold nvgpu_sgt_alignment
    simp only
    split
    · rename_i hc
      exfalso
      apply h
      simp only [Bool.and_eq_true, bne_iff_ne, ne_eq] at hc
      exact ⟨hc.1.1, hc.1.2, hc.2⟩
    · rfl
  · intro a b c
    cases a <;> cases b <;> cases c <;> decide

/-- C18 at a table of one entry with DMA address `0x20000000`, GPU and table
IOMMU-able: the alignment is the largest power of two dividing the DMA
address, here the address itself. -/
theorem nvgpu_sgt_alignment_iommu_path_witness :
    nvgpu_sgt_alignment (nvgpu_os_posix.mk true true)
      (nvgpu_sgt.mk [nvgpu_mem_sgl.mk SZ_4K 0x20000000 SZ_256M]) = pow2_alignment 0x20000000 ∧
    pow2_alignment 0x20000000 = 0x20000000 ∧
    nvgpu_sgt_alignment (nvgpu_os_posix.mk false true)
      (nvgpu_sgt.mk [nvgpu_mem_sgl.mk SZ_4K 0x20000000 SZ_256M])
        = sgl_phys_alignment [nvgpu_mem_sgl.mk SZ_4K 0x20000000 SZ_256M] :=
  ⟨((nvgpu_sgt_alignment_iommu_path (nvgpu_os_posix.mk true true)
      (nvgpu_mem_sgl.mk SZ_4K 0x20000000 SZ_256M) []).1 ⟨rfl, rfl, by decide⟩).1,
    by decide,
    (nvgpu_sgt_alignment_iommu_path (nvgpu_os_posix.mk false true)
      (nvgpu_mem_sgl.mk SZ_4K 0x20000000 SZ_256M) []).2.1 (by decide)⟩

/-! ## Scatter-gather tables: walking a chain -/

theorem sgl_build_length (entry : Nat → nvgpu_mem_sgl) (n : Nat) :
    (sgl_build entry n).length = n := by
  induction n with
  | zero => rfl
  | succ n ih => simp [sgl_build, ih]

/-- `k` steps of `nvgpu_sgt_get_next` along a chain that has at least `k`
entries drop its first `k` entries. -/
theorem sgt_walk_eq_drop (sgt : nvgpu_sgt) (k : Nat) :
    ∀ l : List nvgpu_mem_sgl, k ≤ l.length → sgt_walk sgt k l = some (l.drop k) := by
  induction k with
  | zero =>
    intro l _
    rfl
  | succ k ih =>
    intro l hl
    cases l with
    | nil => simp at hl
    | cons e rest =>
      simp only [sgt_walk, nvgpu_sgt_get_next, List.drop_succ_cons]
      exact ih rest (by simpa using hl)

/-- The checking loop of the test agrees at each of its `n` steps on a chain
that has at least `n` entries, and ends past the first `n` entries. -/
theorem sgt_get_next_loop_ok (sgt : nvgpu_sgt) (n : Nat) :
    ∀ l : List nvgpu_mem_sgl, n ≤ l.length →
      sgt_get_next_loop sgt n l l = some (.UNIT_SUCCESS, l.drop n) := by
  induction n with
  | zero =>
    intro l _
    rfl
  | succ n ih =>
    intro l hl
    cases l with
    | nil => simp at hl
    | cons e rest =>
      simp only [sgt_get_next_loop, nvgpu_sgt_get_next, List.drop_succ_cons, ne_eq,
        not_true_eq_false, if_false]
      exact ih rest (by simpa using hl)

/-- The test of `nvgpu_sgt_get_next` passes for every number of entries. -/
theorem test_nvgpu_sgt_get_next_passes (n : Nat) :
    test_nvgpu_sgt_get_next n = some .UNIT_SUCCESS := by
  have hlen := sgl_build_length (fun i => nvgpu_mem_sgl.mk i i i) n
  have hloop := sgt_get_next_loop_ok
    (nvgpu_sgt.mk (sgl_build (fun i => nvgpu_mem_sgl.mk i i i) n)) n
    (sgl_build (fun i => nvgpu_mem_sgl.mk i i i) n) (by omega)
  have hdrop : (sgl_build (fun i => nvgpu_mem_sgl.mk i i i) n).drop n = [] := by
    rw [List.drop_eq_nil_iff]
    omega
  rw [hdrop] at hloop
  simp only [test_nvgpu_sgt_get_next, hloop]
  rfl

/-- C19: in a chain of `n >= 1` entries, the pointer reached from the head by
`k < n` applications of `nvgpu_sgt_get_next` points to entry `k` of the chain;
applied to it, `nvgpu_sgt_get_next` returns the successor of entry `k`, which
is `NULL` exactly for the last entry; `n` applications from the head end at
`NULL`; and the unit test, which builds such a chain and walks it, passes for
every length, in particular for `SGL_LEN = 100`. -/
theorem nvgpu_sgt_get_next_walks_chain (sgt : nvgpu_sgt) (chain : List nvgpu_mem_sgl)
    (hn : 1 ≤ chain.length) :
    (∀ k, k < chain.length →
      ∃ e next, sgt_walk sgt k chain = some (e :: next) ∧ chain[k]? = some e ∧
        nvgpu_sgt_get_next sgt (e :: next) = some next ∧ next = chain.drop (k + 1) ∧
        sgt_walk sgt (k + 1) chain = some next ∧
        (next = [] ↔ k + 1 = chain.length)) ∧
    (∃ last, chain[chain.length - 1]? = some last ∧
      sgt_walk sgt (chain.length - 1) chain = some [last] ∧
      nvgpu_sgt_get_next sgt [last] = some []) ∧
    sgt_walk sgt chain.length chain = some [] ∧
    (∀ n, test_nvgpu_sgt_get_next n = some .UNIT_SUCCESS) ∧
    test_nvgpu_sgt_get_next 100 = some .UNIT_SUCCESS := by
  refine ⟨?_, ?_, ?_, test_nvgpu_sgt_get_next_passes, test_nvgpu_sgt_get_next_passes 100⟩
  · intro k hk
    have hdrop : chain.drop k = chain[k] :: chain.drop (k + 1) := List.drop_eq_getElem_cons hk
    refine ⟨chain[k], chain.drop (k + 1), ?_, ?_, rfl, rfl, ?_, ?_⟩
    · rw [sgt_walk_eq_drop sgt k chain (by omega), hdrop]
    · exact List.getElem?_eq_getElem hk
    · exact sgt_walk_eq_drop sgt (k + 1) chain (by omega)
    · rw [List.drop_eq_nil_iff]
      omega
  · have hk : chain.length - 1 < chain.length := by omega
    have hdrop : chain.drop (chain.length - 1) = [chain[chain.length - 1]] := by
      rw [List.drop_eq_getElem_cons hk]
      have hnil : chain.drop (chain.length - 1 + 1) = [] := by
        rw [List.drop_eq_nil_iff]
        omega
      rw [hnil]
    refine ⟨chain[chain.length - 1], List.getElem?_eq_getElem hk, ?_, rfl⟩
    rw [sgt_walk_eq_drop sgt _ chain (by omega), hdrop]
  · rw [sgt_walk_eq_drop sgt chain.length chain (Nat.le_refl _), List.drop_length]

/-- C19 at the chain of three entries that the test would build: two steps
from the head reach the last entry, whose successor is `NULL`. -/
theorem nvgpu_sgt_get_next_walks_chain_witness :
    ∃ e next, sgt_walk (nvgpu_sgt.mk (sgl_build (fun i => nvgpu_mem_sgl.mk i i i) 3)) 2
        (sgl_build (fun i => nvgpu_mem_sgl.mk i i i) 3) = some (e :: next) ∧
      (sgl_build (fun i => nvgpu_mem_sgl.mk i i i) 3)[2]? = some e ∧
      nvgpu_sgt_get_next (nvgpu_sgt.mk (sgl_build (fun i => nvgpu_mem_sgl.mk i i i) 3))
        (e :: next) = some next ∧
      next = (sgl_build (fun i => nvgpu_mem_sgl.mk i i i) 3).drop (2 + 1) ∧
      sgt_walk (nvgpu_sgt.mk (sgl_build (fun i => nvgpu_mem_sgl.mk i i i) 3)) (2 + 1)
        (sgl_build (fun i => nvgpu_mem_sgl.mk i i i) 3) = some next ∧
      (next = [] ↔ 2 + 1 = (sgl_build (fun i => nvgpu_mem_sgl.mk i i i) 3).length) :=
  (nvgpu_sgt_get_next_walks_chain (nvgpu_sgt.mk (sgl_build (fun i => nvgpu_mem_sgl.mk i i i) 3))
    (sgl_build (fun i => nvgpu_mem_sgl.mk i i i) 3) (by decide)).1 2 (by decide)


/-! ## The PMU trace dump: accesses to `part_str` -/

/-- Every `k` used on `part_str` by the formatting loop is below 40. -/
theorem format_loop_part_str_k (find_hex : Nat → Option Nat) (mem : Nat → Nat) (i fuel : Nat) :
    ∀ count l m, ∀ k ∈ (format_loop find_hex mem i fuel count l m).part_str_k, k < 40 := by
  induction fuel with
  | zero =>
    intro count l m k hk
    simp [format_loop] at hk
  | succ fuel ih =>
    intro count l m k hk
    unfold format_loop at hk
    split at hk
    · simp [format_rest] at hk
    · rename_i k0 _
      split at hk
      · simp [format_rest] at hk
      · rename_i hlt
        simp only [List.mem_cons] at hk
        rcases hk with rfl | hk
        · omega
        · exact ih _ _ _ k hk

/-- Every record handled by the outer loop uses only `k < 40` on `part_str`. -/
theorem trace_loop_part_str_k (find_hex : Nat → Option Nat) (mem : Nat → Nat) (fuel n : Nat) :
    ∀ i, ∀ r ∈ (trace_loop find_hex mem fuel n i).records, ∀ k ∈ r.2.part_str_k, k < 40 := by
  induction n with
  | zero =>
    intro i r hr
    simp [trace_loop] at hr
  | succ n ih =>
    intro i r hr k hk
    unfold trace_loop at hr
    split at hr
    · split at hr
      · simp at hr
      · split at hr
        · simp only [List.mem_cons] at hr
          rcases hr with rfl | hr
          · exact format_loop_part_str_k find_hex mem i fuel _ _ _ k hk
          · exact ih _ r hr k hk
        · simp only [List.mem_singleton] at hr
          subst hr
          exact format_loop_part_str_k find_hex mem i fuel _ _ _ k hk
    · simp at hr

/-- C24: whatever `nvgpu_find_hex_in_string` reports, whatever the trace
buffer holds and however long the loops run, each `k` with which
`print_pmu_trace` copies `k` bytes into `part_str` and writes `part_str[k]`
is below 40, so that every index `0..k` of `part_str` that is accessed is
inside the array of 40 bytes; and a reported `k >= 40` ends the loop without
any access to `part_str`. -/
theorem print_pmu_trace_part_str_in_bounds (find_hex : Nat → Option Nat)
    (tracebuffer : Option (Nat → Nat)) (fuel : Nat) :
    (∀ r ∈ (print_pmu_trace find_hex tracebuffer fuel).records, ∀ k ∈ r.2.part_str_k,
      k < 40 ∧ ∀ idx, idx ≤ k → idx < PMU_TRACE_PART_STR_LEN) ∧
    (∀ (mem : Nat → Nat) (i count l m k : Nat), find_hex (i + 20 + m) = some k → 40 ≤ k →
      (format_loop find_hex mem i (fuel + 1) count l m).part_str_k = []) ∧
    (∀ (mem : Nat → Nat) (i count l m k : Nat), find_hex (i + 20 + m) = some k → k < 40 →
      (format_loop find_hex mem i (fuel + 1) count l m).part_str_k.head? = some k) := by
  refine ⟨?_, ?_, ?_⟩
  · intro r hr k hk
    have hk40 : k < 40 := by
      cases tracebuffer with
      | none => simp [print_pmu_trace] at hr
      | some mem => exact trace_loop_part_str_k find_hex mem fuel _ 0 r hr k hk
    refine ⟨hk40, ?_⟩
    intro idx hidx
    unfold PMU_TRACE_PART_STR_LEN
    omega
  · intro mem i count l m k hfind hk
    simp [format_loop, hfind, hk, format_rest]
  · intro mem i count l m k hfind hk
    have hnot : ¬ 40 ≤ k := by omega
    simp [format_loop, hfind, hnot]

/-! ## The PMU trace dump: which records are logged -/

/-- The search for the first `%x` reports a position at or after the start,
with no NUL up to the `x`, and a `%x` or `%X` there. -/
theorem find_hex_scan_spec (mem : Nat → Nat) (a : Nat) :
    ∀ n p k, find_hex_scan mem a n p = some k →
      p ≤ k ∧ (∀ q, p ≤ q → q ≤ k + 1 → trace_byte mem (a + q) ≠ 0) ∧
        trace_byte mem (a + k) = 0x25 ∧
        (trace_byte mem (a + k + 1) = 0x78 ∨ trace_byte mem (a + k + 1) = 0x58) := by
  intro n
  induction n with
  | zero =>
    intro p k h
    simp [find_hex_scan] at h
  | succ n ih =>
    intro p k h
    rw [find_hex_scan] at h
    by_cases h0 : trace_byte mem (a + p) = 0
    · rw [if_pos h0] at h
      simp at h
    · rw [if_neg h0] at h
      by_cases hx : trace_byte mem (a + p) = 0x25 ∧
          (trace_byte mem (a + p + 1) = 0x78 ∨ trace_byte mem (a + p + 1) = 0x58)
      · rw [if_pos hx] at h
        have hk : p = k := Option.some.inj h
        subst hk
        refine ⟨Nat.le_refl _, ?_, hx.1, hx.2⟩
        intro q hq1 hq2
        have hq : q = p ∨ q = p + 1 := by omega
        rcases hq with e | e
        · subst e
          exact h0
        · subst e
          have e2 : a + (p + 1) = a + p + 1 := by omega
          rw [e2]
          rcases hx.2 with h78 | h58
          · rw [h78]
            decide
          · rw [h58]
            decide
      · rw [if_neg hx] at h
        obtain ⟨h1, h2, h3, h4⟩ := ih (p + 1) k h
        refine ⟨by omega, ?_, h3, h4⟩
        intro q hq1 hq2
        by_cases e : q = p
        · subst e
          exact h0
        · exact h2 q (by omega) hq2

theorem nvgpu_find_hex_in_string_inside (mem : Nat → Nat) (n : Nat) :
    FindsInsideString mem (nvgpu_find_hex_in_string mem n) := by
  intro a k h p hp
  exact (find_hex_scan_spec mem a n 0 k h).2.1 p (Nat.zero_le _) hp

theorem nvgpu_find_hex_in_string_reports (mem : Nat → Nat) (n : Nat) :
    ReportsHexPosition mem (nvgpu_find_hex_in_string mem n) := by
  intro a k h
  exact (find_hex_scan_spec mem a n 0 k h).2.2


/-! ## The PMU trace dump: reads and writes out of bounds -/

/-- The outer loop does the same for two searches and two fuels that give the
same line for every record of the buffer. -/
theorem trace_loop_congr (find_hex find_hex2 : Nat → Option Nat) (mem : Nat → Nat)
    (fuel fuel2 : Nat)
    (h : ∀ i, i < GK20A_PMU_TRACE_BUFSIZE → i % 0x40 = 0 →
      format_record find_hex mem fuel i = format_record find_hex2 mem fuel2 i) :
    ∀ n i, i % 0x40 = 0 →
      trace_loop find_hex mem fuel n i = trace_loop find_hex2 mem fuel2 n i := by
  intro n
  induction n with
  | zero =>
    intro i _
    rfl
  | succ n ih =>
    intro i hi
    by_cases hin : i < GK20A_PMU_TRACE_BUFSIZE
    · rw [trace_loop, trace_loop, h i hin hi, ih (i + 0x40) (by omega)]
    · rw [trace_loop, trace_loop, if_neg hin, if_neg hin]

/-- The line of a record whose text has no `%x` at its start position: the
index and the rest of the text. -/
theorem format_record_no_hex (find_hex : Nat → Option Nat) (mem : Nat → Nat) (fuel i : Nat)
    (h : find_hex (i + 20) = none) :
    format_record find_hex mem (fuel + 1) i = format_record (fun _ => none) mem 1 i := by
  simp only [format_record, format_loop, Nat.add_zero, h]

/-- A non-empty record of the buffer is handled by the pass that starts at
it. -/
theorem trace_loop_first_record (find_hex : Nat → Option Nat) (mem : Nat → Nat)
    (fuel n i : Nat) (hin : i < GK20A_PMU_TRACE_BUFSIZE)
    (hscan : (scan_record mem i 0x40 0).1 ≠ 0x40) :
    (i, format_record find_hex mem fuel i) ∈ (trace_loop find_hex mem fuel (n + 1) i).records := by
  rw [trace_loop, if_pos hin, if_neg hscan]
  by_cases hfin : (format_record find_hex mem fuel i).finished = true
  · rw [if_pos hfin]
    exact List.mem_cons_self _ _
  · rw [if_neg hfin]
    exact List.mem_cons_self _ _

set_option maxRecDepth 1000000 in
theorem trace_one_word_records_scan :
    0x1000 ∈ (trace_loop (fun _ => none) trace_one_word_records 1 256 0).scan_reads ∧
    0x100F ∈ (trace_loop (fun _ => none) trace_one_word_records 1 256 0).scan_reads := by
  decide

set_option maxRecDepth 1000000 in
/-- C21 (the claim fails): the scan for an empty record reads 0x40 words from
word `i / 4` on, although a record has 0x10 words. On a buffer whose records 0
to 252 hold one non-zero word each and whose last three records are empty, the
scan at `i = 0x3F40` reads `trace1[0x1000]` to `trace1[0x100F]`, the 0x40 bytes
after the 0x4000-byte copy, whatever lies there, for every
`nvgpu_find_hex_in_string` that reports positions inside the string. -/
theorem print_pmu_trace_scan_reads_past_buffer (find_hex : Nat → Option Nat)
    (hfind : FindsInsideString trace_one_word_records find_hex) (fuel : Nat) (hfuel : 0 < fuel) :
    0x1000 ∈ (print_pmu_trace find_hex (some trace_one_word_records) fuel).scan_reads ∧
    0x100F ∈ (print_pmu_trace find_hex (some trace_one_word_records) fuel).scan_reads ∧
    ¬ (0x1000 < GK20A_PMU_TRACE_BUFSIZE / 4) := by
  have hp : print_pmu_trace find_hex (some trace_one_word_records) fuel
      = trace_loop find_hex trace_one_word_records fuel 256 0 := rfl
  have hnone : ∀ i, i % 0x40 = 0 → find_hex (i + 20) = none := by
    intro i hi
    cases hf : find_hex (i + 20) with
    | none => rfl
    | some k =>
      exfalso
      apply hfind (i + 20) k hf 0 (by omega)
      unfold trace_byte trace_one_word_records
      rw [if_neg (by omega)]
  obtain ⟨f, rfl⟩ : ∃ f, fuel = f + 1 := ⟨fuel - 1, by omega⟩
  have hc := trace_loop_congr find_hex (fun _ => none) trace_one_word_records (f + 1) 1
    (fun i _ hi => format_record_no_hex find_hex trace_one_word_records f i (hnone i hi))
    256 0 (by decide)
  rw [hp, hc]
  exact ⟨trace_one_word_records_scan.1, trace_one_word_records_scan.2, by decide⟩

/-- An instance of C21: a search that finds nothing. -/
theorem print_pmu_trace_scan_reads_past_buffer_witness :
    0x1000 ∈ (print_pmu_trace (fun _ => none) (some trace_one_word_records) 1).scan_reads ∧
    0x100F ∈ (print_pmu_trace (fun _ => none) (some trace_one_word_records) 1).scan_reads ∧
    ¬ (0x1000 < GK20A_PMU_TRACE_BUFSIZE / 4) :=
  print_pmu_trace_scan_reads_past_buffer (fun _ => none)
    (fun _ _ h => Option.noConfusion h) 1 (by decide)

set_option maxRecDepth 1000000 in
theorem trace_unterminated_record_line :
    (format_record (fun _ => none) trace_unterminated_record 1 0).buf_writes
      = [(0, 17), (16, 0x40)] ∧
    (scan_record trace_unterminated_record 0 0x40 0).1 ≠ 0x40 := by
  decide

set_option maxRecDepth 1000000 in
/-- C22 (the claim fails): every `scnprintf` into `buf + count` is given the
size 0x40, not `0x40 - count`. On a buffer whose first two records are filled
with the letter `A`, the line of record 0 is `Index 41414141: ` (16
characters), and the last `scnprintf` writes 0x40 bytes at `buf + 16`, up to
`buf[0x4F]`, for every `nvgpu_find_hex_in_string` that reports only positions
of a `%x`. On the record `A=%x B=%x C=%x D=%x` with the index and the
arguments 0x10000000 the fourth `scnprintf` of the loop writes 14 bytes at
`buf + 54`, up to `buf[0x43]`. -/
theorem print_pmu_trace_writes_past_buf (find_hex : Nat → Option Nat)
    (hfind : ReportsHexPosition trace_unterminated_record find_hex)
    (fuel : Nat) (hfuel : 0 < fuel) :
    (∃ r ∈ (print_pmu_trace find_hex (some trace_unterminated_record) fuel).records,
      r.1 = 0 ∧ r.2.buf_writes = [(0, 17), (16, 0x40)] ∧ ¬ (16 + 0x40 ≤ PMU_TRACE_BUF_LEN)) ∧
    ((print_pmu_trace (nvgpu_find_hex_in_string trace_four_args 0x40)
        (some trace_four_args) 0x40).records.map (fun r => (r.1, r.2.buf_writes))
      = [(0, [(0, 17), (16, 13), (28, 14), (41, 14), (54, 14), (67, 1)])] ∧
      ¬ (54 + 14 ≤ PMU_TRACE_BUF_LEN)) := by
  refine ⟨?_, by decide, by decide⟩
  have hnone : find_hex (0 + 20) = none := by
    cases hf : find_hex (0 + 20) with
    | none => rfl
    | some k =>
      exfalso
      have h1 := (hfind (0 + 20) k hf).1
      unfold trace_byte trace_unterminated_record at h1
      by_cases hlt : 0 + 20 + k < 0x80
      · rw [if_pos hlt] at h1
        exact absurd h1 (by decide)
      · rw [if_neg hlt] at h1
        exact absurd h1 (by decide)
  obtain ⟨f, rfl⟩ : ∃ f, fuel = f + 1 := ⟨fuel - 1, by omega⟩
  refine ⟨(0, format_record find_hex trace_unterminated_record (f + 1) 0), ?_, rfl, ?_, by decide⟩
  · exact trace_loop_first_record find_hex trace_unterminated_record (f + 1) 255 0 (by decide)
      trace_unterminated_record_line.2
  · rw [format_record_no_hex find_hex trace_unterminated_record f 0 hnone]
    exact trace_unterminated_record_line.1

/-- An instance of C22: a search that finds nothing. -/
theorem print_pmu_trace_writes_past_buf_witness :
    (∃ r ∈ (print_pmu_trace (fun _ => none) (some trace_unterminated_record) 1).records,
      r.1 = 0 ∧ r.2.buf_writes = [(0, 17), (16, 0x40)] ∧ ¬ (16 + 0x40 ≤ PMU_TRACE_BUF_LEN)) :=
  (print_pmu_trace_writes_past_buf (fun _ => none)
    (fun _ _ h => Option.noConfusion h) 1 (by decide)).1


/-! ## `ZBC_MASK` and the sizes of commands and messages -/

set_option maxRecDepth 100000 in
/-- C25: on 32 bits in two's complement, `ZBC_MASK(i)` is `2^(i+1) - 2` for
`0 <= i <= 15`, that is bits 1 to `i` set and bit 0 clear, with
`ZBC_MASK(0) = 0`; it is 0xfffe for `15 <= i <= 30`; it is monotone
non-decreasing on 0..30; and it is below `2^16`, so it fits the `u16` member
`entry_mask` of `struct pmu_zbc_cmd`. -/
theorem ZBC_MASK_values :
    (∀ i, i ≤ 15 → ZBC_MASK i = 2 ^ (i + 1) - 2) ∧
    (∀ i, i ≤ 15 → ∀ b, b < 32 → (ZBC_MASK i).testBit b = decide (1 ≤ b ∧ b ≤ i)) ∧
    ZBC_MASK 0 = 0 ∧
    (∀ i, 15 ≤ i → i ≤ 30 → ZBC_MASK i = 0xfffe) ∧
    (∀ i j, i ≤ j → j ≤ 30 → ZBC_MASK i ≤ ZBC_MASK j) ∧
    (∀ i, i ≤ 30 → ZBC_MASK i < 2 ^ 16) ∧
    struct_pmu_zbc_cmd.resolve 0 [.member "entry_mask"] = some (.u16, 2) ∧
    CType.u16.sizeof = 2 := by
  have hval : ∀ i, i < 31 → ZBC_MASK i = if i ≤ 15 then 2 ^ (i + 1) - 2 else 0xfffe := by
    decide
  have hbits : ∀ i, i < 16 → ∀ b, b < 32 →
      (ZBC_MASK i).testBit b = decide (1 ≤ b ∧ b ≤ i) := by
    decide
  have hmono : ∀ j, j < 31 → ∀ i, i < j + 1 → ZBC_MASK i ≤ ZBC_MASK j := by
    decide
  refine ⟨?_, ?_, by decide, ?_, ?_, ?_, rfl, by decide⟩
  · intro i hi
    rw [hval i (by omega), if_pos hi]
  · intro i hi b hb
    exact hbits i (by omega) b hb
  · intro i h1 h2
    rw [hval i (by omega)]
    by_cases h : i ≤ 15
    · have e : i = 15 := by omega
      subst e
      decide
    · rw [if_neg h]
  · intro i j hij hj
    exact hmono j (by omega) i (by omega)
  · intro i hi
    have hle := hmono 30 (by omega) i (by omega)
    have h30 : ZBC_MASK 30 = 0xfffe := by decide
    omega

set_option maxRecDepth 100000 in
/-- C26: under natural alignment `sizeof(struct pmu_cmd)` is 36 and
`sizeof(struct pmu_msg)` is 60, both at most 255; the header together with any
layout a command or message body can take is no larger than that, so its total
size is kept by the one-byte member `hdr.size`; the largest body is the init
message v2 with 56 bytes. -/
theorem pmu_cmd_msg_sizes_fit_hdr_size :
    struct_pmu_cmd.sizeof = 36 ∧ struct_pmu_msg.sizeof = 60 ∧
    struct_pmu_cmd.sizeof ≤ 255 ∧ struct_pmu_msg.sizeof ≤ 255 ∧
    PMU_CMD_HDR_SIZE = 4 ∧ PMU_MSG_HDR_SIZE = 4 ∧
    (∀ v ∈ body_variants (member_type struct_pmu_cmd "cmd"),
      PMU_CMD_HDR_SIZE + v.2.sizeof ≤ struct_pmu_cmd.sizeof ∧
      u8 (PMU_CMD_HDR_SIZE + v.2.sizeof) = PMU_CMD_HDR_SIZE + v.2.sizeof) ∧
    (∀ v ∈ body_variants (member_type struct_pmu_msg "msg"),
      PMU_MSG_HDR_SIZE + v.2.sizeof ≤ struct_pmu_msg.sizeof ∧
      v.2.sizeof ≤ struct_pmu_init_msg_pmu_v2.sizeof ∧
      u8 (PMU_MSG_HDR_SIZE + v.2.sizeof) = PMU_MSG_HDR_SIZE + v.2.sizeof) ∧
    (∀ v ∈ body_variants (member_type struct_pmu_cmd "cmd"),
      v.2.sizeof ≤ struct_pmu_init_msg_pmu_v2.sizeof) ∧
    struct_pmu_init_msg_pmu_v2.sizeof = 56 ∧
    PMU_MSG_HDR_SIZE + struct_pmu_init_msg_pmu_v2.sizeof = struct_pmu_msg.sizeof ∧
    u8 struct_pmu_cmd.sizeof = 36 ∧ u8 struct_pmu_msg.sizeof = 60 ∧
    (body_variants (member_type struct_pmu_cmd "cmd")).map Prod.fst =
      ["perfmon", "cmd_type", "start_v0", "start_v1", "start_v2", "start_v3", "stop",
       "init_v0", "init_v1", "init_v2", "init_v3", "pg", "cmd_type", "elpg_cmd",
       "eng_buf_load_v0", "eng_buf_load_v1", "eng_buf_load_v2", "stat", "gr_init_param",
       "ap_cmd", "cmd_type", "cmn", "init", "init_and_enable_ctrl", "enable_ctrl",
       "disable_ctrl", "kick_ctrl", "zbc", "acr", "cmd_type", "bootstrap_falcon",
       "init_wpr", "boot_falcons", "lrf_tex_ltc_dram", "cmd_type", "en_dis"] ∧
    (body_variants (member_type struct_pmu_msg "msg")).map Prod.fst =
      ["init", "msg_type", "pmu_init_v1", "pmu_init_v0", "pmu_init_v2", "pmu_init_v3",
       "perfmon", "msg_type", "gen", "pg", "msg_type", "elpg_msg", "stat", "eng_buf_stat",
       "ap_msg", "msg_type", "cmn", "init_ack", "rc", "acr", "msg_type", "acrmsg",
       "lrf_tex_ltc_dram", "msg_type", "en_dis"] ∧
    struct_pmu_hdr.resolve 0 [.member "size"] = some (.u8, 1) := by
  refine ⟨by decide, by decide, by decide, by decide, by decide, by decide, by decide,
    by decide, by decide, by decide, by decide, by decide, by decide, by decide, by decide, rfl⟩


/-! ## The PMU trace dump: runs that stay in bounds -/

end PmuGk20a
